import Mathlib

/-!
Verification of the dungeon-store core of the Dungeons-and-Dragons agent app.

This development shallowly embeds the storage engine (`src/core/mongo_fs.py`,
`src/core/db.py`), the envelope builder (`src/core/result_format.py`) and the
DSL field parser / envelope builder (`src/dsl/dungeon_dsl.py`).

Modelling conventions:
* A MongoDB collection is a list of documents in natural (insertion) order;
  `find_one` is `List.find?`, `update_one` updates the first match,
  `update_many` / `delete_many` map / filter over the list.  The partial
  unique indexes installed by `db.ensure_indexes` make `insert_one` raise
  `DuplicateKeyError` exactly when a non-deleted document with the same key
  tuple already exists; insertion of a document with `deleted = true` is
  never indexed and therefore never conflicts.
* Python values stored in envelopes and metadata maps are modelled by the
  JSON-like type `PyVal`; Python dicts are insertion-ordered association
  lists with unique keys, updated in place.
* `db.utcnow()` returns a *string* (`datetime.utcnow().strftime(...)`), while
  `datetime.fromtimestamp` produces a datetime object.  Timestamp slots are
  therefore the sum type `TS`; calling `.timestamp()` on the string form
  raises `AttributeError`, which the embedding propagates in `Except`.
* Functions raise by returning `Except.error msg`; expected conditions are
  returned as error envelopes inside `Except.ok`, exactly as in the source.
-/

namespace DnD

/-- Python values as stored in envelopes, payloads and metadata maps.
Dicts are insertion-ordered association lists. -/
inductive PyVal where
  | none
  | bool (b : Bool)
  | int (n : Int)
  | float (q : ℚ)
  | str (s : String)
  | list (xs : List PyVal)
  | dict (kvs : List (String × PyVal))

mutual

/-- Boolean equality on `PyVal` (structural). -/
def PyVal.beq : PyVal → PyVal → Bool
  | .none, .none => true
  | .bool a, .bool b => a = b
  | .int a, .int b => a = b
  | .float a, .float b => a = b
  | .str a, .str b => a = b
  | .list xs, .list ys => PyVal.beqList xs ys
  | .dict xs, .dict ys => PyVal.beqKVs xs ys
  | _, _ => false

/-- Boolean equality on lists of `PyVal`. -/
def PyVal.beqList : List PyVal → List PyVal → Bool
  | [], [] => true
  | x :: xs, y :: ys => PyVal.beq x y && PyVal.beqList xs ys
  | _, _ => false

/-- Boolean equality on association lists of `PyVal`. -/
def PyVal.beqKVs : List (String × PyVal) → List (String × PyVal) → Bool
  | [], [] => true
  | (k, v) :: xs, (k', v') :: ys =>
      k = k' && PyVal.beq v v' && PyVal.beqKVs xs ys
  | _, _ => false

end

mutual

theorem PyVal.eq_of_beq : ∀ {a b : PyVal}, PyVal.beq a b = true → a = b
  | .none, .none, _ => rfl
  | .bool _, .bool _, h => by
      simp only [PyVal.beq, decide_eq_true_eq] at h; exact h ▸ rfl
  | .int _, .int _, h => by
      simp only [PyVal.beq, decide_eq_true_eq] at h; exact h ▸ rfl
  | .float _, .float _, h => by
      simp only [PyVal.beq, decide_eq_true_eq] at h; exact h ▸ rfl
  | .str _, .str _, h => by
      simp only [PyVal.beq, decide_eq_true_eq] at h; exact h ▸ rfl
  | .list xs, .list ys, h => by
      simp only [PyVal.beq] at h
      exact congrArg PyVal.list (PyVal.eqList_of_beqList h)
  | .dict xs, .dict ys, h => by
      simp only [PyVal.beq] at h
      exact congrArg PyVal.dict (PyVal.eqKVs_of_beqKVs h)

theorem PyVal.eqList_of_beqList :
    ∀ {xs ys : List PyVal}, PyVal.beqList xs ys = true → xs = ys
  | [], [], _ => rfl
  | x :: xs, y :: ys, h => by
      simp only [PyVal.beqList, Bool.and_eq_true] at h
      exact congrArg₂ List.cons (PyVal.eq_of_beq h.1) (PyVal.eqList_of_beqList h.2)

theorem PyVal.eqKVs_of_beqKVs :
    ∀ {xs ys : List (String × PyVal)}, PyVal.beqKVs xs ys = true → xs = ys
  | [], [], _ => rfl
  | (k, v) :: xs, (k', v') :: ys, h => by
      simp only [PyVal.beqKVs, Bool.and_eq_true, decide_eq_true_eq] at h
      obtain ⟨⟨hk, hv⟩, hrest⟩ := h
      exact congrArg₂ List.cons
        (by rw [hk, PyVal.eq_of_beq hv]) (PyVal.eqKVs_of_beqKVs hrest)

end

mutual

theorem PyVal.beq_refl : ∀ (a : PyVal), PyVal.beq a a = true
  | .none => rfl
  | .bool b => by simp [PyVal.beq]
  | .int n => by simp [PyVal.beq]
  | .float q => by simp [PyVal.beq]
  | .str s => by simp [PyVal.beq]
  | .list xs => by simpa only [PyVal.beq] using PyVal.beqList_refl xs
  | .dict kvs => by simpa only [PyVal.beq] using PyVal.beqKVs_refl kvs

theorem PyVal.beqList_refl : ∀ (xs : List PyVal), PyVal.beqList xs xs = true
  | [] => rfl
  | x :: xs => by
      simp only [PyVal.beqList, Bool.and_eq_true]
      exact ⟨PyVal.beq_refl x, PyVal.beqList_refl xs⟩

theorem PyVal.beqKVs_refl :
    ∀ (xs : List (String × PyVal)), PyVal.beqKVs xs xs = true
  | [] => rfl
  | (k, v) :: xs => by
      simp only [PyVal.beqKVs, Bool.and_eq_true, decide_eq_true_eq]
      exact ⟨⟨by trivial, PyVal.beq_refl v⟩, PyVal.beqKVs_refl xs⟩

end

instance : DecidableEq PyVal := fun a b =>
  decidable_of_iff (PyVal.beq a b = true)
    ⟨PyVal.eq_of_beq, fun h => h ▸ PyVal.beq_refl a⟩

/-- Python truthiness of a `PyVal` (`if x:`). -/
def pyTruthy : PyVal → Bool
  | .none => false
  | .bool b => b
  | .int n => n ≠ 0
  | .float q => q ≠ 0
  | .str s => !s.isEmpty
  | .list xs => !xs.isEmpty
  | .dict kvs => !kvs.isEmpty

/-- Lookup in a Python dict (association list): the first (and, for dicts
built by Python, only) binding of the key. -/
def pget : List (String × PyVal) → String → Option PyVal
  | [], _ => Option.none
  | (k', v) :: rest, k => if k' = k then some v else pget rest k

/-- `d[k] = v` on a Python dict: replace in place if the key exists,
otherwise append. -/
def pset (kvs : List (String × PyVal)) (k : String) (v : PyVal) :
    List (String × PyVal) :=
  match kvs with
  | [] => [(k, v)]
  | (k', v') :: rest =>
      if k' = k then (k', v) :: rest else (k', v') :: pset rest k v

/-- A timestamp slot in a stored document: either the formatted string that
`db.utcnow()` produces, or a datetime carrying an epoch value (as produced by
`datetime.fromtimestamp` in `import_dungeon`). -/
inductive TS where
  | str (s : String)
  | epoch (t : Int)
deriving DecidableEq

/-- `x.timestamp()` on a timestamp slot: datetimes yield their epoch value,
the string form raises `AttributeError`. -/
def TS.timestampCall : TS → Except String Int
  | .str _ => .error "AttributeError: \x27str\x27 object has no attribute \x27timestamp\x27"
  | .epoch t => .ok t

/-- `db.utcnow()`: formats the current time as a string
(`datetime.utcnow().strftime("%Y-%m-%d %H:%M:%S")`).  The exact formatting is
irrelevant to every property proved here; only the fact that the result is a
string (and so has no `.timestamp()` method) matters. -/
def utcnow (now : Int) : TS := .str (toString now)

/-- A document of the `dungeons` collection. -/
structure DungeonDoc where
  name : String
  summary : Option String
  user_id : String
  created_at : TS
  updated_at : TS
  deleted : Bool
deriving DecidableEq

/-- A document of the `rooms` collection. -/
structure RoomDoc where
  dungeon : String
  name : String
  summary : Option String
  user_id : String
  created_at : TS
  updated_at : TS
  deleted : Bool
deriving DecidableEq

/-- A document of the `items` collection. -/
structure ItemDoc where
  dungeon : String
  room : String
  category : String
  name : String
  user_id : String
  summary : Option String
  notes_md : Option String
  tags : List String
  metadata : List (String × PyVal)
  created_at : TS
  updated_at : TS
  deleted : Bool
deriving DecidableEq

/-- The three MongoDB collections used by `mongo_fs`, each a list of
documents in natural (insertion) order. -/
structure Store where
  dungeons : List DungeonDoc
  rooms : List RoomDoc
  items : List ItemDoc
deriving DecidableEq

/-- Valid item categories (`mongo_fs.CATEGORIES`). -/
def CATEGORIES : List String := ["puzzles", "traps", "treasures", "enemies"]

/-- Python truthiness test `if not user_id:` on an `Optional[str]`. -/
def userMissing : Option String → Bool
  | Option.none => true
  | some s => s.isEmpty

/-- An `Optional[str]` as a `PyVal` (Python `None` or `str`). -/
def optStr : Option String → PyVal
  | Option.none => .none
  | some s => .str s

/-- Filter `{"name": name, "user_id": u}` on the dungeons collection. -/
def dKey (name u : String) (d : DungeonDoc) : Bool :=
  d.name == name && d.user_id == u

/-- Filter `{"name": name, "user_id": u, "deleted": False}`. -/
def dLive (name u : String) (d : DungeonDoc) : Bool :=
  d.name == name && d.user_id == u && !d.deleted

/-- Filter `{"dungeon": dg, "name": name, "user_id": u}` on rooms. -/
def rKey (dg name u : String) (r : RoomDoc) : Bool :=
  r.dungeon == dg && r.name == name && r.user_id == u

/-- Filter `{"dungeon": dg, "name": name, "user_id": u, "deleted": False}`. -/
def rLive (dg name u : String) (r : RoomDoc) : Bool :=
  r.dungeon == dg && r.name == name && r.user_id == u && !r.deleted

/-- Filter `{"dungeon": dg, "room": rm, "category": c, "name": name,
"user_id": u}` on items. -/
def iKey (dg rm c name u : String) (it : ItemDoc) : Bool :=
  it.dungeon == dg && it.room == rm && it.category == c &&
  it.name == name && it.user_id == u

/-- The same filter restricted to `"deleted": False`. -/
def iLive (dg rm c name u : String) (it : ItemDoc) : Bool :=
  iKey dg rm c name u it && !it.deleted

/-- An operation envelope as assembled by `result_format.make_result`.
The `meta` block (timestamp and duration) is read off wall clocks and is
modelled separately in the envelope-builder section below; the store-level
claims never inspect it. A missing `result` argument is already coerced to
`{}` here, as `make_result` does. -/
structure Env where
  status : String
  code : String
  message : String
  command : PyVal
  target : PyVal
  result : PyVal
  diff : Option PyVal
deriving DecidableEq

/-- The store-level functions either return an envelope together with the
updated store, or raise a native Python exception (modelled as `.error`). -/
abbrev MRes := Except String (Env × Store)

-- ---------- delete operations (`mongo_fs.delete_dungeon` / `delete_room`
-- ---------- / `delete_item`) ----------

/-- `mongo_fs.delete_dungeon`: hard cascading delete guarded by the
confirmation token `"DELETE:/" ++ dungeon`. -/
def delete_dungeon (s : Store) (dungeon : String) (token : Option String)
    (user_id : Option String) (raw : String) : MRes :=
  let cmd : PyVal := .dict [("raw", .str raw), ("name", .str "dungeon.delete"),
    ("args", .dict [("name", .str dungeon)])]
  let tgt : PyVal := .dict [("type", .str "dungeon"),
    ("path", .str ("/" ++ dungeon)), ("name", .str dungeon)]
  if userMissing user_id then
    .ok ({ status := "error", code := "ERROR_VALIDATION",
           message := "User ID is required.", command := cmd, target := tgt,
           result := .dict [], diff := Option.none }, s)
  else
    let u := user_id.getD ""
    match s.dungeons.find? (dKey dungeon u) with
    | Option.none =>
        .ok ({ status := "error", code := "ERROR_NOT_FOUND",
               message := "No dungeon \x27" ++ dungeon ++ "\x27.",
               command := cmd, target := tgt, result := .dict [],
               diff := Option.none }, s)
    | some _doc =>
        let expected := "DELETE:/" ++ dungeon
        if token ≠ some expected then
          .ok ({ status := "error", code := "ERROR_UNSAFE",
                 message := "Confirmation token required.",
                 command := cmd, target := tgt,
                 result := .dict [("confirm_required", .bool true),
                                  ("token_hint", .str expected)],
                 diff := Option.none }, s)
        else
          let s1 : Store :=
            { dungeons := s.dungeons.eraseP (dKey dungeon u),
              rooms := s.rooms.filter
                (fun r => !(r.dungeon == dungeon && r.user_id == u)),
              items := s.items.filter
                (fun it => !(it.dungeon == dungeon && it.user_id == u)) }
          .ok ({ status := "ok", code := "DELETED_HARD",
                 message := "Dungeon permanently deleted.",
                 command := cmd, target := tgt,
                 result := .dict [("deleted", .bool true), ("hard", .bool true)],
                 diff := some (.dict [("applied", .bool true),
                   ("changes", .list [.dict [("op", .str "remove"),
                     ("path", .str "/"), ("node_type", .str "dungeon"),
                     ("name", .str dungeon)]])]) }, s1)

/-- `mongo_fs.delete_room`: hard delete of a room and its items, guarded by
the token `"DELETE:/" ++ dungeon ++ "/" ++ room`. -/
def delete_room (s : Store) (dungeon room : String) (token : Option String)
    (user_id : Option String) (raw : String) : MRes :=
  let cmd : PyVal := .dict [("raw", .str raw), ("name", .str "room.delete"),
    ("args", .dict [("dungeon", .str dungeon), ("name", .str room)])]
  let tgt : PyVal := .dict [("type", .str "room"),
    ("path", .str ("/" ++ dungeon ++ "/" ++ room)), ("name", .str room)]
  if userMissing user_id then
    .ok ({ status := "error", code := "ERROR_VALIDATION",
           message := "User ID is required.", command := cmd, target := tgt,
           result := .dict [], diff := Option.none }, s)
  else
    let u := user_id.getD ""
    match s.rooms.find? (rKey dungeon room u) with
    | Option.none =>
        .ok ({ status := "error", code := "ERROR_NOT_FOUND",
               message := "Room \x27" ++ room ++ "\x27 not found in \x27" ++
                 dungeon ++ "\x27.",
               command := cmd, target := tgt, result := .dict [],
               diff := Option.none }, s)
    | some _doc =>
        let expected := "DELETE:/" ++ dungeon ++ "/" ++ room
        if token ≠ some expected then
          .ok ({ status := "error", code := "ERROR_UNSAFE",
                 message := "Confirmation token required.",
                 command := cmd, target := tgt,
                 result := .dict [("confirm_required", .bool true),
                                  ("token_hint", .str expected)],
                 diff := Option.none }, s)
        else
          let s1 : Store :=
            { dungeons := s.dungeons,
              rooms := s.rooms.eraseP (rKey dungeon room u),
              items := s.items.filter (fun it =>
                !(it.dungeon == dungeon && it.room == room && it.user_id == u)) }
          .ok ({ status := "ok", code := "DELETED_HARD",
                 message := "Room permanently deleted.",
                 command := cmd, target := tgt,
                 result := .dict [("deleted", .bool true), ("hard", .bool true)],
                 diff := some (.dict [("applied", .bool true),
                   ("changes", .list [.dict [("op", .str "remove"),
                     ("path", .str ("/" ++ dungeon)), ("node_type", .str "room"),
                     ("name", .str room)]])]) }, s1)

/-- `mongo_fs.delete_item`: hard delete of a single item, guarded by the
token `"DELETE:/" ++ dungeon ++ "/" ++ room ++ "/" ++ category ++ "/" ++ item`. -/
def delete_item (s : Store) (dungeon room category item : String)
    (token : Option String) (user_id : Option String) (raw : String) : MRes :=
  let path := "/" ++ dungeon ++ "/" ++ room ++ "/" ++ category ++ "/" ++ item
  let cmd : PyVal := .dict [("raw", .str raw), ("name", .str "item.delete"),
    ("args", .dict [("dungeon", .str dungeon), ("room", .str room),
      ("category", .str category), ("name", .str item)])]
  let tgt : PyVal := .dict [("type", .str "item"), ("path", .str path),
    ("name", .str item)]
  if userMissing user_id then
    .ok ({ status := "error", code := "ERROR_VALIDATION",
           message := "User ID is required.", command := cmd, target := tgt,
           result := .dict [], diff := Option.none }, s)
  else
    let u := user_id.getD ""
    match s.items.find? (iKey dungeon room category item u) with
    | Option.none =>
        .ok ({ status := "error", code := "ERROR_NOT_FOUND",
               message := "Item \x27" ++ item ++ "\x27 not found.",
               command := cmd, target := tgt, result := .dict [],
               diff := Option.none }, s)
    | some _doc =>
        let expected := "DELETE:/" ++ dungeon ++ "/" ++ room ++ "/" ++
          category ++ "/" ++ item
        if token ≠ some expected then
          .ok ({ status := "error", code := "ERROR_UNSAFE",
                 message := "Confirmation token required.",
                 command := cmd, target := tgt,
                 result := .dict [("confirm_required", .bool true),
                                  ("token_hint", .str expected)],
                 diff := Option.none }, s)
        else
          let s1 : Store :=
            { dungeons := s.dungeons, rooms := s.rooms,
              items := s.items.eraseP (iKey dungeon room category item u) }
          .ok ({ status := "ok", code := "DELETED_HARD",
                 message := "Item permanently deleted.",
                 command := cmd, target := tgt,
                 result := .dict [("deleted", .bool true), ("hard", .bool true)],
                 diff := some (.dict [("applied", .bool true),
                   ("changes", .list [.dict [("op", .str "remove"),
                     ("path", .str ("/" ++ dungeon ++ "/" ++ room ++ "/" ++ category)),
                     ("node_type", .str "item"), ("name", .str item)]])]) }, s1)

-- ---------- create operations (`mongo_fs.create_dungeon` / `create_room`
-- ---------- / `create_item`) ----------

/-- `update_one(filter, {"$set": ...})`: apply `f` to the first document
matching `p`, leaving the rest unchanged. -/
def updateFirst (p : α → Bool) (f : α → α) : List α → List α
  | [] => []
  | x :: xs => if p x then f x :: xs else x :: updateFirst p f xs

/-- The empty database. -/
def Store.empty : Store := ⟨[], [], []⟩

/-- The final `make_result` call of `create_dungeon` (source lines 76–87):
reads the document back, converting its timestamps with `.timestamp()` —
which raises `AttributeError` when the slot holds the string that
`db.utcnow()` produced. -/
def create_dungeon_result (code msg : String) (doc : DungeonDoc)
    (cmd tgt : PyVal) (s1 : Store) : MRes := do
  let ct ← doc.created_at.timestampCall
  let ut ← doc.updated_at.timestampCall
  .ok ({ status := "ok", code := code, message := msg,
         command := cmd, target := tgt,
         result := .dict [("dungeon", .dict [("name", .str doc.name),
           ("summary", optStr doc.summary), ("deleted", .bool doc.deleted),
           ("created_at", .int ct), ("updated_at", .int ut)])],
         diff := some (.dict [("applied", .bool (code == "CREATED")),
           ("changes", .list (if code == "CREATED" then
             [.dict [("op", .str "add"), ("path", .str "/"),
               ("node_type", .str "dungeon"), ("name", .str doc.name)]]
             else []))]) }, s1)

/-- `mongo_fs.create_dungeon`.  The partial unique index
`(user_id, name){deleted: False}` makes `insert_one` raise
`DuplicateKeyError` exactly when a non-deleted dungeon with this name
already exists for this user. -/
def create_dungeon (s : Store) (name : String) (summary : Option String)
    (exists_ok : Bool) (user_id : Option String) (raw : String)
    (now : Int) : MRes :=
  let cmd : PyVal := .dict [("raw", .str raw), ("name", .str "dungeon.create"),
    ("args", .dict [("name", .str name), ("summary", optStr summary),
      ("exists_ok", .bool exists_ok)])]
  let tgt : PyVal := .dict [("type", .str "dungeon"),
    ("path", .str ("/" ++ name)), ("name", .str name)]
  if userMissing user_id then
    .ok ({ status := "error", code := "ERROR_VALIDATION",
           message := "User ID is required.", command := cmd, target := tgt,
           result := .dict [], diff := Option.none }, s)
  else
    let u := user_id.getD ""
    let doc0 : DungeonDoc :=
      { name := name, summary := summary, user_id := u,
        created_at := utcnow now, updated_at := utcnow now, deleted := false }
    let conflictEnv : Env :=
      { status := "error", code := "ERROR_CONFLICT",
        message := "Dungeon \x27" ++ name ++ "\x27 already exists.",
        command := cmd, target := tgt, result := .dict [],
        diff := Option.none }
    if !(s.dungeons.any (dLive name u)) then
      create_dungeon_result "CREATED" "Dungeon created." doc0 cmd tgt
        { s with dungeons := s.dungeons ++ [doc0] }
    else if !exists_ok then
      .ok (conflictEnv, s)
    else
      match s.dungeons.find? (dLive name u) with
      | Option.none => .ok (conflictEnv, s)
      | some found =>
          create_dungeon_result "NOOP" "Dungeon exists; no change." found
            cmd tgt s

/-- `mongo_fs.create_room`. -/
def create_room (s : Store) (dungeon name : String) (summary : Option String)
    (exists_ok : Bool) (user_id : Option String) (raw : String)
    (now : Int) : MRes :=
  let cmd : PyVal := .dict [("raw", .str raw), ("name", .str "room.create"),
    ("args", .dict [("dungeon", .str dungeon), ("name", .str name),
      ("summary", optStr summary)])]
  let tgt : PyVal := .dict [("type", .str "room"),
    ("path", .str ("/" ++ dungeon ++ "/" ++ name)), ("name", .str name)]
  if userMissing user_id then
    .ok ({ status := "error", code := "ERROR_VALIDATION",
           message := "User ID is required.", command := cmd, target := tgt,
           result := .dict [], diff := Option.none }, s)
  else
    let u := user_id.getD ""
    if (s.dungeons.find? (dLive dungeon u)).isNone then
      .ok ({ status := "error", code := "ERROR_NOT_FOUND",
             message := "No dungeon \x27" ++ dungeon ++ "\x27.",
             command := cmd, target := tgt, result := .dict [],
             diff := Option.none }, s)
    else
      let doc0 : RoomDoc :=
        { dungeon := dungeon, name := name, summary := summary, user_id := u,
          created_at := utcnow now, updated_at := utcnow now,
          deleted := false }
      let dup := s.rooms.any (rLive dungeon name u)
      if dup && !exists_ok then
        .ok ({ status := "error", code := "ERROR_CONFLICT",
               message := "Room \x27" ++ name ++ "\x27 exists in \x27" ++
                 dungeon ++ "\x27.",
               command := .dict [("raw", .str raw), ("name", .str "room.create"),
                 ("args", .dict [("dungeon", .str dungeon),
                   ("name", .str name)])],
               target := tgt, result := .dict [], diff := Option.none }, s)
      else
        let code := if dup then "NOOP" else "CREATED"
        let msg := if dup then "Room exists; no change." else "Room created."
        let s1 := if dup then s
          else { s with rooms := s.rooms ++ [doc0] }
        .ok ({ status := "ok", code := code, message := msg,
               command := cmd, target := tgt,
               result := .dict [("room", .dict [("name", .str name),
                 ("summary", optStr summary), ("deleted", .bool false)])],
               diff := some (.dict [("applied", .bool (code == "CREATED")),
                 ("changes", .list (if code == "CREATED" then
                   [.dict [("op", .str "add"), ("path", .str ("/" ++ dungeon)),
                     ("node_type", .str "room"), ("name", .str name)]]
                   else []))]) }, s1)

/-- The payload dict handed to `create_item`: the keys it reads, with the
`.get` defaults already applied for `tags` / `metadata`. -/
structure Payload where
  name : Option String
  summary : Option String
  notes_md : Option String
  tags : List String
  metadata : List (String × PyVal)
deriving DecidableEq

/-- The `$set` document used by `create_item` on a duplicate with
`exists_ok`: every field of the freshly built document except `created_at`
(and `_id`).  Note that `metadata` is replaced wholesale, not merged. -/
def mergeItemSet (dungeon room category name u : String) (payload : Payload)
    (now : Int) (d : ItemDoc) : ItemDoc :=
  { d with
      dungeon := dungeon
      room := room
      category := category
      name := name
      user_id := u
      summary := payload.summary
      notes_md := payload.notes_md
      tags := payload.tags
      metadata := payload.metadata
      updated_at := utcnow now
      deleted := false }

/-- `mongo_fs.create_item`.  On a duplicate with `exists_ok`, the source
performs an "upsert-like merge": `update_one` with `$set` of every field of
the new document except `created_at` — wholesale replacement, not a merge. -/
def create_item (s : Store) (dungeon room category : String)
    (payload : Payload) (exists_ok : Bool) (user_id : Option String)
    (raw : String) (now : Int) : MRes :=
  let cmd0 : PyVal := .dict [("raw", .str raw), ("name", .str "item.create"),
    ("args", .dict [("dungeon", .str dungeon), ("room", .str room),
      ("category", .str category)])]
  if userMissing user_id then
    .ok ({ status := "error", code := "ERROR_VALIDATION",
           message := "User ID is required.", command := cmd0,
           target := .dict [("type", .str "category"),
             ("path", .str ("/" ++ dungeon ++ "/" ++ room ++ "/" ++ category)),
             ("name", .str category)],
           result := .dict [], diff := Option.none }, s)
  else if !(CATEGORIES.contains category) then
    .ok ({ status := "error", code := "ERROR_VALIDATION",
           message := "Invalid category.", command := cmd0,
           target := .dict [("type", .str "category"),
             ("path", .str ("/" ++ dungeon ++ "/" ++ room ++ "/" ++ category)),
             ("name", .str category)],
           result := .dict [], diff := Option.none }, s)
  else
    let u := user_id.getD ""
    if (s.rooms.find? (rLive dungeon room u)).isNone then
      .ok ({ status := "error", code := "ERROR_NOT_FOUND",
             message := "Room \x27" ++ room ++ "\x27 not found in \x27" ++
               dungeon ++ "\x27.",
             command := cmd0,
             target := .dict [("type", .str "room"),
               ("path", .str ("/" ++ dungeon ++ "/" ++ room)),
               ("name", .str room)],
             result := .dict [], diff := Option.none }, s)
    else if userMissing payload.name then
      .ok ({ status := "error", code := "ERROR_VALIDATION",
             message := "Item name required.", command := cmd0,
             target := .dict [("type", .str "item"),
               ("path", .str ("/" ++ dungeon ++ "/" ++ room ++ "/" ++
                 category ++ "/")), ("name", .str "")],
             result := .dict [], diff := Option.none }, s)
    else
      let name := payload.name.getD ""
      let doc0 : ItemDoc :=
        { dungeon := dungeon, room := room, category := category,
          name := name, user_id := u, summary := payload.summary,
          notes_md := payload.notes_md, tags := payload.tags,
          metadata := payload.metadata, created_at := utcnow now,
          updated_at := utcnow now, deleted := false }
      let dup := s.items.any (iLive dungeon room category name u)
      if dup && !exists_ok then
        .ok ({ status := "error", code := "ERROR_CONFLICT",
               message := "Item \x27" ++ name ++ "\x27 exists.",
               command := .dict [("raw", .str raw), ("name", .str "item.create"),
                 ("args", .dict [("dungeon", .str dungeon), ("room", .str room),
                   ("category", .str category), ("name", .str name)])],
               target := .dict [("type", .str "item"),
                 ("path", .str ("/" ++ dungeon ++ "/" ++ room ++ "/" ++
                   category ++ "/" ++ name)), ("name", .str name)],
               result := .dict [], diff := Option.none }, s)
      else
        let applied := !dup
        let code := if dup then "NOOP" else "CREATED"
        let msg := if dup then "Item existed; metadata updated."
          else "Item created."
        let s1 := if dup then
            let merged := updateFirst (iLive dungeon room category name u)
              (mergeItemSet dungeon room category name u payload now) s.items
            { s with items := merged }
          else { s with items := s.items ++ [doc0] }
        .ok ({ status := "ok", code := code, message := msg,
               command := .dict [("raw", .str raw), ("name", .str "item.create"),
                 ("args", .dict [("dungeon", .str dungeon), ("room", .str room),
                   ("category", .str category), ("name", .str name),
                   ("exists_ok", .bool exists_ok)])],
               target := .dict [("type", .str "item"),
                 ("path", .str ("/" ++ dungeon ++ "/" ++ room ++ "/" ++
                   category ++ "/" ++ name)), ("name", .str name)],
               result := .dict [("item", .dict [("name", .str name),
                 ("summary", optStr doc0.summary),
                 ("notes_md", optStr doc0.notes_md),
                 ("tags", .list (doc0.tags.map PyVal.str)),
                 ("metadata", .dict doc0.metadata),
                 ("deleted", .bool false)])],
               diff := some (.dict [("applied", .bool applied),
                 ("changes", .list (if applied then
                   [.dict [("op", .str "add"),
                     ("path", .str ("/" ++ dungeon ++ "/" ++ room ++ "/" ++
                       category)), ("node_type", .str "item"),
                     ("name", .str name)]]
                   else []))]) }, s1)

-- ---------- C1 ----------

/-- C1: for every owner, path and stored entity, calling `delete_dungeon`,
`delete_room` or `delete_item` with `token = None` or any token different
from `"DELETE:" ++ path` leaves the store untouched and returns an envelope
with status `"error"`, code `"ERROR_UNSAFE"`, and `result.token_hint` equal
to the exact string `"DELETE:" ++ path` (for a dungeon the path is
`"/" ++ name`, for a room `"/" ++ dungeon ++ "/" ++ room`, and for an item
the full four-segment path). -/
theorem unsafe_delete_never_mutates
    (s : Store) (u : String) (hu : u ≠ "") (raw : String)
    (token : Option String) :
    (∀ dungeon doc, s.dungeons.find? (dKey dungeon u) = some doc →
      token ≠ some ("DELETE:/" ++ dungeon) →
      ∃ env : Env,
        delete_dungeon s dungeon token (some u) raw = .ok (env, s) ∧
        env.status = "error" ∧ env.code = "ERROR_UNSAFE" ∧
        env.result = .dict [("confirm_required", .bool true),
          ("token_hint", .str ("DELETE:/" ++ dungeon))]) ∧
    (∀ dungeon room doc, s.rooms.find? (rKey dungeon room u) = some doc →
      token ≠ some ("DELETE:/" ++ dungeon ++ "/" ++ room) →
      ∃ env : Env,
        delete_room s dungeon room token (some u) raw = .ok (env, s) ∧
        env.status = "error" ∧ env.code = "ERROR_UNSAFE" ∧
        env.result = .dict [("confirm_required", .bool true),
          ("token_hint", .str ("DELETE:/" ++ dungeon ++ "/" ++ room))]) ∧
    (∀ dungeon room category item doc,
      s.items.find? (iKey dungeon room category item u) = some doc →
      token ≠ some ("DELETE:/" ++ dungeon ++ "/" ++ room ++ "/" ++ category
        ++ "/" ++ item) →
      ∃ env : Env,
        delete_item s dungeon room category item token (some u) raw =
          .ok (env, s) ∧
        env.status = "error" ∧ env.code = "ERROR_UNSAFE" ∧
        env.result = .dict [("confirm_required", .bool true),
          ("token_hint", .str ("DELETE:/" ++ dungeon ++ "/" ++ room ++ "/"
            ++ category ++ "/" ++ item))]) := by
  have hm : userMissing (some u) = false := by
    simp only [userMissing]
    exact (Bool.not_eq_true _).mp (fun h => hu ((String.isEmpty_iff u).mp h))
  refine ⟨?_, ?_, ?_⟩
  · intro dungeon doc hfind htok
    simp only [delete_dungeon, hm, Bool.false_eq_true, if_false,
      Option.getD_some, hfind]
    rw [if_pos htok]
    exact ⟨_, rfl, rfl, rfl, rfl⟩
  · intro dungeon room doc hfind htok
    simp only [delete_room, hm, Bool.false_eq_true, if_false,
      Option.getD_some, hfind]
    rw [if_pos htok]
    exact ⟨_, rfl, rfl, rfl, rfl⟩
  · intro dungeon room category item doc hfind htok
    simp only [delete_item, hm, Bool.false_eq_true, if_false,
      Option.getD_some, hfind]
    rw [if_pos htok]
    exact ⟨_, rfl, rfl, rfl, rfl⟩

/-- A concrete dungeon document (user `u1`, name `A`). -/
def W1d : DungeonDoc where
  name := "A"
  summary := Option.none
  user_id := "u1"
  created_at := .str "t"
  updated_at := .str "t"
  deleted := false

/-- A concrete room document (`A/R`). -/
def W1r : RoomDoc where
  dungeon := "A"
  name := "R"
  summary := Option.none
  user_id := "u1"
  created_at := .str "t"
  updated_at := .str "t"
  deleted := false

/-- A concrete item document (`A/R/traps/I`). -/
def W1i : ItemDoc where
  dungeon := "A"
  room := "R"
  category := "traps"
  name := "I"
  user_id := "u1"
  summary := Option.none
  notes_md := Option.none
  tags := []
  metadata := []
  created_at := .str "t"
  updated_at := .str "t"
  deleted := false

/-- A small concrete store: one dungeon `A` of user `u1`, one room `A/R`,
one item `A/R/traps/I`. -/
def W1 : Store where
  dungeons := [W1d]
  rooms := [W1r]
  items := [W1i]

/-- Witness for C1: concrete unsafe deletes (token `None`) on `W1`. -/
theorem unsafe_delete_never_mutates_witness :
    (∃ env : Env,
        delete_dungeon W1 "A" Option.none (some "u1") "" = .ok (env, W1) ∧
        env.status = "error" ∧ env.code = "ERROR_UNSAFE" ∧
        env.result = .dict [("confirm_required", .bool true),
          ("token_hint", .str ("DELETE:/" ++ "A"))]) ∧
    (∃ env : Env,
        delete_room W1 "A" "R" Option.none (some "u1") "" = .ok (env, W1) ∧
        env.status = "error" ∧ env.code = "ERROR_UNSAFE" ∧
        env.result = .dict [("confirm_required", .bool true),
          ("token_hint", .str ("DELETE:/" ++ "A" ++ "/" ++ "R"))]) ∧
    (∃ env : Env,
        delete_item W1 "A" "R" "traps" "I" Option.none (some "u1") "" =
          .ok (env, W1) ∧
        env.status = "error" ∧ env.code = "ERROR_UNSAFE" ∧
        env.result = .dict [("confirm_required", .bool true),
          ("token_hint", .str ("DELETE:/" ++ "A" ++ "/" ++ "R" ++ "/" ++
            "traps" ++ "/" ++ "I"))]) := by
  obtain ⟨h1, h2, h3⟩ :=
    unsafe_delete_never_mutates W1 "u1" (by decide) "" Option.none
  exact ⟨h1 "A" W1d (by decide) (by decide),
    h2 "A" "R" W1r (by decide) (by decide),
    h3 "A" "R" "traps" "I" W1i (by decide) (by decide)⟩

-- ---------- C2 ----------

/-- C2: refuted by the code.  `db.utcnow()` returns a formatted *string*
(`datetime.utcnow().strftime("%Y-%m-%d %H:%M:%S")`), `create_dungeon` stores
it in `created_at`/`updated_at`, and the success path then calls
`.timestamp()` on it (source lines 81–82).  So on a fresh name the function
does not return an ok/CREATED envelope with numeric epochs — it raises
`AttributeError`.  Evaluated here at the failing input: empty store, fresh
name `A`, owner `u1`. -/
theorem create_dungeon_raises_on_fresh_name :
    create_dungeon Store.empty "A" Option.none false (some "u1") "" 0 =
      .error "AttributeError: \x27str\x27 object has no attribute \x27timestamp\x27" :=
  rfl

-- ---------- C4 ----------

/-- An item document with pre-existing metadata `{"a": 1}` and a summary. -/
def W4i : ItemDoc where
  dungeon := "A"
  room := "R"
  category := "traps"
  name := "I"
  user_id := "u1"
  summary := some "old"
  notes_md := some "keep me"
  tags := ["x"]
  metadata := [("a", .int 1)]
  created_at := .str "t0"
  updated_at := .str "t0"
  deleted := false

/-- Store for the C4 counterexample: dungeon `A` (string timestamps, as
`create_dungeon` leaves them), room `A/R`, item `A/R/traps/I` with metadata
`{"a": 1}`. -/
def W4 : Store where
  dungeons := [W1d]
  rooms := [W1r]
  items := [W4i]

/-- The payload of the conflicting `create_item` call: same name `I`, new
metadata `{"b": 2}`, no summary/notes/tags. -/
def P4 : Payload where
  name := some "I"
  summary := Option.none
  notes_md := Option.none
  tags := []
  metadata := [("b", .int 2)]

/-- C4 counterexample: `create_item` with `exists_ok=True` on a duplicate
returns `NOOP` but does *not* leave the existing row unmodified except for a
shallow metadata merge — the stored metadata key `"a"` (value `1` before the
call) is gone afterwards, because the row's fields are `$set` wholesale from
the new payload.  Additionally, `create_dungeon` with `exists_ok=True` on a
duplicate whose stored timestamps are the strings `create_dungeon` itself
writes does not return a no-op envelope at all: it raises `AttributeError`. -/
theorem exists_ok_merge_loses_metadata :
    ((create_item W4 "A" "R" "traps" P4 true (some "u1") "" 0).toOption.map
        (fun p => (p.1.code,
          (p.2.items.find? (iLive "A" "R" "traps" "I" "u1")).map
            (fun d => (pget d.metadata "a", d.summary, d.created_at))))) =
      some ("NOOP", some (Option.none, Option.none, TS.str "t0")) ∧
    ((W4.items.find? (iLive "A" "R" "traps" "I" "u1")).map
        (fun d => pget d.metadata "a")) = some (some (PyVal.int 1)) ∧
    create_dungeon W4 "A" Option.none true (some "u1") "" 0 =
      .error "AttributeError: \x27str\x27 object has no attribute \x27timestamp\x27" :=
  ⟨rfl, rfl, rfl⟩

/-- `find?` after `updateFirst` with the same predicate returns the updated
first match, provided the update preserves the predicate. -/
theorem find?_updateFirst (p : α → Bool) (f : α → α) (l : List α) (x : α)
    (hf : l.find? p = some x) (hp : p (f x) = true) :
    (updateFirst p f l).find? p = some (f x) := by
  induction l with
  | nil => simp at hf
  | cons y ys ih =>
      by_cases hy : p y = true
      · rw [List.find?_cons_of_pos _ hy] at hf
        obtain rfl : y = x := by injection hf
        simp [updateFirst, hy, List.find?_cons_of_pos _ hp]
      · have hy' : p y = false := by simpa using hy
        rw [List.find?_cons_of_neg _ (by simp [hy'])] at hf
        simp [updateFirst, hy', List.find?_cons_of_neg,
          ih hf]

/-- C4 amended: with `exists_ok=True` on a uniqueness violation,
`create_dungeon` (when the stored row carries datetime timestamps; with the
string timestamps it itself writes it raises instead, see the
counterexample) and `create_room` return `NOOP` and leave the store
completely unchanged; `create_item` returns `NOOP` but *replaces* the
existing row's `summary`, `notes_md`, `tags` and `metadata` wholesale with
the new payload's values and refreshes `updated_at` — only `created_at` and
the identity fields survive; all other rows are untouched. -/
theorem exists_ok_noop_behaviour
    (s : Store) (u : String) (hu : u ≠ "") (raw : String) (now : Int) :
    (∀ name summary found ct ut,
      s.dungeons.find? (dLive name u) = some found →
      found.created_at = .epoch ct → found.updated_at = .epoch ut →
      ∃ env : Env,
        create_dungeon s name summary true (some u) raw now = .ok (env, s) ∧
        env.status = "ok" ∧ env.code = "NOOP") ∧
    (∀ dungeon name summary d,
      s.dungeons.find? (dLive dungeon u) = some d →
      s.rooms.any (rLive dungeon name u) = true →
      ∃ env : Env,
        create_room s dungeon name summary true (some u) raw now =
          .ok (env, s) ∧
        env.status = "ok" ∧ env.code = "NOOP") ∧
    (∀ dungeon room category payload name rdoc found,
      CATEGORIES.contains category = true →
      s.rooms.find? (rLive dungeon room u) = some rdoc →
      payload.name = some name → name ≠ "" →
      s.items.find? (iLive dungeon room category name u) = some found →
      ∃ env : Env, ∃ s1 : Store,
        create_item s dungeon room category payload true (some u) raw now =
          .ok (env, s1) ∧
        env.status = "ok" ∧ env.code = "NOOP" ∧
        s1.dungeons = s.dungeons ∧ s1.rooms = s.rooms ∧
        s1.items = updateFirst (iLive dungeon room category name u)
          (mergeItemSet dungeon room category name u payload now) s.items ∧
        s1.items.find? (iLive dungeon room category name u) =
          some (mergeItemSet dungeon room category name u payload now found) ∧
        (mergeItemSet dungeon room category name u payload now found).metadata
          = payload.metadata ∧
        (mergeItemSet dungeon room category name u payload now found).created_at
          = found.created_at) := by
  have hm : userMissing (some u) = false := by
    simp only [userMissing]
    exact (Bool.not_eq_true _).mp (fun h => hu ((String.isEmpty_iff u).mp h))
  refine ⟨?_, ?_, ?_⟩
  · intro name summary found ct ut hfind hct hut
    have hdup : s.dungeons.any (dLive name u) = true :=
      List.any_eq_true.mpr
        ⟨found, List.mem_of_find?_eq_some hfind, List.find?_some hfind⟩
    simp only [create_dungeon, hm, Bool.false_eq_true, if_false,
      Option.getD_some, hdup, Bool.not_true, hfind, create_dungeon_result,
      hct, hut, TS.timestampCall, Except.bind, Bot.bot]
    exact ⟨_, rfl, rfl, rfl⟩
  · intro dungeon name summary d hfind hdup
    have hnn : (s.dungeons.find? (dLive dungeon u)).isNone = false := by
      simp [hfind]
    simp only [create_room, hm, Bool.false_eq_true, if_false,
      Option.getD_some, hnn, hdup, Bool.not_true, Bool.and_false,
      if_true]
    exact ⟨_, rfl, rfl, rfl⟩
  · intro dungeon room category payload name rdoc found hcat hroom hname
      hne hfind
    have hnn : (s.rooms.find? (rLive dungeon room u)).isNone = false := by
      simp [hroom]
    have hnm : userMissing payload.name = false := by
      rw [hname]
      simp only [userMissing]
      exact (Bool.not_eq_true _).mp (fun h => hne ((String.isEmpty_iff name).mp h))
    have hdup : s.items.any (iLive dungeon room category name u) = true :=
      List.any_eq_true.mpr
        ⟨found, List.mem_of_find?_eq_some hfind, List.find?_some hfind⟩
    have hgd : payload.name.getD "" = name := by rw [hname]; rfl
    have hp : iLive dungeon room category name u
        (mergeItemSet dungeon room category name u payload now found) = true := by
      simp [iLive, iKey, mergeItemSet]
    simp only [create_item, hm, Bool.false_eq_true, if_false, hcat,
      Bool.not_true, Option.getD_some, hnn, hnm, hgd, hdup, Bool.and_false,
      if_true]
    exact ⟨_, _, rfl, rfl, rfl, rfl, rfl, rfl,
      find?_updateFirst _ _ _ _ hfind hp, rfl, rfl⟩

/-- A dungeon document with datetime (epoch) timestamps, as written by
`import_dungeon`. -/
def W4Ad : DungeonDoc where
  name := "A"
  summary := Option.none
  user_id := "u1"
  created_at := .epoch 5
  updated_at := .epoch 6
  deleted := false

/-- Witness store for the amended C4: dungeon `A` with epoch timestamps,
room `A/R`, item `A/R/traps/I` with metadata `{"a": 1}`. -/
def W4A : Store where
  dungeons := [W4Ad]
  rooms := [W1r]
  items := [W4i]

/-- Witness for the amended C4, at the concrete store `W4A`. -/
theorem exists_ok_noop_behaviour_witness :
    (∃ env : Env,
      create_dungeon W4A "A" Option.none true (some "u1") "" 0 =
        .ok (env, W4A) ∧
      env.status = "ok" ∧ env.code = "NOOP") ∧
    (∃ env : Env,
      create_room W4A "A" "R" Option.none true (some "u1") "" 0 =
        .ok (env, W4A) ∧
      env.status = "ok" ∧ env.code = "NOOP") ∧
    (∃ env : Env, ∃ s1 : Store,
      create_item W4A "A" "R" "traps" P4 true (some "u1") "" 0 =
        .ok (env, s1) ∧
      env.status = "ok" ∧ env.code = "NOOP" ∧
      s1.dungeons = W4A.dungeons ∧ s1.rooms = W4A.rooms ∧
      s1.items = updateFirst (iLive "A" "R" "traps" "I" "u1")
        (mergeItemSet "A" "R" "traps" "I" "u1" P4 0) W4A.items ∧
      s1.items.find? (iLive "A" "R" "traps" "I" "u1") =
        some (mergeItemSet "A" "R" "traps" "I" "u1" P4 0 W4i) ∧
      (mergeItemSet "A" "R" "traps" "I" "u1" P4 0 W4i).metadata = P4.metadata ∧
      (mergeItemSet "A" "R" "traps" "I" "u1" P4 0 W4i).created_at =
        W4i.created_at) := by
  obtain ⟨h1, h2, h3⟩ :=
    exists_ok_noop_behaviour W4A "u1" (by decide) "" 0
  exact ⟨h1 "A" Option.none W4Ad 5 6 (by decide) rfl rfl,
    h2 "A" "R" Option.none W4Ad (by decide) (by decide),
    h3 "A" "R" "traps" P4 "I" W1r W4i (by decide) (by decide) rfl
      (by decide) (by decide)⟩

-- ---------- `mongo_fs.read_item`, `copy_item`, `move_item` ----------

/-- `mongo_fs.read_item`: fetch one non-deleted item; the result envelope
carries its fields, converting the stored timestamps with `.timestamp()`
(which raises on the string form). -/
def read_item (s : Store) (dungeon room category item : String)
    (user_id : Option String) (raw : String) : MRes :=
  let cmd : PyVal := .dict [("raw", .str raw), ("name", .str "item.read"),
    ("args", .dict [("dungeon", .str dungeon), ("room", .str room),
      ("category", .str category), ("name", .str item)])]
  let tgt : PyVal := .dict [("type", .str "item"),
    ("path", .str ("/" ++ dungeon ++ "/" ++ room ++ "/" ++ category ++ "/"
      ++ item)), ("name", .str item)]
  if userMissing user_id then
    .ok ({ status := "error", code := "ERROR_VALIDATION",
           message := "User ID is required.", command := cmd, target := tgt,
           result := .dict [], diff := Option.none }, s)
  else
    let u := user_id.getD ""
    match s.items.find? (iLive dungeon room category item u) with
    | Option.none =>
        .ok ({ status := "error", code := "ERROR_NOT_FOUND",
               message := "Item \x27" ++ item ++ "\x27 not found.",
               command := cmd, target := tgt, result := .dict [],
               diff := Option.none }, s)
    | some doc => do
        let ct ← doc.created_at.timestampCall
        let ut ← doc.updated_at.timestampCall
        .ok ({ status := "ok", code := "READ", message := "Item read.",
               command := cmd, target := tgt,
               result := .dict [("item", .dict [("name", .str doc.name),
                 ("summary", optStr doc.summary),
                 ("notes_md", optStr doc.notes_md),
                 ("tags", .list (doc.tags.map PyVal.str)),
                 ("metadata", .dict doc.metadata),
                 ("created_at", .int ct), ("updated_at", .int ut)])],
               diff := Option.none }, s)

/-- `src_result["result"]["item"][k]` on a read envelope.  In every state
`copy_item` / `move_item` reach, the envelope has exactly the shape
`read_item` builds, so the fall-through arms are never taken. -/
def envItemField (e : Env) (k : String) : Option PyVal :=
  match e.result with
  | .dict kvs =>
      match pget kvs "item" with
      | some (.dict ikvs) => pget ikvs k
      | _ => Option.none
  | _ => Option.none

/-- A `PyVal` that is a string, as a string (`src_data["name"]`). -/
def asStr : Option PyVal → String
  | some (.str s) => s
  | _ => ""

/-- A `PyVal` that is `None` or a string (`src_data.get("summary")`). -/
def asOptStr : Option PyVal → Option String
  | some (.str s) => some s
  | _ => Option.none

/-- A `PyVal` that is a list of strings (`src_data.get("tags", [])`). -/
def asTags : Option PyVal → List String
  | some (.list xs) => xs.map (fun v => match v with | .str s => s | _ => "")
  | _ => []

/-- A `PyVal` that is a dict (`src_data.get("metadata", {})`). -/
def asMeta : Option PyVal → List (String × PyVal)
  | some (.dict kvs) => kvs
  | _ => []

/-- Python `new_name or src_data["name"]`: `None` and the empty string are
falsy. -/
def pyOr (a : Option String) (b : String) : String :=
  match a with
  | Option.none => b
  | some s => if s.isEmpty then b else s

/-- `mongo_fs.copy_item`: read the source, optionally check the destination
for a non-deleted entry of the same name, create the copy at the
destination — and return ok/COPIED *without inspecting* `create_result`
(source lines 911–925 never read it). -/
def copy_item (s : Store)
    (src_dungeon src_room src_category item : String)
    (dst_dungeon dst_room dst_category : String)
    (new_name : Option String) (overwrite : Bool)
    (user_id : Option String) (raw : String) (now : Int) : MRes :=
  let cmdArgs : PyVal := .dict [("src_dungeon", .str src_dungeon),
    ("src_room", .str src_room), ("src_category", .str src_category),
    ("item", .str item), ("dst_dungeon", .str dst_dungeon),
    ("dst_room", .str dst_room), ("dst_category", .str dst_category),
    ("new_name", optStr new_name)]
  let cmd : PyVal := .dict [("raw", .str raw), ("name", .str "item.copy"),
    ("args", cmdArgs)]
  if userMissing user_id then
    .ok ({ status := "error", code := "ERROR_VALIDATION",
           message := "User ID is required.", command := cmd,
           target := .dict [("type", .str "item"),
             ("path", .str ("/" ++ src_dungeon ++ "/" ++ src_room ++ "/" ++
               src_category ++ "/" ++ item)), ("name", .str item)],
           result := .dict [], diff := Option.none }, s)
  else
    let u := user_id.getD ""
    match read_item s src_dungeon src_room src_category item user_id "" with
    | .error e => .error e
    | .ok (src_result, _) =>
        if src_result.status ≠ "ok" then
          .ok ({ status := "error", code := "ERROR_NOT_FOUND",
                 message := "Source item \x27" ++ item ++ "\x27 not found.",
                 command := cmd,
                 target := .dict [("type", .str "item"),
                   ("path", .str ("/" ++ src_dungeon ++ "/" ++ src_room ++
                     "/" ++ src_category ++ "/" ++ item)),
                   ("name", .str item)],
                 result := .dict [], diff := Option.none }, s)
        else
          let name := pyOr new_name (asStr (envItemField src_result "name"))
          let conflict :=
            if overwrite then Option.none
            else s.items.find?
              (iLive dst_dungeon dst_room dst_category name u)
          match conflict with
          | some _ =>
              .ok ({ status := "error", code := "ERROR_CONFLICT",
                     message := "Destination item \x27" ++ name ++
                       "\x27 exists.",
                     command := cmd,
                     target := .dict [("type", .str "item"),
                       ("path", .str ("/" ++ dst_dungeon ++ "/" ++ dst_room
                         ++ "/" ++ dst_category ++ "/" ++ name)),
                       ("name", .str name)],
                     result := .dict [], diff := Option.none }, s)
          | Option.none =>
              let payload : Payload :=
                { name := some name,
                  summary := asOptStr (envItemField src_result "summary"),
                  notes_md := asOptStr (envItemField src_result "notes_md"),
                  tags := asTags (envItemField src_result "tags"),
                  metadata := asMeta (envItemField src_result "metadata") }
              match create_item s dst_dungeon dst_room dst_category payload
                  overwrite user_id "" now with
              | .error e => .error e
              | .ok (_create_result, s1) =>
                  .ok ({ status := "ok", code := "COPIED",
                         message := "Item copied.",
                         command := .dict [("raw", .str raw),
                           ("name", .str "item.copy"),
                           ("args", .dict [("src_dungeon", .str src_dungeon),
                             ("src_room", .str src_room),
                             ("src_category", .str src_category),
                             ("item", .str item),
                             ("dst_dungeon", .str dst_dungeon),
                             ("dst_room", .str dst_room),
                             ("dst_category", .str dst_category),
                             ("new_name", optStr new_name),
                             ("overwrite", .bool overwrite)])],
                         target := .dict [("type", .str "item"),
                           ("path", .str ("/" ++ dst_dungeon ++ "/" ++
                             dst_room ++ "/" ++ dst_category ++ "/" ++ name)),
                           ("name", .str name)],
                         result := .dict [("copied", .bool true),
                           ("name", .str name)],
                         diff := some (.dict [("applied", .bool true),
                           ("changes", .list [.dict [("op", .str "add"),
                             ("path", .str ("/" ++ dst_dungeon ++ "/" ++
                               dst_room ++ "/" ++ dst_category)),
                             ("node_type", .str "item"),
                             ("name", .str name)]])]) }, s1)

/-- The tail of `mongo_fs.move_item` after the source delete (source lines
846–856): the returned envelope is built *without reading*
`delete_result`. -/
def move_item_finish (delete_result : Env)
    (raw src_dungeon src_room src_category item : String)
    (dst_dungeon dst_room dst_category : String)
    (overwrite : Bool) (name : String) : Env :=
  { status := "ok", code := "MOVED", message := "Item moved.",
    command := .dict [("raw", .str raw), ("name", .str "item.move"),
      ("args", .dict [("src_dungeon", .str src_dungeon),
        ("src_room", .str src_room), ("src_category", .str src_category),
        ("item", .str item), ("dst_dungeon", .str dst_dungeon),
        ("dst_room", .str dst_room), ("dst_category", .str dst_category),
        ("overwrite", .bool overwrite)])],
    target := .dict [("type", .str "item"),
      ("path", .str ("/" ++ dst_dungeon ++ "/" ++ dst_room ++ "/" ++
        dst_category ++ "/" ++ name)), ("name", .str name)],
    result := .dict [("moved", .bool true), ("name", .str name)],
    diff := some (.dict [("applied", .bool true),
      ("changes", .list [
        .dict [("op", .str "remove"),
          ("path", .str ("/" ++ src_dungeon ++ "/" ++ src_room ++ "/" ++
            src_category)), ("node_type", .str "item"), ("name", .str item)],
        .dict [("op", .str "add"),
          ("path", .str ("/" ++ dst_dungeon ++ "/" ++ dst_room ++ "/" ++
            dst_category)), ("node_type", .str "item"),
          ("name", .str name)]])]) }

/-- `mongo_fs.move_item`: read source, conflict-check the destination,
copy, hard-delete the source, and build the final envelope with
`move_item_finish` (which ignores the delete result). -/
def move_item (s : Store)
    (src_dungeon src_room src_category item : String)
    (dst_dungeon dst_room dst_category : String)
    (overwrite : Bool) (user_id : Option String) (raw : String)
    (now : Int) : MRes :=
  let cmd : PyVal := .dict [("raw", .str raw), ("name", .str "item.move"),
    ("args", .dict [("src_dungeon", .str src_dungeon),
      ("src_room", .str src_room), ("src_category", .str src_category),
      ("item", .str item), ("dst_dungeon", .str dst_dungeon),
      ("dst_room", .str dst_room), ("dst_category", .str dst_category)])]
  if userMissing user_id then
    .ok ({ status := "error", code := "ERROR_VALIDATION",
           message := "User ID is required.", command := cmd,
           target := .dict [("type", .str "item"),
             ("path", .str ("/" ++ src_dungeon ++ "/" ++ src_room ++ "/" ++
               src_category ++ "/" ++ item)), ("name", .str item)],
           result := .dict [], diff := Option.none }, s)
  else
    let u := user_id.getD ""
    match read_item s src_dungeon src_room src_category item user_id "" with
    | .error e => .error e
    | .ok (src_result, _) =>
        if src_result.status ≠ "ok" then
          .ok ({ status := "error", code := "ERROR_NOT_FOUND",
                 message := "Source item \x27" ++ item ++ "\x27 not found.",
                 command := cmd,
                 target := .dict [("type", .str "item"),
                   ("path", .str ("/" ++ src_dungeon ++ "/" ++ src_room ++
                     "/" ++ src_category ++ "/" ++ item)),
                   ("name", .str item)],
                 result := .dict [], diff := Option.none }, s)
        else
          let name := asStr (envItemField src_result "name")
          let conflict :=
            if overwrite then Option.none
            else s.items.find?
              (iLive dst_dungeon dst_room dst_category name u)
          match conflict with
          | some _ =>
              .ok ({ status := "error", code := "ERROR_CONFLICT",
                     message := "Destination item \x27" ++ name ++
                       "\x27 exists.",
                     command := cmd,
                     target := .dict [("type", .str "item"),
                       ("path", .str ("/" ++ dst_dungeon ++ "/" ++ dst_room
                         ++ "/" ++ dst_category ++ "/" ++ name)),
                       ("name", .str name)],
                     result := .dict [], diff := Option.none }, s)
          | Option.none =>
              match copy_item s src_dungeon src_room src_category item
                  dst_dungeon dst_room dst_category Option.none overwrite
                  user_id "" now with
              | .error e => .error e
              | .ok (copy_result, s2) =>
                  if copy_result.status ≠ "ok" then .ok (copy_result, s2)
                  else
                    match delete_item s2 src_dungeon src_room src_category
                        item (some ("DELETE:/" ++ src_dungeon ++ "/" ++
                          src_room ++ "/" ++ src_category ++ "/" ++ item))
                        user_id "" with
                    | .error e => .error e
                    | .ok (delete_result, s3) =>
                        .ok (move_item_finish delete_result raw src_dungeon
                          src_room src_category item dst_dungeon dst_room
                          dst_category overwrite name, s3)

-- ---------- C3 ----------

/-- C3: refuted by the code.  The envelope `move_item` returns after the
copy step is built by `move_item_finish` (the verbatim tail of the source
after the `delete_item` call), which never reads its `delete_result`
argument: for *any* delete outcome — including an error envelope such as
the `ERROR_NOT_FOUND` a concurrently removed source would produce — the
returned envelope is the same unqualified ok/MOVED result.  A failing
source delete is therefore silently swallowed, never surfaced. -/
theorem move_result_ignores_delete_outcome
    (dr dr' : Env) (raw sd sr sc it dd dro dc nm : String) (ow : Bool) :
    move_item_finish dr raw sd sr sc it dd dro dc ow nm =
      move_item_finish dr' raw sd sr sc it dd dro dc ow nm ∧
    (move_item_finish dr raw sd sr sc it dd dro dc ow nm).status = "ok" ∧
    (move_item_finish dr raw sd sr sc it dd dro dc ow nm).code = "MOVED" :=
  ⟨rfl, rfl, rfl⟩

-- ---------- C10 ----------

/-- An item document with datetime (epoch) timestamps, readable by
`read_item`. -/
def W10i : ItemDoc where
  dungeon := "A"
  room := "R"
  category := "traps"
  name := "I"
  user_id := "u1"
  summary := some "s"
  notes_md := Option.none
  tags := ["poison"]
  metadata := [("dc", .int 15)]
  created_at := .epoch 10
  updated_at := .epoch 11
  deleted := false

/-- Store for C10: dungeon `A`, room `A/R`, item `A/R/traps/I`; there is no
room `A/R2`. -/
def W10 : Store where
  dungeons := [W1d]
  rooms := [W1r]
  items := [W10i]

/-- C10: `copy_item` never inspects `create_result` (source lines 911–925):
copying `A/R/traps/I` into the non-existent room `A/R2` makes the inner
`create_item` fail with not-found, yet `copy_item` reports ok/COPIED while
the store is completely unchanged — no item was created at the
destination. -/
theorem copy_item_reports_copied_without_checking_create :
    ((copy_item W10 "A" "R" "traps" "I" "A" "R2" "traps" Option.none false
        (some "u1") "" 0).toOption.map
      (fun p => (p.1.status, p.1.code, p.2))) = some ("ok", "COPIED", W10) ∧
    W10.rooms.find? (rLive "A" "R2" "u1") = Option.none ∧
    W10.items.find? (iLive "A" "R2" "traps" "I" "u1") = Option.none :=
  ⟨rfl, rfl, rfl⟩

-- ---------- C7 ----------

/-- A non-deleted destination item named `I` in `A/R2/traps`. -/
def W7di : ItemDoc where
  dungeon := "A"
  room := "R2"
  category := "traps"
  name := "I"
  user_id := "u1"
  summary := Option.none
  notes_md := Option.none
  tags := []
  metadata := []
  created_at := .str "t1"
  updated_at := .str "t1"
  deleted := false

/-- Store for the C7 counterexample: the source item `A/R/traps/I` carries
the *string* timestamps `create_item` writes, and a non-deleted item of the
same name exists at the destination `A/R2/traps`. -/
def W7 : Store where
  dungeons := [W1d]
  rooms := [W1r]
  items := [W4i, W7di]

/-- C7 counterexample: with `overwrite=False` and a same-named non-deleted
item at the destination, `move_item` does *not* return an `ERROR_CONFLICT`
envelope when the stored source item carries the string timestamps
`create_item` writes: reading the source raises `AttributeError` before the
conflict check is ever reached. -/
theorem move_conflict_counterexample :
    move_item W7 "A" "R" "traps" "I" "A" "R2" "traps" false (some "u1") "" 0
      = .error "AttributeError: \x27str\x27 object has no attribute \x27timestamp\x27" :=
  rfl

/-- C7 amended: whenever the stored source item's timestamps are datetime
(epoch) values — as `import_dungeon` produces; with the string timestamps
`create_item` writes the call raises `AttributeError` instead, see the
counterexample — a `move_item` with `overwrite=False` onto a destination
holding a same-named non-deleted item returns an `ERROR_CONFLICT` envelope,
the store is completely untouched, and the source item is still readable at
its original path. -/
theorem move_conflict_preserves_source
    (s : Store) (u : String) (hu : u ≠ "") (raw : String) (now : Int)
    (sd sr sc it dd dro dc : String) (srcdoc cdoc : ItemDoc) (ct ut : Int)
    (hsrc : s.items.find? (iLive sd sr sc it u) = some srcdoc)
    (hct : srcdoc.created_at = .epoch ct)
    (hut : srcdoc.updated_at = .epoch ut)
    (hdst : s.items.find? (iLive dd dro dc it u) = some cdoc) :
    ∃ env : Env,
      move_item s sd sr sc it dd dro dc false (some u) raw now =
        .ok (env, s) ∧
      env.status = "error" ∧ env.code = "ERROR_CONFLICT" ∧
      (∃ renv : Env,
        read_item s sd sr sc it (some u) "" = .ok (renv, s) ∧
        renv.status = "ok" ∧ renv.code = "READ") := by
  have hm : userMissing (some u) = false := by
    simp only [userMissing]
    exact (Bool.not_eq_true _).mp (fun h => hu ((String.isEmpty_iff u).mp h))
  have hlive := List.find?_some hsrc
  have hname : srcdoc.name = it := by
    simp only [iLive, iKey, Bool.and_eq_true, beq_iff_eq,
      Bool.not_eq_true'] at hlive
    exact hlive.1.1.2
  have hread : ∀ rw : String,
      read_item s sd sr sc it (some u) rw = .ok
        ({ status := "ok", code := "READ", message := "Item read.",
           command := .dict [("raw", .str rw), ("name", .str "item.read"),
             ("args", .dict [("dungeon", .str sd), ("room", .str sr),
               ("category", .str sc), ("name", .str it)])],
           target := .dict [("type", .str "item"),
             ("path", .str ("/" ++ sd ++ "/" ++ sr ++ "/" ++ sc ++ "/"
               ++ it)), ("name", .str it)],
           result := .dict [("item", .dict [("name", .str srcdoc.name),
             ("summary", optStr srcdoc.summary),
             ("notes_md", optStr srcdoc.notes_md),
             ("tags", .list (srcdoc.tags.map PyVal.str)),
             ("metadata", .dict srcdoc.metadata),
             ("created_at", .int ct), ("updated_at", .int ut)])],
           diff := Option.none }, s) := by
    intro rw
    simp only [read_item, hm, Bool.false_eq_true, if_false,
      Option.getD_some, hsrc, hct, hut, TS.timestampCall]
    rfl
  simp only [hname] at hread
  simp only [move_item, hm, Bool.false_eq_true, if_false, Option.getD_some,
    hread]
  simp only [envItemField, pget, asStr, ne_eq, not_true_eq_false,
    if_false, String.reduceEq, reduceIte]
  simp only [hdst]
  exact ⟨_, rfl, rfl, rfl, _, rfl, rfl, rfl⟩

/-- Witness store for the amended C7: source item `A/R/traps/I` with epoch
timestamps, destination conflict at `A/R2/traps/I`. -/
def W7A : Store where
  dungeons := [W1d]
  rooms := [W1r]
  items := [W10i, W7di]

/-- Witness for the amended C7 at the concrete store `W7A`. -/
theorem move_conflict_preserves_source_witness :
    ∃ env : Env,
      move_item W7A "A" "R" "traps" "I" "A" "R2" "traps" false (some "u1")
        "" 0 = .ok (env, W7A) ∧
      env.status = "error" ∧ env.code = "ERROR_CONFLICT" ∧
      (∃ renv : Env,
        read_item W7A "A" "R" "traps" "I" (some "u1") "" =
          .ok (renv, W7A) ∧
        renv.status = "ok" ∧ renv.code = "READ") :=
  move_conflict_preserves_source W7A "u1" (by decide) "" 0 "A" "R" "traps"
    "I" "A" "R2" "traps" W10i W7di 10 11 (by decide) rfl rfl (by decide)

-- ---------- `mongo_fs.rename_dungeon`, `list_rooms`, `stat` ----------

/-- Filter `{"dungeon": dg, "user_id": u, "deleted": False}` on rooms, as
used by `list_rooms`. -/
def roomsOfLive (dg u : String) (r : RoomDoc) : Bool :=
  r.dungeon == dg && r.user_id == u && !r.deleted

/-- One entry of the `rooms` list that `list_rooms` returns. -/
def roomEntry (r : RoomDoc) : PyVal :=
  .dict [("name", .str r.name), ("dungeon", .str r.dungeon),
    ("summary", optStr r.summary), ("deleted", .bool r.deleted)]

/-- `mongo_fs.rename_dungeon`: rename the dungeon row, then cascade the
denormalized `dungeon` name string into every room and item row of this
user (`update_many` without a `deleted` filter). -/
def rename_dungeon (s : Store) (dungeon new_name : String)
    (user_id : Option String) (raw : String) (now : Int) : MRes :=
  let cmd : PyVal := .dict [("raw", .str raw), ("name", .str "dungeon.rename"),
    ("args", .dict [("old_name", .str dungeon), ("new_name", .str new_name)])]
  let tgt : PyVal := .dict [("type", .str "dungeon"),
    ("path", .str ("/" ++ dungeon)), ("name", .str dungeon)]
  if userMissing user_id then
    .ok ({ status := "error", code := "ERROR_VALIDATION",
           message := "User ID is required.", command := cmd, target := tgt,
           result := .dict [], diff := Option.none }, s)
  else
    let u := user_id.getD ""
    match s.dungeons.find? (dLive dungeon u) with
    | Option.none =>
        .ok ({ status := "error", code := "ERROR_NOT_FOUND",
               message := "No dungeon \x27" ++ dungeon ++ "\x27.",
               command := cmd, target := tgt, result := .dict [],
               diff := Option.none }, s)
    | some _old =>
        match s.dungeons.find? (dLive new_name u) with
        | some _conflict =>
            .ok ({ status := "error", code := "ERROR_CONFLICT",
                   message := "Dungeon \x27" ++ new_name ++ "\x27 exists.",
                   command := cmd, target := tgt, result := .dict [],
                   diff := Option.none }, s)
        | Option.none =>
            let s1 : Store :=
              { dungeons := updateFirst (dLive dungeon u)
                  (fun d =>
                    { d with name := new_name, updated_at := utcnow now })
                  s.dungeons,
                rooms := s.rooms.map (fun r =>
                  if r.dungeon == dungeon && r.user_id == u then
                    { r with dungeon := new_name } else r),
                items := s.items.map (fun it =>
                  if it.dungeon == dungeon && it.user_id == u then
                    { it with dungeon := new_name } else it) }
            .ok ({ status := "ok", code := "RENAMED",
                   message := "Dungeon renamed.",
                   command := cmd,
                   target := .dict [("type", .str "dungeon"),
                     ("path", .str ("/" ++ new_name)),
                     ("name", .str new_name)],
                   result := .dict [("dungeon", .dict [
                     ("name", .str new_name), ("deleted", .bool false)])],
                   diff := some (.dict [("applied", .bool true),
                     ("changes", .list [.dict [("op", .str "update"),
                       ("path", .str "/"), ("node_type", .str "dungeon"),
                       ("name", .str dungeon),
                       ("to", .str new_name)]])]) }, s1)

/-- `mongo_fs.list_rooms`: all non-deleted rooms of a live dungeon. -/
def list_rooms (s : Store) (dungeon : String) (user_id : Option String)
    (raw : String) : MRes :=
  let cmd : PyVal := .dict [("raw", .str raw), ("name", .str "room.list"),
    ("args", .dict [("dungeon", .str dungeon)])]
  let tgt : PyVal := .dict [("type", .str "dungeon"),
    ("path", .str ("/" ++ dungeon)), ("name", .str dungeon)]
  if userMissing user_id then
    .ok ({ status := "error", code := "ERROR_VALIDATION",
           message := "User ID is required.", command := cmd, target := tgt,
           result := .dict [], diff := Option.none }, s)
  else
    let u := user_id.getD ""
    if (s.dungeons.find? (dLive dungeon u)).isNone then
      .ok ({ status := "error", code := "ERROR_NOT_FOUND",
             message := "No dungeon \x27" ++ dungeon ++ "\x27.",
             command := cmd, target := tgt, result := .dict [],
             diff := Option.none }, s)
    else
      let rooms := (s.rooms.filter (roomsOfLive dungeon u)).map roomEntry
      .ok ({ status := "ok", code := "LIST",
             message := toString rooms.length ++ " rooms.",
             command := cmd,
             target := .dict [("type", .str "room"),
               ("path", .str ("/" ++ dungeon)), ("name", .str "")],
             result := .dict [("rooms", .list rooms)],
             diff := Option.none }, s)

/-- `mongo_fs.stat`: existence lookup at dungeon / room / category / item
level, depending on which optional path segments are supplied. -/
def stat (s : Store) (dungeon : String) (room category item : Option String)
    (user_id : Option String) (raw : String) : MRes :=
  let cmd0 : PyVal := .dict [("raw", .str raw), ("name", .str "stat"),
    ("args", .dict [("dungeon", .str dungeon), ("room", optStr room),
      ("category", optStr category), ("item", optStr item)])]
  if userMissing user_id then
    .ok ({ status := "error", code := "ERROR_VALIDATION",
           message := "User ID is required.", command := cmd0,
           target := .dict [("type", .str "dungeon"),
             ("path", .str ("/" ++ dungeon)), ("name", .str dungeon)],
           result := .dict [], diff := Option.none }, s)
  else
    let u := user_id.getD ""
    match s.dungeons.find? (dLive dungeon u) with
    | Option.none =>
        .ok ({ status := "error", code := "ERROR_NOT_FOUND",
               message := "No dungeon \x27" ++ dungeon ++ "\x27.",
               command := cmd0,
               target := .dict [("type", .str "dungeon"),
                 ("path", .str ("/" ++ dungeon)), ("name", .str dungeon)],
               result := .dict [], diff := Option.none }, s)
    | some dungeon_doc =>
        match room with
        | Option.none =>
            .ok ({ status := "ok", code := "STAT",
                   message := "Dungeon stat.",
                   command := .dict [("raw", .str raw), ("name", .str "stat"),
                     ("args", .dict [("dungeon", .str dungeon)])],
                   target := .dict [("type", .str "dungeon"),
                     ("path", .str ("/" ++ dungeon)), ("name", .str dungeon)],
                   result := .dict [("dungeon", .dict [
                     ("name", .str dungeon_doc.name),
                     ("deleted", .bool dungeon_doc.deleted)])],
                   diff := Option.none }, s)
        | some rm =>
            match s.rooms.find? (rLive dungeon rm u) with
            | Option.none =>
                .ok ({ status := "error", code := "ERROR_NOT_FOUND",
                       message := "No room \x27" ++ rm ++ "\x27.",
                       command := .dict [("raw", .str raw),
                         ("name", .str "stat"),
                         ("args", .dict [("dungeon", .str dungeon),
                           ("room", .str rm)])],
                       target := .dict [("type", .str "room"),
                         ("path", .str ("/" ++ dungeon ++ "/" ++ rm)),
                         ("name", .str rm)],
                       result := .dict [], diff := Option.none }, s)
            | some room_doc =>
                match category with
                | Option.none =>
                    .ok ({ status := "ok", code := "STAT",
                           message := "Room stat.",
                           command := .dict [("raw", .str raw),
                             ("name", .str "stat"),
                             ("args", .dict [("dungeon", .str dungeon),
                               ("room", .str rm)])],
                           target := .dict [("type", .str "room"),
                             ("path", .str ("/" ++ dungeon ++ "/" ++ rm)),
                             ("name", .str rm)],
                           result := .dict [("room", .dict [
                             ("name", .str room_doc.name),
                             ("dungeon", .str room_doc.dungeon),
                             ("deleted", .bool room_doc.deleted)])],
                           diff := Option.none }, s)
                | some cat =>
                    match item with
                    | Option.none =>
                        .ok ({ status := "ok", code := "STAT",
                               message := "Category stat.",
                               command := .dict [("raw", .str raw),
                                 ("name", .str "stat"),
                                 ("args", .dict [("dungeon", .str dungeon),
                                   ("room", .str rm), ("category", .str cat)])],
                               target := .dict [("type", .str "category"),
                                 ("path", .str ("/" ++ dungeon ++ "/" ++ rm
                                   ++ "/" ++ cat)), ("name", .str cat)],
                               result := .dict [("category", .dict [
                                 ("name", .str cat),
                                 ("dungeon", .str dungeon),
                                 ("room", .str rm)])],
                               diff := Option.none }, s)
                    | some itn =>
                        match s.items.find? (iLive dungeon rm cat itn u) with
                        | Option.none =>
                            .ok ({ status := "error",
                                   code := "ERROR_NOT_FOUND",
                                   message := "No item \x27" ++ itn ++
                                     "\x27.",
                                   command := cmd0,
                                   target := .dict [("type", .str "item"),
                                     ("path", .str ("/" ++ dungeon ++ "/" ++
                                       rm ++ "/" ++ cat ++ "/" ++ itn)),
                                     ("name", .str itn)],
                                   result := .dict [],
                                   diff := Option.none }, s)
                        | some item_doc =>
                            .ok ({ status := "ok", code := "STAT",
                                   message := "Item stat.",
                                   command := cmd0,
                                   target := .dict [("type", .str "item"),
                                     ("path", .str ("/" ++ dungeon ++ "/" ++
                                       rm ++ "/" ++ cat ++ "/" ++ itn)),
                                     ("name", .str itn)],
                                   result := .dict [("item", .dict [
                                     ("name", .str item_doc.name),
                                     ("dungeon", .str item_doc.dungeon),
                                     ("room", .str item_doc.room),
                                     ("category", .str item_doc.category),
                                     ("deleted", .bool false)])],
                                   diff := Option.none }, s)

-- ---------- C5 ----------

/-- The `rooms` list of a `list_rooms` envelope. -/
def roomsVal (e : Env) : List PyVal :=
  match e.result with
  | .dict kvs =>
      match pget kvs "rooms" with
      | some (.list xs) => xs
      | _ => []
  | _ => []

/-- Overwrite the `dungeon` key of a room entry. -/
def renameEntryDungeon (B : String) : PyVal → PyVal
  | .dict kvs => .dict (pset kvs "dungeon" (.str B))
  | v => v

/-- `roomEntry` commutes with the cascade's dungeon-field rewrite. -/
theorem roomEntry_rename (B : String) (r : RoomDoc) :
    roomEntry { r with dungeon := B } = renameEntryDungeon B (roomEntry r) := by
  simp [roomEntry, renameEntryDungeon, pset]

/-- `find?` for a predicate `q` that nothing satisfied before the update
finds exactly the updated first `p`-match, when that now satisfies `q`. -/
theorem find?_updateFirst_of_none (p q : α → Bool) (f : α → α)
    (l : List α) (x : α) (hf : l.find? p = some x)
    (hq : l.find? q = Option.none) (hqf : q (f x) = true) :
    (updateFirst p f l).find? q = some (f x) := by
  induction l with
  | nil => simp at hf
  | cons y ys ih =>
      have hqy : q y = false := by
        by_contra h
        have h' : q y = true := by simpa using h
        rw [List.find?_cons_of_pos _ h'] at hq
        cases hq
      have hq' : ys.find? q = Option.none := by
        rwa [List.find?_cons_of_neg _ (by simp [hqy])] at hq
      by_cases hpy : p y = true
      · rw [List.find?_cons_of_pos _ hpy] at hf
        obtain rfl : y = x := by injection hf
        simp [updateFirst, hpy, List.find?_cons_of_pos _ hqf]
      · have hpy' : p y = false := by simpa using hpy
        rw [List.find?_cons_of_neg _ (by simp [hpy'])] at hf
        simp only [updateFirst, hpy', Bool.false_eq_true, if_false]
        rw [List.find?_cons_of_neg _ (by simp [hqy])]
        exact ih hf hq'

/-- After updating the unique `p`-match so that it no longer satisfies `p`,
`find? p` comes up empty. -/
theorem find?_updateFirst_none (p : α → Bool) (f : α → α) (l : List α)
    (x : α) (hf : l.find? p = some x) (hcount : l.countP p ≤ 1)
    (hfx : p (f x) = false) :
    (updateFirst p f l).find? p = Option.none := by
  induction l with
  | nil => simp at hf
  | cons y ys ih =>
      by_cases hpy : p y = true
      · rw [List.find?_cons_of_pos _ hpy] at hf
        obtain rfl : y = x := by injection hf
        have hc0 : ys.countP p = 0 := by
          rw [List.countP_cons_of_pos _ _ hpy] at hcount
          omega
        have hnone : ys.find? p = Option.none := by
          rw [List.find?_eq_none]
          intro z hz
          have hz' := List.countP_eq_zero.mp hc0 z hz
          simpa using hz'
        simp only [updateFirst, hpy, if_true]
        rw [List.find?_cons_of_neg _ (by simp [hfx])]
        exact hnone
      · have hpy' : p y = false := by simpa using hpy
        rw [List.find?_cons_of_neg _ (by simp [hpy'])] at hf
        have hc : ys.countP p ≤ 1 := by
          rw [List.countP_cons_of_neg _ _ (by simp [hpy'])] at hcount
          exact hcount
        simp only [updateFirst, hpy', Bool.false_eq_true, if_false]
        rw [List.find?_cons_of_neg _ (by simp [hpy'])]
        exact ih hf hc

/-- The rename cascade: filtering the rewritten rooms for the new dungeon
name yields exactly the old dungeon's live rooms with their denormalized
`dungeon` field rewritten — provided no live room already pointed at the
new name. -/
theorem cascade_filter_map (A B u : String) (l : List RoomDoc)
    (hnoB : ∀ r ∈ l, roomsOfLive B u r = false) :
    (l.map (fun r => if r.dungeon == A && r.user_id == u then
        { r with dungeon := B } else r)).filter (roomsOfLive B u) =
      (l.filter (roomsOfLive A u)).map
        (fun r => { r with dungeon := B }) := by
  induction l with
  | nil => rfl
  | cons r t ih =>
      have hnoB' : ∀ x ∈ t, roomsOfLive B u x = false :=
        fun x hx => hnoB x (List.mem_cons_of_mem _ hx)
      have hrB := hnoB r (List.mem_cons_self _ _)
      simp only [List.map_cons, List.filter_cons]
      by_cases hχ : (r.dungeon == A && r.user_id == u) = true
      · obtain ⟨hdA, huu⟩ : (r.dungeon == A) = true ∧ (r.user_id == u) = true
          := by simpa [Bool.and_eq_true] using hχ
        simp only [hχ, if_true]
        have h1 : roomsOfLive B u { r with dungeon := B } = !r.deleted := by
          simp [roomsOfLive, huu]
        have h2 : roomsOfLive A u r = !r.deleted := by
          simp [roomsOfLive, hdA, huu]
        rw [h1, h2]
        cases hd : r.deleted
        · rw [if_pos (show (!false) = true from rfl),
            if_pos (show (!false) = true from rfl), List.map_cons, hd,
            ih hnoB']
        · rw [if_neg (show ¬((!true) = true) from by decide),
            if_neg (show ¬((!true) = true) from by decide), ih hnoB']
      · have hχ' : (r.dungeon == A && r.user_id == u) = false := by
          simpa using hχ
        have h2 : roomsOfLive A u r = false := by
          simp only [roomsOfLive]
          rw [hχ', Bool.false_and]
        simp only [hχ', Bool.false_eq_true, if_false, List.filter_cons,
          hrB, h2]
        exact ih hnoB'

/-- Store for C5: dungeon `A` of `u1` with one room `A/R`; no dungeon `B`. -/
def W5 : Store where
  dungeons := [W1d]
  rooms := [W1r]
  items := []

/-- C5 counterexample: after the (successful) rename of `A` to `B`, listing
the children of `B` does *not* return exactly the envelope content that
listing `A` returned before: each room entry's denormalized `dungeon` field
now reads `"B"` instead of `"A"`, so the two `rooms` payloads differ. -/
theorem rename_cascade_counterexample :
    ((rename_dungeon W5 "A" "B" (some "u1") "" 0).toOption.map
      (fun p => p.1.code)) = some "RENAMED" ∧
    ((list_rooms W5 "A" (some "u1") "").toOption.map
      (fun p => p.1.result)) =
      some (.dict [("rooms", .list [.dict [("name", .str "R"),
        ("dungeon", .str "A"), ("summary", .none),
        ("deleted", .bool false)]])]) ∧
    ((rename_dungeon W5 "A" "B" (some "u1") "" 0).toOption.map
      (fun p => (list_rooms p.2 "B" (some "u1") "").toOption.map
        (fun q => q.1.result))) =
      some (some (.dict [("rooms", .list [.dict [("name", .str "R"),
        ("dungeon", .str "B"), ("summary", .none),
        ("deleted", .bool false)]])])) ∧
    (PyVal.dict [("rooms", .list [.dict [("name", .str "R"),
        ("dungeon", .str "B"), ("summary", .none),
        ("deleted", .bool false)]])]) ≠
      (PyVal.dict [("rooms", .list [.dict [("name", .str "R"),
        ("dungeon", .str "A"), ("summary", .none),
        ("deleted", .bool false)]])]) :=
  ⟨rfl, rfl, rfl, by decide⟩

/-- C5 amended: after a successful `rename_dungeon A → B` (owner present,
`A` live, `B` free, at most one live `A`, and no live room already
pointing at `B`), listing the children of `B` returns exactly the children
that listing `A` returned before — same names, summaries, deletion flags,
in the same order — except that each entry's denormalized `dungeon`
reference now reads `B`; and both `list_rooms` and `stat` addressed by `A`
afterwards return `ERROR_NOT_FOUND`. -/
theorem rename_cascade_amended
    (s : Store) (u A B raw : String) (now : Int) (hu : u ≠ "")
    (old : DungeonDoc)
    (hold : s.dungeons.find? (dLive A u) = some old)
    (hconf : s.dungeons.find? (dLive B u) = Option.none)
    (honce : s.dungeons.countP (dLive A u) ≤ 1)
    (hnoB : ∀ r ∈ s.rooms, roomsOfLive B u r = false) :
    ∃ env : Env, ∃ s1 : Store,
      rename_dungeon s A B (some u) raw now = .ok (env, s1) ∧
      env.status = "ok" ∧ env.code = "RENAMED" ∧
      (∃ envB envA : Env,
        list_rooms s1 B (some u) raw = .ok (envB, s1) ∧
        list_rooms s A (some u) raw = .ok (envA, s) ∧
        envB.status = "ok" ∧ envB.code = "LIST" ∧
        envA.status = "ok" ∧ envA.code = "LIST" ∧
        roomsVal envB = (roomsVal envA).map (renameEntryDungeon B)) ∧
      (∃ envNA : Env,
        list_rooms s1 A (some u) raw = .ok (envNA, s1) ∧
        envNA.status = "error" ∧ envNA.code = "ERROR_NOT_FOUND") ∧
      (∃ envSt : Env,
        stat s1 A Option.none Option.none Option.none (some u) raw =
          .ok (envSt, s1) ∧
        envSt.status = "error" ∧ envSt.code = "ERROR_NOT_FOUND") := by
  have hm : userMissing (some u) = false := by
    simp only [userMissing]
    exact (Bool.not_eq_true _).mp (fun h => hu ((String.isEmpty_iff u).mp h))
  have hAB : A ≠ B := by
    rintro rfl
    rw [hold] at hconf
    cases hconf
  have holdP := List.find?_some hold
  simp only [dLive, Bool.and_eq_true, beq_iff_eq, Bool.not_eq_true'] at holdP
  obtain ⟨⟨hxname, hxuser⟩, hxdel⟩ := holdP
  have hqf : dLive B u { old with name := B, updated_at := utcnow now }
      = true := by
    simp [dLive, hxuser, hxdel]
  have hBA : (B == A) = false := beq_eq_false_iff_ne.mpr (Ne.symm hAB)
  have hpf : dLive A u { old with name := B, updated_at := utcnow now }
      = false := by
    simp only [dLive]
    rw [hBA, Bool.false_and, Bool.false_and]
  have hfB := find?_updateFirst_of_none (dLive A u) (dLive B u)
    (fun d => { d with name := B, updated_at := utcnow now })
    s.dungeons old hold hconf hqf
  have hfA := find?_updateFirst_none (dLive A u)
    (fun d => { d with name := B, updated_at := utcnow now })
    s.dungeons old hold honce hpf
  simp only [rename_dungeon, hm, Bool.false_eq_true, if_false,
    Option.getD_some, hold, hconf]
  refine ⟨_, _, rfl, rfl, rfl, ?_, ?_, ?_⟩
  · simp only [list_rooms, hm, Bool.false_eq_true, if_false,
      Option.getD_some, hfB, hold, Option.isNone_some]
    refine ⟨_, _, rfl, rfl, rfl, rfl, rfl, rfl, ?_⟩
    simp only [roomsVal, pget]
    simp only [reduceIte]
    rw [cascade_filter_map A B u s.rooms hnoB]
    simp [List.map_map, Function.comp, roomEntry_rename]
  · simp only [list_rooms, hm, Bool.false_eq_true, if_false,
      Option.getD_some, hfA, Option.isNone_none, if_true]
    exact ⟨_, rfl, rfl, rfl⟩
  · simp only [stat, hm, Bool.false_eq_true, if_false,
      Option.getD_some, hfA]
    exact ⟨_, rfl, rfl, rfl⟩

/-- Witness for the amended C5, at the concrete store `W5`. -/
theorem rename_cascade_amended_witness :
    ∃ env : Env, ∃ s1 : Store,
      rename_dungeon W5 "A" "B" (some "u1") "" 0 = .ok (env, s1) ∧
      env.status = "ok" ∧ env.code = "RENAMED" ∧
      (∃ envB envA : Env,
        list_rooms s1 "B" (some "u1") "" = .ok (envB, s1) ∧
        list_rooms W5 "A" (some "u1") "" = .ok (envA, W5) ∧
        envB.status = "ok" ∧ envB.code = "LIST" ∧
        envA.status = "ok" ∧ envA.code = "LIST" ∧
        roomsVal envB = (roomsVal envA).map (renameEntryDungeon "B")) ∧
      (∃ envNA : Env,
        list_rooms s1 "A" (some "u1") "" = .ok (envNA, s1) ∧
        envNA.status = "error" ∧ envNA.code = "ERROR_NOT_FOUND") ∧
      (∃ envSt : Env,
        stat s1 "A" Option.none Option.none Option.none (some "u1") "" =
          .ok (envSt, s1) ∧
        envSt.status = "error" ∧ envSt.code = "ERROR_NOT_FOUND") :=
  rename_cascade_amended W5 "u1" "A" "B" "" 0 (by decide) W1d (by decide)
    (by decide) (by decide) (by decide)

-- ---------- DSL field parser (`dungeon_dsl.parse_value`, `parse_tags`,
-- ---------- `parse_metadata`, `parse_field_args`) ----------

/-- Python `str.strip()`: drop whitespace from both ends. -/
def pyStrip (s : String) : String :=
  String.mk
    (((s.data.dropWhile Char.isWhitespace).reverse.dropWhile
      Char.isWhitespace).reverse)

/-- Python `value.strip('"\x27')`: drop quote characters from both ends. -/
def stripQuotes (s : String) : String :=
  let isQ : Char → Bool := fun c => c = '"' || c = '\''
  String.mk (((s.data.dropWhile isQ).reverse.dropWhile isQ).reverse)

/-- Python `"=" in s`. -/
def hasEq (s : String) : Bool := s.data.contains '='

/-- Python `s.split(sep)` for a one-character separator. -/
def splitOnChar (c : Char) (s : String) : List String :=
  (s.data.foldr
    (fun ch acc =>
      match acc with
      | cur :: rest => if ch = c then [] :: cur :: rest else (ch :: cur) :: rest
      | [] => [[ch]])
    [[]]).map String.mk

/-- Python `s.split("=", 1)`: the part before the first `=` and the rest.
(The call sites only use it on strings that contain `=`.) -/
def splitEq1 (s : String) : String × String :=
  let pre := s.data.takeWhile (fun ch => !(ch = '='))
  if pre.length = s.data.length then (s, "")
  else (String.mk pre, String.mk (s.data.drop (pre.length + 1)))

/-- A non-empty all-digit character list as a number. -/
def digitsToNat? (l : List Char) : Option Nat :=
  if !l.isEmpty && l.all Char.isDigit then
    some (l.foldl (fun acc c => acc * 10 + (c.toNat - 48)) 0)
  else Option.none

/-- `json.loads`, modelled for integer literals only; every other JSON form
is treated as a parse failure, so `parse_value` falls back to the plain
string.  None of the properties proved below depend on which non-boolean,
non-null values `json.loads` accepts. -/
def jsonLoads (s : String) : Option PyVal :=
  match digitsToNat? s.data with
  | some n => some (.int n)
  | Option.none =>
      match s.data with
      | '-' :: rest =>
          match digitsToNat? rest with
          | some n => some (.int (-(n : Int)))
          | Option.none => Option.none
      | _ => Option.none

/-- `dungeon_dsl.parse_value`: boolean and null literals, then a JSON
attempt, else the string itself. -/
def parse_value (value : String) : PyVal :=
  let v := pyStrip value
  let lower := String.mk (v.data.map Char.toLower)
  if ["true", "yes", "on"].contains lower then .bool true
  else if ["false", "no", "off"].contains lower then .bool false
  else if ["none", "null"].contains lower then .none
  else
    match jsonLoads v with
    | some j => j
    | Option.none => .str v

/-- `dungeon_dsl.parse_tags`: comma-split, strip, drop empties. -/
def parse_tags (tags_str : String) : List String :=
  ((splitOnChar ',' tags_str).map pyStrip).filter (fun t => !t.isEmpty)

/-- `dungeon_dsl.parse_metadata`: comma-separated `key=value` pairs. -/
def parse_metadata (meta_str : String) : List (String × PyVal) :=
  (splitOnChar ',' meta_str).foldl
    (fun acc pair =>
      if hasEq pair then
        let kv := splitEq1 pair
        pset acc (pyStrip kv.1) (parse_value (pyStrip kv.2))
      else acc) []

/-- The loop of `dungeon_dsl.parse_field_args`: `fields` is the dict built
so far, `hasfa` the `has_field_assignments` flag. -/
def parse_field_args_go :
    List String → List (String × PyVal) → Bool → List (String × PyVal)
  | [], fields, _ => fields
  | arg :: rest, fields, hasfa =>
      if hasEq arg then
        let kv := splitEq1 arg
        let key := pyStrip kv.1
        let value := stripQuotes kv.2
        let fieldsNew :=
          if key = "tags" then
            pset fields "tags" (.list ((parse_tags value).map PyVal.str))
          else if key = "meta" then
            pset fields "metadata" (.dict (parse_metadata value))
          else if key = "summary" ∨ key = "notes" ∨ key = "notes_md" then
            let target_key :=
              if key = "notes" ∨ key = "notes_md" then "notes_md"
              else "summary"
            pset fields target_key (.str value)
          else pset fields key (parse_value value)
        parse_field_args_go rest fieldsNew true
      else
        if !hasfa then
          if (pget fields "summary").isNone then
            parse_field_args_go rest (pset fields "summary" (.str arg)) hasfa
          else if (pget fields "notes_md").isNone then
            parse_field_args_go rest (pset fields "notes_md" (.str arg)) hasfa
          else parse_field_args_go rest fields hasfa
        else parse_field_args_go rest fields hasfa

/-- `dungeon_dsl.parse_field_args`. -/
def parse_field_args (args : List String) : List (String × PyVal) :=
  parse_field_args_go args [] false

-- ---------- C8 ----------

/-- Remove every token without `=` that occurs after the first token
containing `=` (the flag records whether one has been seen). -/
def stripLateBare : List String → Bool → List String
  | [], _ => []
  | a :: rest, seen =>
      if hasEq a then a :: stripLateBare rest true
      else if seen then stripLateBare rest seen
      else a :: stripLateBare rest seen

/-- The loop ignores bare tokens once the flag is set, and removing them
from the input does not change the result. -/
theorem parse_field_args_go_stripLateBare
    (args : List String) (fields : List (String × PyVal)) (flag : Bool) :
    parse_field_args_go args fields flag =
      parse_field_args_go (stripLateBare args flag) fields flag := by
  induction args generalizing fields flag with
  | nil => rfl
  | cons a rest ih =>
      by_cases ha : hasEq a = true
      · simp only [parse_field_args_go, stripLateBare, ha, if_true]
        exact ih _ _
      · have hA : hasEq a = false := by simpa using ha
        cases flag
        · simp only [parse_field_args_go, stripLateBare, hA,
            Bool.false_eq_true, if_false, Bool.not_false, if_true]
          by_cases hs : (pget fields "summary").isNone = true
          · simp only [hs, if_true]
            exact ih _ _
          · have hS : (pget fields "summary").isNone = false := by
              rwa [Bool.not_eq_true] at hs
            simp only [hS, Bool.false_eq_true, if_false]
            by_cases hn : (pget fields "notes_md").isNone = true
            · simp only [hn, if_true]
              exact ih _ _
            · have hN : (pget fields "notes_md").isNone = false := by
                rwa [Bool.not_eq_true] at hn
              simp only [hN, Bool.false_eq_true, if_false]
              exact ih _ _
        · simp only [parse_field_args_go, stripLateBare, hA,
            Bool.false_eq_true, if_false, Bool.not_true, if_true]
          exact ih _ _

/-- With both positional slots already filled and only bare tokens left
(before any `=` token has been seen), the loop changes nothing. -/
theorem parse_field_args_go_full (rest : List String)
    (fields : List (String × PyVal))
    (hb : ∀ a ∈ rest, hasEq a = false)
    (hs : (pget fields "summary").isNone = false)
    (hn : (pget fields "notes_md").isNone = false) :
    parse_field_args_go rest fields false = fields := by
  induction rest with
  | nil => rfl
  | cons a t ih =>
      have ha := hb a (List.mem_cons_self _ _)
      simp only [parse_field_args_go, ha, Bool.false_eq_true, if_false,
        Bool.not_false, if_true]
      rw [hs, hn]
      simp only [Bool.false_eq_true, if_false]
      exact ih (fun x hx => hb x (List.mem_cons_of_mem _ hx))

/-- C8: (i) once any token containing `=` has been processed, every
subsequent token without `=` contributes nothing to the returned field map
— deleting all such tokens leaves the result unchanged; (ii) bare tokens
seen before any `=` token are assigned positionally: with a bare-token-only
argument list the first goes to `summary`, the second to `notes` and the
rest are dropped. -/
theorem field_parser_discards_late_bare_tokens :
    (∀ args : List String,
      parse_field_args args = parse_field_args (stripLateBare args false)) ∧
    (∀ (t1 t2 : String) (rest : List String),
      hasEq t1 = false → hasEq t2 = false →
      (∀ a ∈ rest, hasEq a = false) →
      parse_field_args (t1 :: t2 :: rest) =
        [("summary", .str t1), ("notes_md", .str t2)]) ∧
    (∀ t1 : String, hasEq t1 = false →
      parse_field_args [t1] = [("summary", .str t1)]) := by
  refine ⟨?_, ?_, ?_⟩
  · intro args
    exact parse_field_args_go_stripLateBare args [] false
  · intro t1 t2 rest h1 h2 hb
    show parse_field_args_go (t1 :: t2 :: rest) [] false = _
    simp only [parse_field_args_go, h1, h2, Bool.false_eq_true, if_false,
      Bool.not_false, if_true, pget, Option.isNone_none, pset,
      Option.isNone_some, String.reduceEq, reduceIte]
    exact parse_field_args_go_full rest _ hb rfl rfl
  · intro t1 h1
    show parse_field_args_go [t1] [] false = _
    simp only [parse_field_args_go, h1, Bool.false_eq_true, if_false,
      Bool.not_false, if_true, pget, Option.isNone_none]
    rfl

/-- Witness for C8 at concrete token lists. -/
theorem field_parser_discards_late_bare_tokens_witness :
    parse_field_args ["a b", "c", "x=1", "stray"] =
      parse_field_args (stripLateBare ["a b", "c", "x=1", "stray"] false) ∧
    stripLateBare ["a b", "c", "x=1", "stray"] false = ["a b", "c", "x=1"] ∧
    parse_field_args ["hello", "world", "again"] =
      [("summary", .str "hello"), ("notes_md", .str "world")] ∧
    parse_field_args ["solo"] = [("summary", .str "solo")] := by
  obtain ⟨h1, h2, h3⟩ := field_parser_discards_late_bare_tokens
  exact ⟨h1 ["a b", "c", "x=1", "stray"], by decide,
    h2 "hello" "world" ["again"] (by decide) (by decide) (by decide),
    h3 "solo" (by decide)⟩

-- ---------- Envelope builders (`result_format.make_result` vs the DSL's
-- ---------- own `make_result`) ----------

/-- Python `int(x)` on a real value: truncation toward zero. -/
def pyInt (q : ℚ) : Int := if 0 ≤ q then q.floor else q.ceil

/-- Python round-half-to-even on a real value. -/
def roundHalfEven (q : ℚ) : Int :=
  let f := q.floor
  if q - f < 1/2 then f
  else if q - f > 1/2 then f + 1
  else if f % 2 = 0 then f else f + 1

/-- Python `round(x, 2)`. -/
def round2 (q : ℚ) : ℚ := (roundHalfEven (q * 100) : ℚ) / 100

/-- `result_format.make_result`: the core envelope builder.  The wall-clock
reads are parameters: `pnow` is the `perf_counter()` value at build time
and `ts` the formatted UTC timestamp.  Setting the optional `diff` /
`diagnostics` keys on the fresh dict is modelled by appending the
corresponding singleton binding (the key is never already present). -/
def ResultFormat.make_result (status code message : String)
    (command target : PyVal) (result : Option PyVal)
    (diff diagnostics : Option PyVal) (started : Option ℚ) (pnow : ℚ)
    (ts : String) : PyVal :=
  let duration_ms : Option Int :=
    match started with
    | some t => if t ≠ 0 then some (pyInt ((pnow - t) * 1000))
                else Option.none
    | Option.none => Option.none
  let resultVal : PyVal :=
    match result with
    | some r => if pyTruthy r then r else .dict []
    | Option.none => .dict []
  let meta : List (String × PyVal) :=
    match duration_ms with
    | some d => [("ts", .str ts), ("duration_ms", .int d)]
    | Option.none => [("ts", .str ts)]
  let env0 : List (String × PyVal) :=
    [("version", .str "1.0"), ("status", .str status), ("code", .str code),
     ("message", .str message), ("command", command), ("target", target),
     ("result", resultVal), ("meta", .dict meta)]
  let dl : List (String × PyVal) :=
    match diff with
    | some d => if pyTruthy d then [("diff", d)] else []
    | Option.none => []
  let gl : List (String × PyVal) :=
    match diagnostics with
    | some d => if pyTruthy d then [("diagnostics", d)] else []
    | Option.none => []
  .dict (env0 ++ dl ++ gl)

/-- `dungeon_dsl.make_result`: the DSL layer's independent reimplementation
of the envelope builder.  `result` is a required argument, `duration_ms`
defaults to `0.0` and is always emitted (rounded to two decimals), the
timestamp comes from the local clock, and `diff` / `diagnostics` are
attached whenever they are not `None` (even when falsy). -/
def DungeonDSL.make_result (status code message : String)
    (command target result : PyVal) (diff diagnostics : Option PyVal)
    (duration_ms : ℚ) (ts : String) : PyVal :=
  let meta : List (String × PyVal) :=
    [("ts", .str ts), ("duration_ms", .float (round2 duration_ms))]
  let response : List (String × PyVal) :=
    [("version", .str "1.0"), ("status", .str status), ("code", .str code),
     ("message", .str message), ("command", command), ("target", target),
     ("result", result), ("meta", .dict meta)]
  let dl : List (String × PyVal) :=
    match diff with
    | some d => [("diff", d)]
    | Option.none => []
  let gl : List (String × PyVal) :=
    match diagnostics with
    | some d => [("diagnostics", d)]
    | Option.none => []
  .dict (response ++ dl ++ gl)

/-- Lookup of a top-level envelope key. -/
def dGet (v : PyVal) (k : String) : Option PyVal :=
  match v with
  | .dict kvs => pget kvs k
  | _ => Option.none

/-- Lookup inside the `meta` block of an envelope. -/
def metaGet (v : PyVal) (k : String) : Option PyVal :=
  match dGet v "meta" with
  | some m => dGet m k
  | Option.none => Option.none

-- ---------- C9 ----------

/-- C9 counterexample: with identical logical inputs — same status, code,
message, command echo, target, empty result, no diff, no diagnostics, the
same timestamp string, and the DSL's default duration `0.0` against a core
call without a start time — the two builders produce different envelopes:
the DSL's `meta` always carries a `duration_ms` entry, the core's does
not. -/
theorem dsl_envelope_not_bit_identical :
    DungeonDSL.make_result "ok" "CREATED" "m" (.dict []) (.dict [])
        (.dict []) Option.none Option.none 0 "T" ≠
      ResultFormat.make_result "ok" "CREATED" "m" (.dict []) (.dict [])
        (some (.dict [])) Option.none Option.none Option.none 0 "T" := by
  decide

/-- `pget` over an append searches the left part first. -/
theorem pget_append (l1 l2 : List (String × PyVal)) (k : String) :
    pget (l1 ++ l2) k =
      match pget l1 k with
      | some v => some v
      | Option.none => pget l2 k := by
  induction l1 with
  | nil => rfl
  | cons a t ih =>
      obtain ⟨k', v⟩ := a
      by_cases h : k' = k
      · simp [pget, h]
      · simp [pget, h, ih]

/-- C9 amended: the two envelope builders agree on `version`, `status`,
`code`, `message`, `command`, `target` and `result` (the core coerces a
falsy result to `{}`, which coincides for dict results), and both stamp
`meta.ts`; but they are *not* bit-identical: the DSL always emits
`meta.duration_ms` as a 2-decimal-rounded float while the core emits an
integer millisecond count only when a truthy start time was supplied, and
the DSL attaches `diff` / `diagnostics` whenever they are not `None` while
the core attaches them only when truthy. -/
theorem envelope_builders_agree_on_common_fields
    (status code message : String) (command target : PyVal)
    (kvs : List (String × PyVal)) (diff diagnostics : Option PyVal)
    (started : Option ℚ) (pnow dms : ℚ) (ts : String) :
    let dsl := DungeonDSL.make_result status code message command target
      (.dict kvs) diff diagnostics dms ts
    let core := ResultFormat.make_result status code message command target
      (some (.dict kvs)) diff diagnostics started pnow ts
    (dGet dsl "version" = dGet core "version" ∧
     dGet dsl "status" = dGet core "status" ∧
     dGet dsl "code" = dGet core "code" ∧
     dGet dsl "message" = dGet core "message" ∧
     dGet dsl "command" = dGet core "command" ∧
     dGet dsl "target" = dGet core "target" ∧
     dGet dsl "result" = dGet core "result") ∧
    (metaGet dsl "ts" = some (.str ts) ∧
     metaGet core "ts" = some (.str ts)) ∧
    (metaGet dsl "duration_ms" = some (.float (round2 dms)) ∧
     metaGet core "duration_ms" =
      (match started with
       | some t => if t ≠ 0 then some (.int (pyInt ((pnow - t) * 1000)))
                   else Option.none
       | Option.none => Option.none)) ∧
    (dGet dsl "diff" = diff ∧
     dGet core "diff" =
      (match diff with
       | some d => if pyTruthy d then some d else Option.none
       | Option.none => Option.none)) ∧
    (dGet dsl "diagnostics" = diagnostics ∧
     dGet core "diagnostics" =
      (match diagnostics with
       | some d => if pyTruthy d then some d else Option.none
       | Option.none => Option.none)) := by
  intro dsl core
  refine ⟨⟨rfl, rfl, rfl, rfl, rfl, rfl, ?_⟩, ⟨rfl, ?_⟩, ⟨rfl, ?_⟩,
    ⟨?_, ?_⟩, ⟨?_, ?_⟩⟩
  · cases kvs <;> rfl
  · rcases started with _ | t
    · rfl
    · by_cases ht : t ≠ 0 <;>
        simp [core, ResultFormat.make_result, metaGet, dGet, pget, pget_append, ht]
  · rcases started with _ | t
    · rfl
    · by_cases ht : t ≠ 0 <;>
        simp [core, ResultFormat.make_result, metaGet, dGet, pget, pget_append, ht]
  · rcases diff with _ | d <;> rcases diagnostics with _ | g <;> rfl
  · rcases diff with _ | d
    · rcases diagnostics with _ | g
      · rfl
      · by_cases hg : pyTruthy g = true <;>
          simp [core, ResultFormat.make_result, dGet, pget, pget_append, hg]
    · rcases diagnostics with _ | g
      · by_cases hd : pyTruthy d = true <;>
          simp [core, ResultFormat.make_result, dGet, pget, pget_append, hd]
      · by_cases hd : pyTruthy d = true <;>
          by_cases hg : pyTruthy g = true <;>
          simp [core, ResultFormat.make_result, dGet, pget, pget_append, hd, hg]
  · rcases diff with _ | d <;> rcases diagnostics with _ | g <;> rfl
  · rcases diagnostics with _ | g
    · rcases diff with _ | d
      · rfl
      · by_cases hd : pyTruthy d = true <;>
          simp [core, ResultFormat.make_result, dGet, pget, pget_append, hd]
    · rcases diff with _ | d
      · by_cases hg : pyTruthy g = true <;>
          simp [core, ResultFormat.make_result, dGet, pget, pget_append, hg]
      · by_cases hd : pyTruthy d = true <;>
          by_cases hg : pyTruthy g = true <;>
          simp [core, ResultFormat.make_result, dGet, pget, pget_append, hd, hg]

-- ---------- Export / import (`mongo_fs.export_dungeon`,
-- ---------- `mongo_fs.import_dungeon`) ----------

/-- Generic Python-dict lookup (insertion-ordered association list). -/
def aget {β : Type} : List (String × β) → String → Option β
  | [], _ => Option.none
  | (k', v) :: rest, k => if k' = k then some v else aget rest k

/-- Generic Python-dict assignment: replace in place or append. -/
def aset {β : Type} : List (String × β) → String → β → List (String × β)
  | [], k, v => [(k, v)]
  | (k', v') :: rest, k, v =>
      if k' = k then (k', v) :: rest else (k', v') :: aset rest k v

/-- One leaf entry of the export payload
(`export_data["rooms"][r]["categories"][c][n]`). -/
structure ExportItem where
  name : String
  summary : Option String
  notes_md : Option String
  tags : List String
  metadata : List (String × PyVal)
  created_at : Int
  updated_at : Int
  deleted : Bool
deriving DecidableEq

/-- One room of the export payload. -/
structure ExportRoom where
  name : String
  summary : Option String
  created_at : Int
  updated_at : Int
  deleted : Bool
  categories : List (String × List (String × ExportItem))
deriving DecidableEq

/-- The export payload (`result.dungeon` of the ok/EXPORTED envelope). -/
structure ExportTree where
  name : String
  created_at : Int
  updated_at : Int
  deleted : Bool
  rooms : List (String × ExportRoom)
deriving DecidableEq

/-- Filter `{"dungeon": dg, "user_id": u, "deleted": False}` on items, as
used by `export_dungeon` and the cascading deletes of `import_dungeon`. -/
def itemsOfLive (dg u : String) (it : ItemDoc) : Bool :=
  it.dungeon == dg && it.user_id == u && !it.deleted

/-- The four empty category buckets every exported room starts with. -/
def emptyCats : List (String × List (String × ExportItem)) :=
  [("puzzles", []), ("traps", []), ("treasures", []), ("enemies", [])]

/-- The export record of one item (timestamps via `.timestamp()`, which
raises on the string form). -/
def exportItemOf (it : ItemDoc) : Except String ExportItem := do
  let ct ← it.created_at.timestampCall
  let ut ← it.updated_at.timestampCall
  .ok { name := it.name, summary := it.summary, notes_md := it.notes_md,
        tags := it.tags, metadata := it.metadata, created_at := ct,
        updated_at := ut, deleted := it.deleted }

/-- The export record of one room. -/
def exportRoomOf (rd : RoomDoc) : Except String ExportRoom := do
  let ct ← rd.created_at.timestampCall
  let ut ← rd.updated_at.timestampCall
  .ok { name := rd.name, summary := rd.summary, created_at := ct,
        updated_at := ut, deleted := rd.deleted, categories := emptyCats }

/-- One step of the rooms loop of `export_dungeon`. -/
def exportAddRoom (acc : List (String × ExportRoom)) (rd : RoomDoc) :
    Except String (List (String × ExportRoom)) := do
  let er ← exportRoomOf rd
  .ok (aset acc rd.name er)

/-- One step of the items loop of `export_dungeon`: skip items whose room
was not exported; indexing a category outside the four fixed buckets
raises `KeyError`. -/
def exportAddItem (acc : List (String × ExportRoom)) (it : ItemDoc) :
    Except String (List (String × ExportRoom)) :=
  match aget acc it.room with
  | Option.none => .ok acc
  | some rm => do
      let ei ← exportItemOf it
      match aget rm.categories it.category with
      | Option.none => .error ("KeyError: " ++ it.category)
      | some catMap =>
          let cats := aset rm.categories it.category (aset catMap it.name ei)
          .ok (aset acc it.room { rm with categories := cats })

/-- `mongo_fs.export_dungeon`.  On success the interesting payload is the
tree stored under `result.dungeon` of the ok/EXPORTED envelope; the
envelope around it carries nothing else the claims inspect, so the success
case is modelled by the tree itself (`.inr`), while the validation and
not-found cases yield their error envelopes (`.inl`). -/
def export_dungeon (s : Store) (dungeon : String) (user_id : Option String)
    (raw : String) : Except String (Env ⊕ ExportTree) :=
  let cmd : PyVal := .dict [("raw", .str raw), ("name", .str "export"),
    ("args", .dict [("dungeon", .str dungeon)])]
  let tgt : PyVal := .dict [("type", .str "dungeon"),
    ("path", .str ("/" ++ dungeon)), ("name", .str dungeon)]
  if userMissing user_id then
    .ok (.inl { status := "error", code := "ERROR_VALIDATION",
                message := "User ID is required.", command := cmd,
                target := tgt, result := .dict [], diff := Option.none })
  else
    let u := user_id.getD ""
    match s.dungeons.find? (dLive dungeon u) with
    | Option.none =>
        .ok (.inl { status := "error", code := "ERROR_NOT_FOUND",
                    message := "No dungeon \x27" ++ dungeon ++ "\x27.",
                    command := cmd, target := tgt, result := .dict [],
                    diff := Option.none })
    | some ddoc => do
        let ct ← ddoc.created_at.timestampCall
        let ut ← ddoc.updated_at.timestampCall
        let room_docs := s.rooms.filter (roomsOfLive dungeon u)
        let item_docs := s.items.filter (itemsOfLive dungeon u)
        let rooms0 ← room_docs.foldlM exportAddRoom []
        let rooms1 ← item_docs.foldlM exportAddItem rooms0
        .ok (.inr { name := ddoc.name, created_at := ct, updated_at := ut,
                    deleted := ddoc.deleted, rooms := rooms1 })

/-- `insert_one` on `dungeons` under the partial unique index. -/
def insertDungeon (s : Store) (d : DungeonDoc) : Except String Store :=
  if !d.deleted && s.dungeons.any (dLive d.name d.user_id) then
    .error "DuplicateKeyError"
  else .ok { s with dungeons := s.dungeons ++ [d] }

/-- `insert_one` on `rooms` under the partial unique index. -/
def insertRoom (s : Store) (rd : RoomDoc) : Except String Store :=
  if !rd.deleted && s.rooms.any (rLive rd.dungeon rd.name rd.user_id) then
    .error "DuplicateKeyError"
  else .ok { s with rooms := s.rooms ++ [rd] }

/-- `insert_one` on `items` under the partial unique index. -/
def insertItem (s : Store) (it : ItemDoc) : Except String Store :=
  if !it.deleted && s.items.any
      (iLive it.dungeon it.room it.category it.name it.user_id) then
    .error "DuplicateKeyError"
  else .ok { s with items := s.items ++ [it] }

/-- The room document `import_dungeon` inserts for dict key `k` (the
supplied epoch becomes a datetime via `fromtimestamp`, `updated_at` is the
`utcnow()` string). -/
def importRoomDoc (name u : String) (now : Int) (k : String)
    (rm : ExportRoom) : RoomDoc :=
  { dungeon := name, name := k, summary := rm.summary, user_id := u,
    created_at := .epoch rm.created_at, updated_at := utcnow now,
    deleted := rm.deleted }

/-- The item document `import_dungeon` inserts for room key `r`, category
key `c` and item key `n`. -/
def importItemDoc (name u : String) (now : Int) (r c n : String)
    (ei : ExportItem) : ItemDoc :=
  { dungeon := name, room := r, category := c, name := n, user_id := u,
    summary := ei.summary, notes_md := ei.notes_md, tags := ei.tags,
    metadata := ei.metadata, created_at := .epoch ei.created_at,
    updated_at := utcnow now, deleted := ei.deleted }

/-- The inner loops of `import_dungeon` for one room entry. -/
def importRoomStep (name u : String) (now : Int) (acc : Store)
    (kv : String × ExportRoom) : Except String Store := do
  let acc1 ← insertRoom acc (importRoomDoc name u now kv.1 kv.2)
  kv.2.categories.foldlM
    (fun acc2 ckv =>
      ckv.2.foldlM
        (fun acc3 ikv =>
          insertItem acc3 (importItemDoc name u now kv.1 ckv.1 ikv.1 ikv.2))
        acc2)
    acc1

/-- The recreation phase of `import_dungeon` (source lines 1303–1345):
insert the dungeon document, then walk the nested structure, rebuilding
rooms and items. -/
def import_build (s : Store) (data : ExportTree) (name u : String)
    (strategy raw : String) (now : Int) : MRes := do
  let s1 ← insertDungeon s
    { name := name, summary := Option.none, user_id := u,
      created_at := .epoch data.created_at, updated_at := utcnow now,
      deleted := data.deleted }
  let s2 ← data.rooms.foldlM (importRoomStep name u now) s1
  .ok ({ status := "ok", code := "IMPORTED", message := "Dungeon imported.",
         command := .dict [("raw", .str raw), ("name", .str "import"),
           ("args", .dict [("strategy", .str strategy)])],
         target := .dict [("type", .str "dungeon"),
           ("path", .str ("/" ++ name)), ("name", .str name)],
         result := .dict [("dungeon", .dict [("name", .str name),
           ("deleted", .bool false)])],
         diff := some (.dict [("applied", .bool true),
           ("changes", .list [.dict [("op", .str "add"), ("path", .str "/"),
             ("node_type", .str "dungeon"), ("name", .str name)]])]) }, s2)

/-- The `rename` probe of `import_dungeon`: the first `k ≥ 2` such that
`name ++ "-" ++ str(k)` names no live dungeon of this user.  The source's
`while` loop always terminates because only finitely many dungeons exist;
the search here is bounded by `dungeons.length + 2`, which the pigeonhole
principle shows always suffices (`probe_suffix_free` below). -/
def probe_suffix (s : Store) (u name : String) : Nat :=
  match (List.range (s.dungeons.length + 1)).find?
      (fun j =>
        (s.dungeons.find? (dLive (name ++ "-" ++ Nat.repr (j + 2)) u)).isNone)
      with
  | some j => j + 2
  | Option.none => s.dungeons.length + 3

/-- `mongo_fs.import_dungeon`. -/
def import_dungeon (s : Store) (data : ExportTree) (strategy : String)
    (user_id : Option String) (raw : String) (now : Int) : MRes :=
  let cmd : PyVal := .dict [("raw", .str raw), ("name", .str "import"),
    ("args", .dict [("strategy", .str strategy)])]
  if userMissing user_id then
    .ok ({ status := "error", code := "ERROR_VALIDATION",
           message := "User ID is required.", command := cmd,
           target := .dict [("type", .str "dungeon"), ("path", .str "/"),
             ("name", .str "")],
           result := .dict [], diff := Option.none }, s)
  else if data.name.isEmpty then
    .ok ({ status := "error", code := "ERROR_VALIDATION",
           message := "Dungeon data missing \x27name\x27.", command := cmd,
           target := .dict [("type", .str "dungeon"), ("path", .str "/"),
             ("name", .str "")],
           result := .dict [], diff := Option.none }, s)
  else
    let u := user_id.getD ""
    match s.dungeons.find? (dLive data.name u) with
    | Option.none => import_build s data data.name u strategy raw now
    | some existing =>
        if strategy = "overwrite" then
          let s' : Store :=
            { dungeons := s.dungeons.eraseP (dLive data.name u),
              rooms := s.rooms.filter
                (fun r => !(r.dungeon == data.name && r.user_id == u)),
              items := s.items.filter
                (fun it => !(it.dungeon == data.name && it.user_id == u)) }
          import_build s' data data.name u strategy raw now
        else if strategy = "rename" then
          let newName := data.name ++ "-" ++ Nat.repr (probe_suffix s u data.name)
          import_build s { data with name := newName } newName u strategy
            raw now
        else
          .ok ({ status := "ok", code := "NOOP",
                 message := "Dungeon exists; skipped.", command := cmd,
                 target := .dict [("type", .str "dungeon"),
                   ("path", .str ("/" ++ data.name)),
                   ("name", .str data.name)],
                 result := .dict [("dungeon", .dict [
                   ("name", .str data.name), ("deleted", .bool false)])],
                 diff := Option.none }, s)

-- ---------- decimal rendering: `Nat.repr` is injective (needed to show
-- ---------- the rename probe of `import_dungeon` always finds a free
-- ---------- name) ----------

/-- `Nat.toDigitsCore` on a positive input with enough fuel produces the
reversed decimal digit characters. -/
theorem toDigitsCore_eq_digits (fuel : Nat) :
    ∀ (n : Nat), 0 < n → n < fuel → ∀ ds : List Char,
    Nat.toDigitsCore 10 fuel n ds =
      ((Nat.digits 10 n).map Nat.digitChar).reverse ++ ds := by
  induction fuel with
  | zero => omega
  | succ f ih =>
      intro n hn hf ds
      by_cases h0 : n / 10 = 0
      · have h10 : n < 10 := by omega
        simp only [Nat.toDigitsCore, h0, if_true]
        rw [Nat.digits_def' (show 1 < 10 by norm_num) hn, h0]
        simp
      · have hdiv : n / 10 < n := Nat.div_lt_self hn (by norm_num)
        have hlt : n / 10 < f := by omega
        simp only [Nat.toDigitsCore, h0, if_false]
        rw [ih (n / 10) (Nat.pos_of_ne_zero h0) hlt]
        rw [Nat.digits_def' (show 1 < 10 by norm_num) hn]
        simp

/-- The character list behind `Nat.repr`. -/
def reprDigits (n : Nat) : List Char :=
  if n = 0 then ['0'] else ((Nat.digits 10 n).map Nat.digitChar).reverse

theorem repr_data (n : Nat) : (Nat.repr n).data = reprDigits n := by
  cases Nat.eq_zero_or_pos n with
  | inl h => subst h; rfl
  | inr h =>
      show (Nat.toDigits 10 n).asString.data = _
      unfold Nat.toDigits
      rw [toDigitsCore_eq_digits (n + 1) n h (by omega) []]
      simp [reprDigits, List.asString, Nat.pos_iff_ne_zero.mp h]

/-- `digitChar` is injective on decimal digits (checked by decision). -/
theorem digitChar_val : ∀ d, d < 10 → (Nat.digitChar d).toNat - 48 = d := by
  decide

theorem digits_map_digitChar_inj {m n : Nat}
    (h : (Nat.digits 10 m).map Nat.digitChar =
      (Nat.digits 10 n).map Nat.digitChar) : m = n := by
  have h2 := congrArg (List.map (fun c : Char => c.toNat - 48)) h
  rw [List.map_map, List.map_map] at h2
  have hm : ∀ l : List Nat, (∀ d ∈ l, d < 10) →
      l.map ((fun c : Char => c.toNat - 48) ∘ Nat.digitChar) = l := by
    intro l hl
    induction l with
    | nil => rfl
    | cons a t iht =>
        simp only [List.map_cons, Function.comp]
        rw [digitChar_val a (hl a (List.mem_cons_self _ _)),
          iht (fun d hd => hl d (List.mem_cons_of_mem _ hd))]
  rw [hm _ (fun d hd => Nat.digits_lt_base (by norm_num) hd),
    hm _ (fun d hd => Nat.digits_lt_base (by norm_num) hd)] at h2
  have := congrArg (Nat.ofDigits 10) h2
  rwa [Nat.ofDigits_digits, Nat.ofDigits_digits] at this

/-- Decimal rendering of naturals is injective. -/
theorem repr_injective : Function.Injective Nat.repr := by
  intro m n h
  have h' : reprDigits m = reprDigits n := by
    rw [← repr_data, ← repr_data, h]
  by_cases hm : m = 0 <;> by_cases hn : n = 0
  · omega
  · exfalso
    rw [reprDigits, reprDigits, if_pos hm, if_neg hn] at h'
    have : (Nat.digits 10 n).map Nat.digitChar = ['0'] := by
      have := congrArg List.reverse h'
      simpa using this.symm
    have hd : Nat.digits 10 n = [0] := by
      rcases hdig : Nat.digits 10 n with _ | ⟨d, t⟩
      · rw [hdig] at this; simp at this
      · rw [hdig] at this
        rcases t with _ | ⟨d2, t2⟩
        · simp only [List.map_cons, List.map_nil, List.cons.injEq,
            and_true] at this
          have hdlt : d < 10 :=
            Nat.digits_lt_base (by norm_num)
              (hdig ▸ List.mem_cons_self d _)
          have : d = 0 := by
            have hv := digitChar_val d hdlt
            rw [this] at hv
            simpa using hv.symm
          simp [this]
        · simp at this
    have := congrArg (Nat.ofDigits 10) hd
    rw [Nat.ofDigits_digits] at this
    simp at this
    exact hn this
  · exfalso
    rw [reprDigits, reprDigits, if_neg hm, if_pos hn] at h'
    have : (Nat.digits 10 m).map Nat.digitChar = ['0'] := by
      have := congrArg List.reverse h'
      simpa using this
    have hd : Nat.digits 10 m = [0] := by
      rcases hdig : Nat.digits 10 m with _ | ⟨d, t⟩
      · rw [hdig] at this; simp at this
      · rw [hdig] at this
        rcases t with _ | ⟨d2, t2⟩
        · simp only [List.map_cons, List.map_nil, List.cons.injEq,
            and_true] at this
          have hdlt : d < 10 :=
            Nat.digits_lt_base (by norm_num)
              (hdig ▸ List.mem_cons_self d _)
          have : d = 0 := by
            have hv := digitChar_val d hdlt
            rw [this] at hv
            simpa using hv.symm
          simp [this]
        · simp at this
    have := congrArg (Nat.ofDigits 10) hd
    rw [Nat.ofDigits_digits] at this
    simp at this
    exact hm this
  · rw [reprDigits, reprDigits, if_neg hm, if_neg hn] at h'
    exact digits_map_digitChar_inj (List.reverse_injective h')

/-- The candidate names of the rename probe are pairwise distinct. -/
theorem probe_name_injective (name : String) :
    Function.Injective (fun j : Nat => name ++ "-" ++ Nat.repr (j + 2)) := by
  intro j1 j2 he
  have hd := congrArg String.data he
  simp only [String.data_append] at hd
  have hr : (Nat.repr (j1 + 2)).data = (Nat.repr (j2 + 2)).data :=
    List.append_cancel_left hd
  have : Nat.repr (j1 + 2) = Nat.repr (j2 + 2) := by
    cases hx : Nat.repr (j1 + 2)
    cases hy : Nat.repr (j2 + 2)
    rw [hx, hy] at hr
    exact congrArg String.mk hr
  have := repr_injective this
  omega

/-- A probed name is never the base name (it is strictly longer). -/
theorem probe_name_ne (name : String) (k : Nat) :
    name ++ "-" ++ Nat.repr k ≠ name := by
  intro h
  have hd := congrArg (fun t : String => t.data.length) h
  simp only [String.data_append, List.length_append] at hd
  have h1 : (['\x2d'] : List Char).length = 1 := rfl
  omega

/-- Pigeonhole: the rename probe of `import_dungeon` always lands on a
suffix whose name is free among the user's live dungeons. -/
theorem probe_suffix_free (s : Store) (u name : String) :
    (s.dungeons.find?
      (dLive (name ++ "-" ++ Nat.repr (probe_suffix s u name)) u)).isNone
      = true := by
  unfold probe_suffix
  cases hfind : (List.range (s.dungeons.length + 1)).find?
      (fun j =>
        (s.dungeons.find? (dLive (name ++ "-" ++ Nat.repr (j + 2)) u)).isNone)
      with
  | some j => simpa using List.find?_some hfind
  | none =>
      exfalso
      have hall := List.find?_eq_none.mp hfind
      have hdoc : ∀ j, j < s.dungeons.length + 1 →
          ∃ d ∈ s.dungeons, d.name = name ++ "-" ++ Nat.repr (j + 2) := by
        intro j hj
        have h1 := hall j (List.mem_range.mpr hj)
        rcases ho : s.dungeons.find?
            (dLive (name ++ "-" ++ Nat.repr (j + 2)) u) with _ | d
        · exact absurd (by rw [ho]; rfl) h1
        · have hm := List.mem_of_find?_eq_some ho
          have hpd := List.find?_some ho
          simp only [dLive, Bool.and_eq_true, beq_iff_eq,
            Bool.not_eq_true'] at hpd
          exact ⟨d, hm, hpd.1.1⟩
      have hnd : ((List.range (s.dungeons.length + 1)).map
          (fun j => name ++ "-" ++ Nat.repr (j + 2))).Nodup :=
        List.Nodup.map (probe_name_injective name) (List.nodup_range _)
      have hsub : ∀ x ∈ (List.range (s.dungeons.length + 1)).map
          (fun j => name ++ "-" ++ Nat.repr (j + 2)),
          x ∈ s.dungeons.map DungeonDoc.name := by
        intro x hx
        rcases List.mem_map.mp hx with ⟨j, hj, rfl⟩
        rcases hdoc j (List.mem_range.mp hj) with ⟨d, hd, hname⟩
        exact List.mem_map.mpr ⟨d, hd, hname⟩
      have h1 : ((List.range (s.dungeons.length + 1)).map
          (fun j => name ++ "-" ++ Nat.repr (j + 2))).toFinset.card =
          s.dungeons.length + 1 := by
        rw [List.toFinset_card_of_nodup hnd]
        simp
      have h2 : ((List.range (s.dungeons.length + 1)).map
          (fun j => name ++ "-" ++ Nat.repr (j + 2))).toFinset ⊆
          (s.dungeons.map DungeonDoc.name).toFinset := by
        intro x hx
        rw [List.mem_toFinset] at hx ⊢
        exact hsub x hx
      have h3 := Finset.card_le_card h2
      have h4 := List.toFinset_card_le (s.dungeons.map DungeonDoc.name)
      rw [h1] at h3
      simp only [List.length_map] at h4
      omega

-- ---------- association-list lemmas for the export/import proofs ----------

theorem aget_aset_same {β : Type} (l : List (String × β)) (k : String)
    (v : β) : aget (aset l k v) k = some v := by
  induction l with
  | nil => simp [aset, aget]
  | cons a t ih =>
      obtain ⟨k', v'⟩ := a
      by_cases h : k' = k
      · simp [aset, aget, h]
      · simp [aset, aget, h, ih]

theorem aget_aset_other {β : Type} (l : List (String × β)) (k k' : String)
    (v : β) (h : k' ≠ k) : aget (aset l k v) k' = aget l k' := by
  induction l with
  | nil => simp [aset, aget, Ne.symm h]
  | cons a t ih =>
      obtain ⟨k0, v0⟩ := a
      by_cases h0 : k0 = k
      · subst h0
        simp [aset, aget, Ne.symm h]
      · by_cases h1 : k0 = k'
        · simp [aset, aget, h0, h1, h]
        · simp [aset, aget, h0, h1, ih]

theorem aget_aset_isSome {β : Type} (l : List (String × β)) (k k' : String)
    (v : β) (hk : (aget l k).isSome = true) :
    (aget (aset l k v) k').isSome = (aget l k').isSome := by
  by_cases h : k' = k
  · subst h
    rw [aget_aset_same, hk]
    rfl
  · rw [aget_aset_other _ _ _ _ h]

theorem aget_isSome_iff_mem {β : Type} (l : List (String × β)) (k : String) :
    (aget l k).isSome = true ↔ k ∈ l.map Prod.fst := by
  induction l with
  | nil => simp [aget]
  | cons a t ih =>
      obtain ⟨k0, v0⟩ := a
      by_cases h : k0 = k
      · simp [aget, h]
      · simp [aget, h, ih, Ne.symm h]

theorem aset_map_fst {β : Type} (l : List (String × β)) (k : String)
    (v : β) :
    (aset l k v).map Prod.fst =
      if (aget l k).isSome then l.map Prod.fst
      else l.map Prod.fst ++ [k] := by
  induction l with
  | nil => simp [aset, aget]
  | cons a t ih =>
      obtain ⟨k0, v0⟩ := a
      by_cases h : k0 = k
      · simp [aset, aget, h]
      · simp only [aset, aget, h, if_false, List.map_cons, ih]
        by_cases hs : (aget t k).isSome = true
        · simp [hs]
        · have hs' : (aget t k).isSome = false := by
            rwa [Bool.not_eq_true] at hs
          simp [hs']

-- ---------- export: characterization of the built tree ----------

/-- Lookup of an item record in the export payload. -/
def treeItemLookup (rooms : List (String × ExportRoom)) (r c n : String) :
    Option ExportItem :=
  (aget rooms r).bind fun rm =>
    (aget rm.categories c).bind fun cm => aget cm n

/-- The rooms loop of `export_dungeon` succeeds on epoch-timestamped rooms
and produces a dict whose entries correspond to the first (unique) room of
each name. -/
theorem exportRooms_spec (L : List RoomDoc)
    (acc : List (String × ExportRoom))
    (hts : ∀ r ∈ L, (∃ a, r.created_at = TS.epoch a) ∧
      (∃ b, r.updated_at = TS.epoch b))
    (hnd : (L.map RoomDoc.name).Nodup)
    (hdisj : ∀ r ∈ L, aget acc r.name = Option.none) :
    ∃ out, L.foldlM exportAddRoom acc = .ok out ∧
      (∀ k, aget out k =
        match L.find? (fun r => r.name == k) with
        | some r => (exportRoomOf r).toOption
        | Option.none => aget acc k) := by
  induction L generalizing acc with
  | nil => exact ⟨acc, rfl, fun k => rfl⟩
  | cons r0 T ih =>
      obtain ⟨⟨a, ha⟩, ⟨b, hb⟩⟩ := hts r0 (List.mem_cons_self _ _)
      have hro : exportRoomOf r0 = .ok
          { name := r0.name, summary := r0.summary, created_at := a,
            updated_at := b, deleted := r0.deleted,
            categories := emptyCats } := by
        simp only [exportRoomOf, ha, hb, TS.timestampCall]
        rfl
      have hstep : exportAddRoom acc r0 = .ok (aset acc r0.name
          { name := r0.name, summary := r0.summary, created_at := a,
            updated_at := b, deleted := r0.deleted,
            categories := emptyCats }) := by
        simp only [exportAddRoom, hro]
        rfl
      rw [List.map_cons] at hnd
      obtain ⟨hnotin, hndT⟩ := List.nodup_cons.mp hnd
      obtain ⟨out, hout, hchar⟩ := ih
        (aset acc r0.name
          { name := r0.name, summary := r0.summary, created_at := a,
            updated_at := b, deleted := r0.deleted,
            categories := emptyCats })
        (fun r hr => (hts r (List.mem_cons_of_mem _ hr)))
        hndT
        (fun r hr => by
          rw [aget_aset_other]
          · exact hdisj r (List.mem_cons_of_mem _ hr)
          · intro he
            exact hnotin (he ▸ List.mem_map_of_mem RoomDoc.name hr))
      refine ⟨out, ?_, ?_⟩
      · rw [List.foldlM_cons, hstep]
        exact hout
      · intro k
        rw [hchar k]
        by_cases hk : r0.name = k
        · subst hk
          rw [List.find?_cons_of_pos _ (by simp)]
          have hTnone : T.find? (fun r => r.name == r0.name) =
              Option.none := by
            rw [List.find?_eq_none]
            intro x hx hpx
            exact hnotin (by
              have : x.name = r0.name := by simpa using hpx
              exact this ▸ List.mem_map_of_mem RoomDoc.name hx)
          rw [hTnone, aget_aset_same]
          simp [hro, Except.toOption]
        · rw [List.find?_cons_of_neg _ (by simp [hk])]
          cases hT : T.find? (fun r => r.name == k)
          · rw [aget_aset_other _ _ _ _ (fun he => hk he.symm)]
          · rfl

/-- The record `exportItemOf` returns on an epoch-timestamped item. -/
def exportItemRecord (it : ItemDoc) (a b : Int) : ExportItem :=
  { name := it.name, summary := it.summary, notes_md := it.notes_md,
    tags := it.tags, metadata := it.metadata, created_at := a,
    updated_at := b, deleted := it.deleted }

/-- The updated room record `exportAddItem` writes back. -/
def exportRoomWithItem (rm : ExportRoom) (it : ItemDoc)
    (cm : List (String × ExportItem)) (ei : ExportItem) : ExportRoom :=
  { rm with
      categories := aset rm.categories it.category (aset cm it.name ei) }

theorem exportRoomWithItem_cats (rm : ExportRoom) (it : ItemDoc)
    (cm : List (String × ExportItem)) (ei : ExportItem) (c : String)
    (h : (aget rm.categories c).isSome = true) :
    (aget (exportRoomWithItem rm it cm ei).categories c).isSome = true := by
  have hc : (exportRoomWithItem rm it cm ei).categories
      = aset rm.categories it.category (aset cm it.name ei) := rfl
  rw [hc]
  by_cases hcq : c = it.category
  · subst hcq
    rw [aget_aset_same]
    rfl
  · rw [aget_aset_other _ _ _ _ hcq]
    exact h

/-- The items loop of `export_dungeon` succeeds on epoch-timestamped items
whose categories are among the four buckets, leaves the set of exported
rooms and their room-level fields unchanged, and fills each leaf of the
tree with the export record of the unique matching item (items addressing
an unexported room are silently dropped). -/
theorem exportItems_spec (I : List ItemDoc)
    (acc : List (String × ExportRoom))
    (hts : ∀ it ∈ I, (∃ a, it.created_at = TS.epoch a) ∧
      (∃ b, it.updated_at = TS.epoch b))
    (hcats : ∀ it ∈ I, it.category ∈ CATEGORIES)
    (hinv : ∀ k rm, aget acc k = some rm →
      ∀ c ∈ CATEGORIES, (aget rm.categories c).isSome = true)
    (hnd : (I.map (fun it => (it.room, it.category, it.name))).Nodup) :
    ∃ out, I.foldlM exportAddItem acc = .ok out ∧
      (∀ k, (aget out k).isSome = (aget acc k).isSome) ∧
      (∀ k rm2, aget out k = some rm2 → ∃ rm0, aget acc k = some rm0 ∧
        rm2.name = rm0.name ∧ rm2.summary = rm0.summary ∧
        rm2.created_at = rm0.created_at ∧ rm2.updated_at = rm0.updated_at ∧
        rm2.deleted = rm0.deleted) ∧
      (∀ r c n, treeItemLookup out r c n =
        match I.find? (fun it => it.room == r && it.category == c &&
            it.name == n) with
        | some it =>
            if (aget acc r).isSome then (exportItemOf it).toOption
            else treeItemLookup acc r c n
        | Option.none => treeItemLookup acc r c n) := by
  induction I generalizing acc with
  | nil =>
      exact ⟨acc, rfl, fun k => rfl,
        fun k rm2 h => ⟨rm2, h, rfl, rfl, rfl, rfl, rfl⟩, fun r c n => rfl⟩
  | cons it0 T ih =>
      obtain ⟨⟨a, ha⟩, ⟨b, hb⟩⟩ := hts it0 (List.mem_cons_self _ _)
      have hio : exportItemOf it0 = .ok (exportItemRecord it0 a b) := by
        simp only [exportItemOf, ha, hb, TS.timestampCall]
        rfl
      rw [List.map_cons] at hnd
      obtain ⟨hnotin, hndT⟩ := List.nodup_cons.mp hnd
      cases h0 : aget acc it0.room with
      | none =>
          have hstep : exportAddItem acc it0 = .ok acc := by
            simp [exportAddItem, h0]
          obtain ⟨out, hout, hdom, hflds, hlook⟩ := ih acc
            (fun it hit => hts it (List.mem_cons_of_mem _ hit))
            (fun it hit => hcats it (List.mem_cons_of_mem _ hit))
            hinv hndT
          refine ⟨out, ?_, hdom, hflds, ?_⟩
          · rw [List.foldlM_cons, hstep]
            exact hout
          · intro r c n
            by_cases hp : (it0.room == r && it0.category == c &&
                it0.name == n) = true
            · obtain ⟨⟨hr, hc⟩, hn⟩ : (it0.room = r ∧ it0.category = c) ∧
                  it0.name = n := by
                simpa [Bool.and_eq_true] using hp
              have hTnone : T.find? (fun it => it.room == r &&
                  it.category == c && it.name == n) = Option.none := by
                rw [List.find?_eq_none]
                intro x hx hpx
                obtain ⟨⟨hxr, hxc⟩, hxn⟩ : (x.room = r ∧ x.category = c) ∧
                    x.name = n := by
                  simpa [Bool.and_eq_true] using hpx
                apply hnotin
                have hxx : (x.room, x.category, x.name)
                    = (it0.room, it0.category, it0.name) := by
                  rw [hxr, hxc, hxn, hr, hc, hn]
                exact hxx ▸ List.mem_map_of_mem _ hx
              have hfind : List.find? (fun it => it.room == r &&
                  it.category == c && it.name == n) (it0 :: T)
                  = some it0 := List.find?_cons_of_pos _ hp
              rw [hfind, hlook r c n, hTnone]
              have hnone : aget acc r = Option.none := hr ▸ h0
              simp [hnone]
            · have hfind : List.find? (fun it => it.room == r &&
                  it.category == c && it.name == n) (it0 :: T)
                  = List.find? (fun it => it.room == r &&
                    it.category == c && it.name == n) T :=
                List.find?_cons_of_neg _ hp
              rw [hlook r c n, hfind]
      | some rm =>
          have hcmS : (aget rm.categories it0.category).isSome = true :=
            hinv it0.room rm h0 it0.category
              (hcats it0 (List.mem_cons_self _ _))
          obtain ⟨cm, hcm⟩ := Option.isSome_iff_exists.mp hcmS
          have hstep : exportAddItem acc it0 = .ok (aset acc it0.room
              (exportRoomWithItem rm it0 cm (exportItemRecord it0 a b))) := by
            simp only [exportAddItem, h0, hio, hcm, exportRoomWithItem]
            rfl
          obtain ⟨out, hout, hdom, hflds, hlook⟩ := ih
            (aset acc it0.room
              (exportRoomWithItem rm it0 cm (exportItemRecord it0 a b)))
            (fun it hit => hts it (List.mem_cons_of_mem _ hit))
            (fun it hit => hcats it (List.mem_cons_of_mem _ hit))
            (fun k rm2 hk c hcmem => by
              by_cases hke : k = it0.room
              · subst hke
                rw [aget_aset_same] at hk
                obtain rfl := Option.some.inj hk
                exact exportRoomWithItem_cats rm it0 cm _ c
                  (hinv it0.room rm h0 c hcmem)
              · rw [aget_aset_other _ _ _ _ hke] at hk
                exact hinv k rm2 hk c hcmem)
            hndT
          have hcatseq : (exportRoomWithItem rm it0 cm
                (exportItemRecord it0 a b)).categories
              = aset rm.categories it0.category
                  (aset cm it0.name (exportItemRecord it0 a b)) := rfl
          refine ⟨out, ?_, ?_, ?_, ?_⟩
          · rw [List.foldlM_cons, hstep]
            exact hout
          · intro k
            rw [hdom k, aget_aset_isSome _ _ _ _ (by rw [h0]; rfl)]
          · intro k rm2 hk
            obtain ⟨rm1, hacc1, hf⟩ := hflds k rm2 hk
            by_cases hke : k = it0.room
            · subst hke
              rw [aget_aset_same] at hacc1
              obtain rfl := Option.some.inj hacc1
              exact ⟨rm, h0, hf⟩
            · rw [aget_aset_other _ _ _ _ hke] at hacc1
              exact ⟨rm1, hacc1, hf⟩
          · intro r c n
            by_cases hp : (it0.room == r && it0.category == c &&
                it0.name == n) = true
            · obtain ⟨⟨hr, hc⟩, hn⟩ : (it0.room = r ∧ it0.category = c) ∧
                  it0.name = n := by
                simpa [Bool.and_eq_true] using hp
              have hTnone : T.find? (fun it => it.room == r &&
                  it.category == c && it.name == n) = Option.none := by
                rw [List.find?_eq_none]
                intro x hx hpx
                obtain ⟨⟨hxr, hxc⟩, hxn⟩ : (x.room = r ∧ x.category = c) ∧
                    x.name = n := by
                  simpa [Bool.and_eq_true] using hpx
                apply hnotin
                have hxx : (x.room, x.category, x.name)
                    = (it0.room, it0.category, it0.name) := by
                  rw [hxr, hxc, hxn, hr, hc, hn]
                exact hxx ▸ List.mem_map_of_mem _ hx
              have hfind : List.find? (fun it => it.room == r &&
                  it.category == c && it.name == n) (it0 :: T)
                  = some it0 := List.find?_cons_of_pos _ hp
              rw [hfind, hlook r c n, hTnone]
              subst hr
              subst hc
              subst hn
              simp [treeItemLookup, aget_aset_same, hcatseq, h0, hio,
                Except.toOption]
            · have hi : (aget (aset acc it0.room (exportRoomWithItem rm it0
                  cm (exportItemRecord it0 a b))) r).isSome
                  = (aget acc r).isSome :=
                aget_aset_isSome _ _ _ _ (by rw [h0]; rfl)
              have hii : treeItemLookup (aset acc it0.room
                    (exportRoomWithItem rm it0 cm
                      (exportItemRecord it0 a b))) r c n
                  = treeItemLookup acc r c n := by
                by_cases hr : r = it0.room
                · subst hr
                  by_cases hcq : c = it0.category
                  · subst hcq
                    have hnq : it0.name ≠ n := by
                      intro he
                      exact hp (by simp [he])
                    simp [treeItemLookup, aget_aset_same, hcatseq, h0, hcm,
                      aget_aset_other _ _ _ _ (Ne.symm hnq)]
                  · simp [treeItemLookup, aget_aset_same, hcatseq, h0,
                      aget_aset_other _ _ _ _ hcq]
                · simp [treeItemLookup, aget_aset_other _ _ _ _ hr]
              have hfind : List.find? (fun it => it.room == r &&
                  it.category == c && it.name == n) (it0 :: T)
                  = List.find? (fun it => it.room == r &&
                    it.category == c && it.name == n) T :=
                List.find?_cons_of_neg _ hp
              rw [hlook r c n, hfind]
              cases hT : T.find? (fun it => it.room == r &&
                  it.category == c && it.name == n)
              · exact hii
              · simp only []
                rw [hi, hii]

-- ---------- import: the insertion folds flatten into list appends ----------

theorem ok_bind {ε α β : Type} (a : α) (f : α → Except ε β) :
    (Except.ok a >>= f) = f a := rfl

/-- Append freshly inserted room documents. -/
def withRooms (s : Store) (l : List RoomDoc) : Store :=
  { s with rooms := s.rooms ++ l }

/-- Append freshly inserted item documents. -/
def withItems (s : Store) (l : List ItemDoc) : Store :=
  { s with items := s.items ++ l }

/-- The item documents one category bucket of one room contributes. -/
def importCatDocs (name u : String) (now : Int) (r c : String)
    (l : List (String × ExportItem)) : List ItemDoc :=
  l.map (fun ikv => importItemDoc name u now r c ikv.1 ikv.2)

/-- The item documents one room entry contributes. -/
def importRoomItems (name u : String) (now : Int)
    (kv : String × ExportRoom) : List ItemDoc :=
  kv.2.categories.flatMap (fun ckv =>
    importCatDocs name u now kv.1 ckv.1 ckv.2)

/-- The innermost item loop of `import_dungeon` for one category bucket. -/
theorem insertItems_ok (name u r c : String) (now : Int)
    (l : List (String × ExportItem)) (acc : Store)
    (hfresh : ∀ ikv ∈ l, acc.items.any (iLive name r c ikv.1 u) = false)
    (hnd : (l.map Prod.fst).Nodup) :
    l.foldlM (fun acc3 ikv =>
        insertItem acc3 (importItemDoc name u now r c ikv.1 ikv.2)) acc
      = .ok (withItems acc (importCatDocs name u now r c l)) := by
  induction l generalizing acc with
  | nil =>
      simp only [List.foldlM_nil, importCatDocs, List.map_nil,
        List.append_nil, withItems]
      rfl
  | cons ikv0 t ih =>
      have hany : acc.items.any (iLive name r c ikv0.1 u) = false :=
        hfresh ikv0 (List.mem_cons_self _ _)
      have hins : insertItem acc (importItemDoc name u now r c ikv0.1 ikv0.2)
          = .ok (withItems acc [importItemDoc name u now r c ikv0.1 ikv0.2])
          := by
        simp [insertItem, importItemDoc, hany, withItems]
      rw [List.map_cons] at hnd
      obtain ⟨hnotin, hndt⟩ := List.nodup_cons.mp hnd
      rw [List.foldlM_cons, hins, ok_bind]
      rw [ih (withItems acc [importItemDoc name u now r c ikv0.1 ikv0.2])
        (fun ikv hikv => by
          have hne : ¬ikv0.1 = ikv.1 := fun he =>
            hnotin (he ▸ List.mem_map_of_mem Prod.fst hikv)
          have h1 : acc.items.any (iLive name r c ikv.1 u) = false :=
            hfresh ikv (List.mem_cons_of_mem _ hikv)
          simp [withItems, List.any_append, h1, iLive, iKey, importItemDoc,
            hne])
        hndt]
      simp [withItems, importCatDocs]

/-- The category loop of `import_dungeon` for one room. -/
theorem insertCats_ok (name u r : String) (now : Int)
    (cats : List (String × List (String × ExportItem))) (acc : Store)
    (hfresh : ∀ ckv ∈ cats, ∀ ikv ∈ ckv.2,
      acc.items.any (iLive name r ckv.1 ikv.1 u) = false)
    (hndC : (cats.map Prod.fst).Nodup)
    (hndN : ∀ ckv ∈ cats, (ckv.2.map Prod.fst).Nodup) :
    cats.foldlM (fun acc2 ckv => ckv.2.foldlM (fun acc3 ikv =>
        insertItem acc3 (importItemDoc name u now r ckv.1 ikv.1 ikv.2))
        acc2) acc
      = .ok (withItems acc (cats.flatMap (fun ckv =>
          importCatDocs name u now r ckv.1 ckv.2))) := by
  induction cats generalizing acc with
  | nil =>
      simp only [List.foldlM_nil, List.flatMap_nil, List.append_nil,
        withItems]
      rfl
  | cons ckv0 t ih =>
      rw [List.map_cons] at hndC
      obtain ⟨hnotin, hndt⟩ := List.nodup_cons.mp hndC
      rw [List.foldlM_cons,
        insertItems_ok name u r ckv0.1 now ckv0.2 acc
          (fun ikv hikv => hfresh ckv0 (List.mem_cons_self _ _) ikv hikv)
          (hndN ckv0 (List.mem_cons_self _ _)),
        ok_bind]
      rw [ih (withItems acc (importCatDocs name u now r ckv0.1 ckv0.2))
        (fun ckv hckv ikv hikv => by
          have hne : ¬ckv0.1 = ckv.1 := fun he =>
            hnotin (he ▸ List.mem_map_of_mem Prod.fst hckv)
          have h1 : acc.items.any (iLive name r ckv.1 ikv.1 u) = false :=
            hfresh ckv (List.mem_cons_of_mem _ hckv) ikv hikv
          rw [withItems, List.any_append]
          simp only [h1, Bool.false_or, importCatDocs]
          rw [List.any_eq_false]
          intro x hx
          obtain ⟨ikv1, hikv1, rfl⟩ := List.mem_map.mp hx
          simp [iLive, iKey, importItemDoc, hne])
        hndt
        (fun ckv hckv => hndN ckv (List.mem_cons_of_mem _ hckv))]
      simp [withItems, importCatDocs]

/-- The room loop of `import_dungeon` (`importRoomStep` folded over the
room entries) appends exactly the translated room and item documents. -/
theorem importRooms_ok (name u : String) (now : Int)
    (rooms : List (String × ExportRoom)) (acc : Store)
    (hfreshR : ∀ kv ∈ rooms, acc.rooms.any (rLive name kv.1 u) = false)
    (hfreshI : ∀ kv ∈ rooms, ∀ ckv ∈ kv.2.categories, ∀ ikv ∈ ckv.2,
      acc.items.any (iLive name kv.1 ckv.1 ikv.1 u) = false)
    (hndK : (rooms.map Prod.fst).Nodup)
    (hndC : ∀ kv ∈ rooms, (kv.2.categories.map Prod.fst).Nodup)
    (hndN : ∀ kv ∈ rooms, ∀ ckv ∈ kv.2.categories,
      (ckv.2.map Prod.fst).Nodup) :
    rooms.foldlM (importRoomStep name u now) acc
      = .ok (withItems (withRooms acc (rooms.map (fun kv =>
          importRoomDoc name u now kv.1 kv.2)))
          (rooms.flatMap (importRoomItems name u now))) := by
  induction rooms generalizing acc with
  | nil =>
      simp only [List.foldlM_nil, List.flatMap_nil, List.map_nil,
        List.append_nil, withItems, withRooms]
      rfl
  | cons kv0 t ih =>
      rw [List.map_cons] at hndK
      obtain ⟨hnotin, hndt⟩ := List.nodup_cons.mp hndK
      have hinsR : insertRoom acc (importRoomDoc name u now kv0.1 kv0.2)
          = .ok (withRooms acc [importRoomDoc name u now kv0.1 kv0.2]) := by
        have hany : acc.rooms.any (rLive name kv0.1 u) = false :=
          hfreshR kv0 (List.mem_cons_self _ _)
        simp [insertRoom, importRoomDoc, hany, withRooms]
      have hstep : importRoomStep name u now acc kv0
          = .ok (withItems (withRooms acc
              [importRoomDoc name u now kv0.1 kv0.2])
              (importRoomItems name u now kv0)) := by
        show (insertRoom acc (importRoomDoc name u now kv0.1 kv0.2) >>=
            fun acc1 => kv0.2.categories.foldlM (fun acc2 ckv =>
              ckv.2.foldlM (fun acc3 ikv => insertItem acc3
                (importItemDoc name u now kv0.1 ckv.1 ikv.1 ikv.2)) acc2)
              acc1) = _
        rw [hinsR, ok_bind,
          insertCats_ok name u kv0.1 now kv0.2.categories
            (withRooms acc [importRoomDoc name u now kv0.1 kv0.2])
            (fun ckv hckv ikv hikv => hfreshI kv0 (List.mem_cons_self _ _)
              ckv hckv ikv hikv)
            (hndC kv0 (List.mem_cons_self _ _))
            (hndN kv0 (List.mem_cons_self _ _))]
        rfl
      rw [List.foldlM_cons, hstep, ok_bind]
      rw [ih (withItems (withRooms acc
            [importRoomDoc name u now kv0.1 kv0.2])
            (importRoomItems name u now kv0))
        (fun kv hkv => by
          have hne : ¬kv0.1 = kv.1 := fun he =>
            hnotin (he ▸ List.mem_map_of_mem Prod.fst hkv)
          have h1 : acc.rooms.any (rLive name kv.1 u) = false :=
            hfreshR kv (List.mem_cons_of_mem _ hkv)
          simp [withItems, withRooms, List.any_append, h1, rLive,
            importRoomDoc, hne])
        (fun kv hkv ckv hckv ikv hikv => by
          have hne : ¬kv0.1 = kv.1 := fun he =>
            hnotin (he ▸ List.mem_map_of_mem Prod.fst hkv)
          have h1 : acc.items.any (iLive name kv.1 ckv.1 ikv.1 u) = false :=
            hfreshI kv (List.mem_cons_of_mem _ hkv) ckv hckv ikv hikv
          rw [withItems, withRooms, List.any_append]
          simp only [h1, Bool.false_or]
          rw [List.any_eq_false]
          intro x hx
          obtain ⟨ckv1, hckv1, hx1⟩ := List.mem_flatMap.mp hx
          obtain ⟨ikv1, hikv1, rfl⟩ := List.mem_map.mp hx1
          simp [iLive, iKey, importItemDoc, hne])
        hndt
        (fun kv hkv => hndC kv (List.mem_cons_of_mem _ hkv))
        (fun kv hkv => hndN kv (List.mem_cons_of_mem _ hkv))]
      simp [withItems, withRooms, importRoomItems, importCatDocs]

theorem error_bind {ε α β : Type} (e : ε) (f : α → Except ε β) :
    ((Except.error e : Except ε α) >>= f) = Except.error e := rfl

theorem aset_nodup_keys {β : Type} (l : List (String × β)) (k : String)
    (v : β) (h : (l.map Prod.fst).Nodup) :
    ((aset l k v).map Prod.fst).Nodup := by
  rw [aset_map_fst]
  by_cases hs : (aget l k).isSome = true
  · rw [if_pos hs]
    exact h
  · rw [if_neg hs]
    have hk : k ∉ l.map Prod.fst := fun hm =>
      hs ((aget_isSome_iff_mem l k).mpr hm)
    simp [List.nodup_append, h, hk]

theorem aget_mem {β : Type} (l : List (String × β)) (k : String) (v : β)
    (h : aget l k = some v) : (k, v) ∈ l := by
  induction l with
  | nil => simp [aget] at h
  | cons a t ih =>
      obtain ⟨k0, v0⟩ := a
      by_cases hk : k0 = k
      · subst hk
        simp only [aget, if_pos rfl] at h
        obtain rfl := Option.some.inj h
        exact List.mem_cons_self _ _
      · simp only [aget, if_neg hk] at h
        exact List.mem_cons_of_mem _ (ih h)

theorem mem_aset {β : Type} (l : List (String × β)) (k : String) (v : β)
    (x : String × β) (h : x ∈ aset l k v) : x ∈ l ∨ x = (k, v) := by
  induction l with
  | nil =>
      right
      simpa [aset] using h
  | cons a t ih =>
      obtain ⟨k0, v0⟩ := a
      by_cases hk : k0 = k
      · subst hk
        simp only [aset, if_pos rfl] at h
        rcases List.mem_cons.mp h with h1 | h1
        · right
          exact h1
        · left
          exact List.mem_cons_of_mem _ h1
      · simp only [aset, if_neg hk] at h
        rcases List.mem_cons.mp h with h1 | h1
        · left
          exact h1 ▸ List.mem_cons_self _ _
        · rcases ih h1 with h2 | h2
          · exact Or.inl (List.mem_cons_of_mem _ h2)
          · exact Or.inr h2

/-- Inversion: a successful `exportAddRoom` step writes the exported room
record under the room name. -/
theorem exportAddRoom_ok (acc : List (String × ExportRoom)) (rd : RoomDoc)
    (out : List (String × ExportRoom))
    (h : exportAddRoom acc rd = .ok out) :
    ∃ er, exportRoomOf rd = .ok er ∧ out = aset acc rd.name er := by
  unfold exportAddRoom at h
  cases he : exportRoomOf rd with
  | error e =>
      rw [he, error_bind] at h
      exact Except.noConfusion h
  | ok er =>
      rw [he, ok_bind] at h
      exact ⟨er, rfl, (Except.ok.inj h).symm⟩

/-- Inversion of a successful `exportAddItem` step. -/
theorem exportAddItem_ok (acc : List (String × ExportRoom)) (it : ItemDoc)
    (out : List (String × ExportRoom))
    (h : exportAddItem acc it = .ok out) :
    out = acc ∨ ∃ rm cm ei, aget acc it.room = some rm ∧
      aget rm.categories it.category = some cm ∧
      exportItemOf it = .ok ei ∧
      out = aset acc it.room (exportRoomWithItem rm it cm ei) := by
  unfold exportAddItem at h
  cases h0 : aget acc it.room with
  | none =>
      rw [h0] at h
      exact Or.inl (Except.ok.inj h).symm
  | some rm =>
      simp only [h0] at h
      cases he : exportItemOf it with
      | error e =>
          rw [he, error_bind] at h
          exact Except.noConfusion h
      | ok ei =>
          rw [he, ok_bind] at h
          cases hc : aget rm.categories it.category with
          | none =>
              rw [hc] at h
              exact Except.noConfusion h
          | some cm =>
              rw [hc] at h
              refine Or.inr ⟨rm, cm, ei, rfl, hc, rfl, ?_⟩
              exact (Except.ok.inj h).symm.trans rfl

/-- Field inversion of a successful `exportRoomOf`. -/
theorem exportRoomOf_ok (rd : RoomDoc) (er : ExportRoom)
    (h : exportRoomOf rd = .ok er) :
    er.name = rd.name ∧ er.summary = rd.summary ∧
    er.deleted = rd.deleted ∧ er.categories = emptyCats := by
  unfold exportRoomOf at h
  cases hct : TS.timestampCall rd.created_at with
  | error e =>
      rw [hct, error_bind] at h
      exact Except.noConfusion h
  | ok ct =>
      rw [hct, ok_bind] at h
      cases hut : TS.timestampCall rd.updated_at with
      | error e =>
          rw [hut, error_bind] at h
          exact Except.noConfusion h
      | ok ut =>
          rw [hut, ok_bind] at h
          obtain rfl := Except.ok.inj h
          exact ⟨rfl, rfl, rfl, rfl⟩

/-- Field inversion of a successful `exportItemOf`. -/
theorem exportItemOf_ok (it : ItemDoc) (ei : ExportItem)
    (h : exportItemOf it = .ok ei) :
    ei.name = it.name ∧ ei.summary = it.summary ∧
    ei.notes_md = it.notes_md ∧ ei.tags = it.tags ∧
    ei.metadata = it.metadata ∧ ei.deleted = it.deleted := by
  unfold exportItemOf at h
  cases hct : TS.timestampCall it.created_at with
  | error e =>
      rw [hct, error_bind] at h
      exact Except.noConfusion h
  | ok ct =>
      rw [hct, ok_bind] at h
      cases hut : TS.timestampCall it.updated_at with
      | error e =>
          rw [hut, error_bind] at h
          exact Except.noConfusion h
      | ok ut =>
          rw [hut, ok_bind] at h
          obtain rfl := Except.ok.inj h
          exact ⟨rfl, rfl, rfl, rfl, rfl, rfl⟩

/-- Structural well-formedness of a tree room: live, category keys
distinct, item keys distinct per bucket, leaves live. -/
def roomWF (rm : ExportRoom) : Prop :=
  rm.deleted = false ∧
  (rm.categories.map Prod.fst).Nodup ∧
  ∀ ckv ∈ rm.categories, (ckv.2.map Prod.fst).Nodup ∧
    ∀ ikv ∈ ckv.2, ikv.2.deleted = false

/-- The rooms loop produces only well-formed room records. -/
theorem exportRooms_wf (L : List RoomDoc)
    (acc out : List (String × ExportRoom))
    (h : L.foldlM exportAddRoom acc = .ok out)
    (hdel : ∀ rd ∈ L, rd.deleted = false)
    (hwf : ∀ kv ∈ acc, roomWF kv.2) :
    ∀ kv ∈ out, roomWF kv.2 := by
  induction L generalizing acc with
  | nil =>
      rw [List.foldlM_nil] at h
      obtain rfl := Except.ok.inj h
      exact hwf
  | cons rd T ih =>
      rw [List.foldlM_cons] at h
      cases hs : exportAddRoom acc rd with
      | error e =>
          rw [hs, error_bind] at h
          exact Except.noConfusion h
      | ok acc1 =>
          rw [hs, ok_bind] at h
          obtain ⟨er, her, rfl⟩ := exportAddRoom_ok acc rd acc1 hs
          refine ih _ h (fun x hx => hdel x (List.mem_cons_of_mem _ hx))
            (fun kv hkv => ?_)
          rcases mem_aset _ _ _ _ hkv with h1 | h1
          · exact hwf kv h1
          · obtain ⟨hn, hsum, hdel2, hcats⟩ := exportRoomOf_ok rd er her
            subst h1
            refine ⟨hdel2.trans (hdel rd (List.mem_cons_self _ _)), ?_, ?_⟩
            · rw [hcats]
              decide
            · intro ckv hckv
              rw [hcats] at hckv
              have hbucket : ckv.2 = [] := by
                fin_cases hckv <;> rfl
              rw [hbucket]
              exact ⟨List.nodup_nil, fun ikv hikv => absurd hikv
                (List.not_mem_nil _)⟩

/-- The items loop preserves well-formedness of every room record. -/
theorem exportItems_wf (I : List ItemDoc)
    (acc out : List (String × ExportRoom))
    (h : I.foldlM exportAddItem acc = .ok out)
    (hdel : ∀ it ∈ I, it.deleted = false)
    (hwf : ∀ kv ∈ acc, roomWF kv.2) :
    ∀ kv ∈ out, roomWF kv.2 := by
  induction I generalizing acc with
  | nil =>
      rw [List.foldlM_nil] at h
      obtain rfl := Except.ok.inj h
      exact hwf
  | cons it0 T ih =>
      rw [List.foldlM_cons] at h
      cases hs : exportAddItem acc it0 with
      | error e =>
          rw [hs, error_bind] at h
          exact Except.noConfusion h
      | ok acc1 =>
          rw [hs, ok_bind] at h
          refine ih acc1 h (fun x hx => hdel x (List.mem_cons_of_mem _ hx))
            (fun kv hkv => ?_)
          rcases exportAddItem_ok acc it0 acc1 hs with rfl | hinv
          · exact hwf kv hkv
          · obtain ⟨rm, cm, ei, hrm, hcm, hei, rfl⟩ := hinv
            rcases mem_aset _ _ _ _ hkv with h1 | h1
            · exact hwf kv h1
            · subst h1
              obtain ⟨hd0, hndc, hbk⟩ := hwf (it0.room, rm)
                (aget_mem _ _ _ hrm)
              have hcatseq : (exportRoomWithItem rm it0 cm ei).categories
                  = aset rm.categories it0.category (aset cm it0.name ei) :=
                rfl
              refine ⟨hd0, ?_, ?_⟩
              · rw [hcatseq]
                exact aset_nodup_keys _ _ _ hndc
              · intro ckv hckv
                rw [hcatseq] at hckv
                rcases mem_aset _ _ _ _ hckv with h2 | h2
                · exact hbk ckv h2
                · subst h2
                  obtain ⟨hndcm, hcmdel⟩ := hbk (it0.category, cm)
                    (aget_mem _ _ _ hcm)
                  refine ⟨aset_nodup_keys _ _ _ hndcm, ?_⟩
                  intro ikv hikv
                  rcases mem_aset _ _ _ _ hikv with h3 | h3
                  · exact hcmdel ikv h3
                  · subst h3
                    obtain ⟨_, _, _, _, _, hdei⟩ :=
                      exportItemOf_ok it0 ei hei
                    exact hdei.trans (hdel it0 (List.mem_cons_self _ _))

/-- The rooms loop keeps the dict keys duplicate-free. -/
theorem exportRooms_nodup_keys (L : List RoomDoc)
    (acc out : List (String × ExportRoom))
    (h : L.foldlM exportAddRoom acc = .ok out)
    (hnd : (acc.map Prod.fst).Nodup) : (out.map Prod.fst).Nodup := by
  induction L generalizing acc with
  | nil =>
      rw [List.foldlM_nil] at h
      obtain rfl := Except.ok.inj h
      exact hnd
  | cons rd T ih =>
      rw [List.foldlM_cons] at h
      cases hs : exportAddRoom acc rd with
      | error e =>
          rw [hs, error_bind] at h
          exact Except.noConfusion h
      | ok acc1 =>
          rw [hs, ok_bind] at h
          obtain ⟨er, _, rfl⟩ := exportAddRoom_ok acc rd acc1 hs
          exact ih _ h (aset_nodup_keys _ _ _ hnd)

/-- The items loop keeps the dict keys duplicate-free. -/
theorem exportItems_nodup_keys (I : List ItemDoc)
    (acc out : List (String × ExportRoom))
    (h : I.foldlM exportAddItem acc = .ok out)
    (hnd : (acc.map Prod.fst).Nodup) : (out.map Prod.fst).Nodup := by
  induction I generalizing acc with
  | nil =>
      rw [List.foldlM_nil] at h
      obtain rfl := Except.ok.inj h
      exact hnd
  | cons it0 T ih =>
      rw [List.foldlM_cons] at h
      cases hs : exportAddItem acc it0 with
      | error e =>
          rw [hs, error_bind] at h
          exact Except.noConfusion h
      | ok acc1 =>
          rw [hs, ok_bind] at h
          rcases exportAddItem_ok acc it0 acc1 hs with rfl | hinv
          · exact ih _ h hnd
          · obtain ⟨rm, cm, ei, _, _, _, rfl⟩ := hinv
            exact ih _ h (aset_nodup_keys _ _ _ hnd)

/-- Looking up a live room among freshly imported room documents is
association-list lookup in the tree. -/
theorem importRoomsList_find? (name u : String) (now : Int)
    (rooms : List (String × ExportRoom)) (k : String)
    (hdel : ∀ kv ∈ rooms, kv.2.deleted = false) :
    (rooms.map (fun kv => importRoomDoc name u now kv.1 kv.2)).find?
        (rLive name k u)
      = (aget rooms k).map (fun rm => importRoomDoc name u now k rm) := by
  induction rooms with
  | nil => rfl
  | cons kv t ih =>
      rw [List.map_cons]
      by_cases hk : kv.1 = k
      · subst hk
        have hpred : rLive name kv.1 u (importRoomDoc name u now kv.1 kv.2)
            = true := by
          simp [rLive, importRoomDoc, hdel kv (List.mem_cons_self _ _)]
        have hfind : List.find? (rLive name kv.1 u)
            (importRoomDoc name u now kv.1 kv.2 ::
              t.map (fun kv2 => importRoomDoc name u now kv2.1 kv2.2))
            = some (importRoomDoc name u now kv.1 kv.2) :=
          List.find?_cons_of_pos _ hpred
        have hag : aget (kv :: t) kv.1 = some kv.2 := by
          simp [aget]
        rw [hfind, hag]
        rfl
      · have hpred : rLive name k u (importRoomDoc name u now kv.1 kv.2)
            = false := by
          simp [rLive, importRoomDoc, hk]
        have hfind : List.find? (rLive name k u)
            (importRoomDoc name u now kv.1 kv.2 ::
              t.map (fun kv2 => importRoomDoc name u now kv2.1 kv2.2))
            = List.find? (rLive name k u)
              (t.map (fun kv2 => importRoomDoc name u now kv2.1 kv2.2)) :=
          List.find?_cons_of_neg _ (by simp [hpred])
        have hag : aget (kv :: t) k = aget t k := by
          simp [aget, hk]
        rw [hfind, hag, ih (fun x hx => hdel x (List.mem_cons_of_mem _ hx))]

/-- Looking up a live item among the documents of one imported category
bucket is association-list lookup in the bucket. -/
theorem importCatDocs_find? (name u : String) (now : Int) (rk ck n : String)
    (l : List (String × ExportItem))
    (hdel : ∀ ikv ∈ l, ikv.2.deleted = false) :
    (importCatDocs name u now rk ck l).find? (iLive name rk ck n u)
      = (aget l n).map (fun ei => importItemDoc name u now rk ck n ei) := by
  induction l with
  | nil => rfl
  | cons ikv t ih =>
      simp only [importCatDocs, List.map_cons]
      by_cases hn : ikv.1 = n
      · subst hn
        have hpred : iLive name rk ck ikv.1 u
            (importItemDoc name u now rk ck ikv.1 ikv.2) = true := by
          simp [iLive, iKey, importItemDoc,
            hdel ikv (List.mem_cons_self _ _)]
        have hfind : List.find? (iLive name rk ck ikv.1 u)
            (importItemDoc name u now rk ck ikv.1 ikv.2 ::
              t.map (fun x => importItemDoc name u now rk ck x.1 x.2))
            = some (importItemDoc name u now rk ck ikv.1 ikv.2) :=
          List.find?_cons_of_pos _ hpred
        have hag : aget (ikv :: t) ikv.1 = some ikv.2 := by
          simp [aget]
        rw [hfind, hag]
        rfl
      · have hpred : iLive name rk ck n u
            (importItemDoc name u now rk ck ikv.1 ikv.2) = false := by
          simp [iLive, iKey, importItemDoc, hn]
        have hfind : List.find? (iLive name rk ck n u)
            (importItemDoc name u now rk ck ikv.1 ikv.2 ::
              t.map (fun x => importItemDoc name u now rk ck x.1 x.2))
            = List.find? (iLive name rk ck n u)
              (t.map (fun x => importItemDoc name u now rk ck x.1 x.2)) :=
          List.find?_cons_of_neg _ (by simp [hpred])
        have hag : aget (ikv :: t) n = aget t n := by
          simp [aget, hn]
        have hih := ih (fun x hx => hdel x (List.mem_cons_of_mem _ hx))
        simp only [importCatDocs] at hih
        rw [hfind, hag, hih]

/-- Looking up a live item among the documents of one imported room is the
two-level dict lookup in that room of the tree. -/
theorem importRoomItems_find? (name u : String) (now : Int) (rk c n : String)
    (cats : List (String × List (String × ExportItem)))
    (hdel : ∀ ckv ∈ cats, ∀ ikv ∈ ckv.2, ikv.2.deleted = false)
    (hndC : (cats.map Prod.fst).Nodup) :
    (cats.flatMap (fun ckv => importCatDocs name u now rk ckv.1 ckv.2)).find?
        (iLive name rk c n u)
      = ((aget cats c).bind (fun cm => aget cm n)).map
          (fun ei => importItemDoc name u now rk c n ei) := by
  induction cats with
  | nil => rfl
  | cons ckv t ih =>
      rw [List.map_cons] at hndC
      obtain ⟨hnotin, hndt⟩ := List.nodup_cons.mp hndC
      rw [List.flatMap_cons, List.find?_append]
      by_cases hc : ckv.1 = c
      · subst hc
        have hrest : (t.flatMap (fun ckv2 =>
            importCatDocs name u now rk ckv2.1 ckv2.2)).find?
            (iLive name rk ckv.1 n u) = Option.none := by
          rw [List.find?_eq_none]
          intro x hx
          obtain ⟨ckv1, hckv1, hx1⟩ := List.mem_flatMap.mp hx
          simp only [importCatDocs] at hx1
          obtain ⟨ikv1, hikv1, rfl⟩ := List.mem_map.mp hx1
          have hne : ¬ckv1.1 = ckv.1 := fun he =>
            hnotin (he ▸ List.mem_map_of_mem Prod.fst hckv1)
          simp [iLive, iKey, importItemDoc, hne]
        have hag : aget (ckv :: t) ckv.1 = some ckv.2 := by
          simp [aget]
        rw [importCatDocs_find? name u now rk ckv.1 n ckv.2
          (hdel ckv (List.mem_cons_self _ _)), hrest, Option.or_none, hag]
        rfl
      · have hsec : (importCatDocs name u now rk ckv.1 ckv.2).find?
            (iLive name rk c n u) = Option.none := by
          rw [List.find?_eq_none]
          intro x hx
          simp only [importCatDocs] at hx
          obtain ⟨ikv1, hikv1, rfl⟩ := List.mem_map.mp hx
          simp [iLive, iKey, importItemDoc, hc]
        have hag : aget (ckv :: t) c = aget t c := by
          simp [aget, hc]
        rw [hsec, Option.none_or, hag,
          ih (fun x hx => hdel x (List.mem_cons_of_mem _ hx)) hndt]

/-- Looking up a live item among all freshly imported item documents is
`treeItemLookup` in the tree. -/
theorem importItemsList_find? (name u : String) (now : Int) (r c n : String)
    (rooms : List (String × ExportRoom))
    (hdel : ∀ kv ∈ rooms, ∀ ckv ∈ kv.2.categories, ∀ ikv ∈ ckv.2,
      ikv.2.deleted = false)
    (hndK : (rooms.map Prod.fst).Nodup)
    (hndC : ∀ kv ∈ rooms, (kv.2.categories.map Prod.fst).Nodup) :
    (rooms.flatMap (importRoomItems name u now)).find? (iLive name r c n u)
      = (treeItemLookup rooms r c n).map
          (fun ei => importItemDoc name u now r c n ei) := by
  induction rooms with
  | nil => rfl
  | cons kv t ih =>
      rw [List.map_cons] at hndK
      obtain ⟨hnotin, hndt⟩ := List.nodup_cons.mp hndK
      rw [List.flatMap_cons, List.find?_append]
      by_cases hr : kv.1 = r
      · subst hr
        have hsec : (importRoomItems name u now kv).find?
            (iLive name kv.1 c n u)
            = ((aget kv.2.categories c).bind (fun cm => aget cm n)).map
                (fun ei => importItemDoc name u now kv.1 c n ei) :=
          importRoomItems_find? name u now kv.1 c n kv.2.categories
            (hdel kv (List.mem_cons_self _ _))
            (hndC kv (List.mem_cons_self _ _))
        have hrest : (t.flatMap (importRoomItems name u now)).find?
            (iLive name kv.1 c n u) = Option.none := by
          rw [List.find?_eq_none]
          intro x hx
          obtain ⟨kv1, hkv1, hx1⟩ := List.mem_flatMap.mp hx
          simp only [importRoomItems] at hx1
          obtain ⟨ckv1, hckv1, hx2⟩ := List.mem_flatMap.mp hx1
          simp only [importCatDocs] at hx2
          obtain ⟨ikv1, hikv1, rfl⟩ := List.mem_map.mp hx2
          have hne : ¬kv1.1 = kv.1 := fun he =>
            hnotin (he ▸ List.mem_map_of_mem Prod.fst hkv1)
          simp [iLive, iKey, importItemDoc, hne]
        have hag : aget (kv :: t) kv.1 = some kv.2 := by
          simp [aget]
        rw [hsec, hrest, Option.or_none]
        simp only [treeItemLookup, hag]
        rfl
      · have hsec : (importRoomItems name u now kv).find?
            (iLive name r c n u) = Option.none := by
          rw [List.find?_eq_none]
          intro x hx
          simp only [importRoomItems] at hx
          obtain ⟨ckv1, hckv1, hx2⟩ := List.mem_flatMap.mp hx
          simp only [importCatDocs] at hx2
          obtain ⟨ikv1, hikv1, rfl⟩ := List.mem_map.mp hx2
          simp [iLive, iKey, importItemDoc, hr]
        have hag : aget (kv :: t) r = aget t r := by
          simp [aget, hr]
        rw [hsec, Option.none_or,
          ih (fun x hx => hdel x (List.mem_cons_of_mem _ hx)) hndt
            (fun x hx => hndC x (List.mem_cons_of_mem _ hx))]
        simp only [treeItemLookup, hag]

theorem find?_ext {α : Type} (p q : α → Bool) (l : List α)
    (h : ∀ a, p a = q a) : l.find? p = l.find? q := by
  induction l with
  | nil => rfl
  | cons a t ih => rw [List.find?_cons, List.find?_cons, h a, ih]

theorem find?_none_of_any_false {α : Type} (p : α → Bool) (l : List α)
    (h : l.any p = false) : l.find? p = Option.none := by
  rw [List.find?_eq_none]
  intro x hx hpx
  have htrue : l.any p = true := List.any_eq_true.mpr ⟨x, hx, hpx⟩
  rw [h] at htrue
  exact Bool.noConfusion htrue

theorem any_false_of_find?_none {α : Type} (p : α → Bool) (l : List α)
    (h : l.find? p = Option.none) : l.any p = false := by
  cases ha : l.any p
  · rfl
  · obtain ⟨x, hx, hpx⟩ := List.any_eq_true.mp ha
    rw [List.find?_eq_none] at h
    exact absurd hpx (h x hx)

theorem emptyCats_isSome :
    ∀ c ∈ CATEGORIES, (aget emptyCats c).isSome = true := by
  decide

theorem emptyCats_bucket (c : String) (cm : List (String × ExportItem))
    (h : aget emptyCats c = some cm) : cm = [] := by
  have hm := aget_mem _ _ _ h
  fin_cases hm <;> rfl

/-- On datetime (epoch) timestamps `exportRoomOf` succeeds and copies the
room fields, attaching the four empty buckets. -/
theorem exportRoomOf_epoch (rd : RoomDoc) (a b : Int)
    (ha : rd.created_at = TS.epoch a) (hb : rd.updated_at = TS.epoch b) :
    exportRoomOf rd = .ok
      { name := rd.name, summary := rd.summary, created_at := a,
        updated_at := b, deleted := rd.deleted,
        categories := emptyCats } := by
  simp only [exportRoomOf, ha, hb, TS.timestampCall]
  rfl

/-- On datetime (epoch) timestamps `exportItemOf` succeeds and copies the
item fields. -/
theorem exportItemOf_epoch (it : ItemDoc) (a b : Int)
    (ha : it.created_at = TS.epoch a) (hb : it.updated_at = TS.epoch b) :
    exportItemOf it = .ok (exportItemRecord it a b) := by
  simp only [exportItemOf, ha, hb, TS.timestampCall]
  rfl

/-- Read-level view of one room: the summary of the live room at
`(dg, r)` of this user, if any. -/
def roomView (s : Store) (dg u r : String) : Option (Option String) :=
  (s.rooms.find? (rLive dg r u)).map RoomDoc.summary

/-- Read-level view of one item: its user-visible fields (summary, notes,
tags, metadata). -/
def itemView (s : Store) (dg u r c n : String) :
    Option (Option String × Option String × List String ×
      List (String × PyVal)) :=
  (s.items.find? (iLive dg r c n u)).map
    (fun d => (d.summary, d.notes_md, d.tags, d.metadata))

theorem one_le_repr_length (n : Nat) : 1 ≤ (Nat.repr n).length := by
  have hlen : (Nat.repr n).length = (reprDigits n).length :=
    congrArg List.length (repr_data n)
  rw [hlen]
  unfold reprDigits
  by_cases h0 : n = 0
  · rw [if_pos h0]
    decide
  · rw [if_neg h0]
    have hne : Nat.digits 10 n ≠ [] := Nat.digits_ne_nil_iff_ne_zero.mpr h0
    have hpos : 0 < (Nat.digits 10 n).length := List.length_pos.mpr hne
    simpa using hpos

/-- A store exactly as the application itself builds it: one dungeon
`"A"` of user `"u1"` carrying the string timestamps `create_dungeon`
stores (`db.utcnow()` returns a formatted string). -/
def W6 : Store :=
  { dungeons := [{ name := "A", summary := Option.none, user_id := "u1",
                   created_at := utcnow 0, updated_at := utcnow 0,
                   deleted := false }],
    rooms := [], items := [] }

/-- C6 (counterexample): on the stores the application itself creates the
round trip cannot even start — `export_dungeon` calls `.timestamp()` on
the string timestamps `create_dungeon` stored, raising `AttributeError`,
so `import_dungeon(export_dungeon(X), strategy="rename")` never receives
a payload and no renamed structurally-identical dungeon is produced. -/
theorem export_import_rename_counterexample :
    export_dungeon W6 "A" (some "u1") "" = .error
      "AttributeError: \x27str\x27 object has no attribute \x27timestamp\x27"
    := by
  rfl

theorem find?_filter_comm {α : Type} (p q : α → Bool) (l : List α) :
    (l.filter p).find? q = l.find? (fun a => p a && q a) := by
  induction l with
  | nil => rfl
  | cons a t ih =>
      by_cases hp : p a = true
      · rw [List.filter_cons_of_pos hp]
        cases hq : q a
        · rw [List.find?_cons_of_neg _ (by simp [hq]),
            List.find?_cons_of_neg _ (by simp [hq]), ih]
        · rw [List.find?_cons_of_pos _ hq,
            List.find?_cons_of_pos _ (by simp [hp, hq])]
      · rw [List.filter_cons_of_neg (by simpa using hp), ih,
          List.find?_cons_of_neg _ (by simp [hp])]

/-- Evaluation of a successful export: on a dungeon with datetime (epoch)
timestamps whose live rooms and items are epoch-timestamped,
duplicate-free and orphan-free, `export_dungeon` succeeds and the
resulting tree mirrors the store content. -/
theorem export_dungeon_spec
    (s : Store) (X u raw : String) (ddoc : DungeonDoc) (ca cb : Int)
    (hu : u ≠ "")
    (hdd : s.dungeons.find? (dLive X u) = some ddoc)
    (hdct : ddoc.created_at = TS.epoch ca)
    (hdut : ddoc.updated_at = TS.epoch cb)
    (hrts : ∀ rd ∈ s.rooms.filter (roomsOfLive X u),
      (∃ a, rd.created_at = TS.epoch a) ∧ (∃ b, rd.updated_at = TS.epoch b))
    (hits : ∀ it ∈ s.items.filter (itemsOfLive X u),
      (∃ a, it.created_at = TS.epoch a) ∧ (∃ b, it.updated_at = TS.epoch b))
    (hcats : ∀ it ∈ s.items.filter (itemsOfLive X u),
      it.category ∈ CATEGORIES)
    (hndR : ((s.rooms.filter (roomsOfLive X u)).map RoomDoc.name).Nodup)
    (hndI : ((s.items.filter (itemsOfLive X u)).map
      (fun it => (it.room, it.category, it.name))).Nodup)
    (horph : ∀ it ∈ s.items.filter (itemsOfLive X u),
      ∃ rd ∈ s.rooms.filter (roomsOfLive X u), rd.name = it.room) :
    ∃ rooms1,
      export_dungeon s X (some u) raw = .ok (.inr
        { name := X, created_at := ca, updated_at := cb,
          deleted := false, rooms := rooms1 }) ∧
      (∀ kv ∈ rooms1, roomWF kv.2) ∧
      ((rooms1.map Prod.fst).Nodup) ∧
      (∀ k, (aget rooms1 k).map (fun rm => rm.summary)
        = (s.rooms.find? (rLive X k u)).map RoomDoc.summary) ∧
      (∀ r c n, (treeItemLookup rooms1 r c n).map
          (fun ei => (ei.summary, ei.notes_md, ei.tags, ei.metadata))
        = (s.items.find? (iLive X r c n u)).map
          (fun d => (d.summary, d.notes_md, d.tags, d.metadata))) := by
  have hum : userMissing (some u) = false := by
    simp only [userMissing]
    exact (Bool.not_eq_true _).mp (fun h => hu ((String.isEmpty_iff u).mp h))
  obtain ⟨rooms0, hfold0, hchar0⟩ := exportRooms_spec
    (s.rooms.filter (roomsOfLive X u)) [] hrts hndR (fun r hr => rfl)
  have hinv0 : ∀ k rm, aget rooms0 k = some rm →
      ∀ c ∈ CATEGORIES, (aget rm.categories c).isSome = true := by
    intro k rm hk c hc
    rw [hchar0 k] at hk
    cases hf : (s.rooms.filter (roomsOfLive X u)).find?
        (fun rd => rd.name == k) with
    | none =>
        rw [hf] at hk
        exact Option.noConfusion hk
    | some rd =>
        rw [hf] at hk
        replace hk : (exportRoomOf rd).toOption = some rm := hk
        obtain ⟨⟨a, ha⟩, ⟨b, hb⟩⟩ := hrts rd (List.mem_of_find?_eq_some hf)
        rw [exportRoomOf_epoch rd a b ha hb] at hk
        obtain rfl := Option.some.inj hk
        exact emptyCats_isSome c hc
  obtain ⟨rooms1, hfold1, hdom1, hflds1, hlook1⟩ := exportItems_spec
    (s.items.filter (itemsOfLive X u)) rooms0 hits hcats hinv0 hndI
  have hLdel : ∀ rd ∈ s.rooms.filter (roomsOfLive X u),
      rd.deleted = false := by
    intro rd hrd
    have hq := (List.mem_filter.mp hrd).2
    simp only [roomsOfLive, Bool.and_eq_true, Bool.not_eq_true'] at hq
    exact hq.2
  have hIdel : ∀ it ∈ s.items.filter (itemsOfLive X u),
      it.deleted = false := by
    intro it hit
    have hq := (List.mem_filter.mp hit).2
    simp only [itemsOfLive, Bool.and_eq_true, Bool.not_eq_true'] at hq
    exact hq.2
  have h0wf := exportRooms_wf _ [] rooms0 hfold0 hLdel
    (fun kv hkv => absurd hkv (List.not_mem_nil _))
  have h1wf := exportItems_wf _ rooms0 rooms1 hfold1 hIdel h0wf
  have hnd0 := exportRooms_nodup_keys _ [] rooms0 hfold0 (by simp)
  have hnd1 := exportItems_nodup_keys _ rooms0 rooms1 hfold1 hnd0
  have hdda := List.find?_some hdd
  simp only [dLive, Bool.and_eq_true, beq_iff_eq, Bool.not_eq_true'] at hdda
  obtain ⟨⟨hdn, hduid⟩, hddel⟩ := hdda
  have hexp : export_dungeon s X (some u) raw = .ok (.inr
      { name := X, created_at := ca, updated_at := cb,
        deleted := false, rooms := rooms1 }) := by
    simp [export_dungeon, hum, hdd, hdct, hdut, TS.timestampCall, ok_bind,
      hfold0, hfold1, hdn, hddel]
  have hfilterR : ∀ k, s.rooms.find? (rLive X k u)
      = (s.rooms.filter (roomsOfLive X u)).find?
          (fun rd => rd.name == k) := by
    intro k
    rw [find?_filter_comm]
    refine find?_ext _ _ _ (fun rd => ?_)
    simp only [rLive, roomsOfLive]
    cases h1 : rd.dungeon == X <;> cases h2 : rd.name == k <;>
      cases h3 : rd.user_id == u <;> cases h4 : rd.deleted <;> rfl
  have hfilterI : ∀ r c n, s.items.find? (iLive X r c n u)
      = (s.items.filter (itemsOfLive X u)).find?
          (fun it => it.room == r && it.category == c && it.name == n) := by
    intro r c n
    rw [find?_filter_comm]
    refine find?_ext _ _ _ (fun it => ?_)
    simp only [iLive, iKey, itemsOfLive]
    cases h1 : it.dungeon == X <;> cases h2 : it.room == r <;>
      cases h3 : it.category == c <;> cases h4 : it.name == n <;>
      cases h5 : it.user_id == u <;> cases h6 : it.deleted <;> rfl
  have hroomV : ∀ k, (aget rooms1 k).map (fun rm => rm.summary)
      = (s.rooms.find? (rLive X k u)).map RoomDoc.summary := by
    intro k
    rw [hfilterR k]
    cases hf : (s.rooms.filter (roomsOfLive X u)).find?
        (fun rd => rd.name == k) with
    | none =>
        have h0 : aget rooms0 k = Option.none := by
          rw [hchar0 k, hf]
          rfl
        have h1 : aget rooms1 k = Option.none := by
          cases hg : aget rooms1 k with
          | none => rfl
          | some rm2 =>
              obtain ⟨rm0, hrm0, _⟩ := hflds1 k rm2 hg
              rw [h0] at hrm0
              exact Option.noConfusion hrm0
        rw [h1]
        rfl
    | some rd =>
        obtain ⟨⟨a, ha⟩, ⟨b, hb⟩⟩ := hrts rd (List.mem_of_find?_eq_some hf)
        have h0 : aget rooms0 k = some
            { name := rd.name, summary := rd.summary, created_at := a,
              updated_at := b, deleted := rd.deleted,
              categories := emptyCats } := by
          rw [hchar0 k, hf]
          show (exportRoomOf rd).toOption = _
          rw [exportRoomOf_epoch rd a b ha hb]
          rfl
        have hs1 : (aget rooms1 k).isSome = true := by
          rw [hdom1 k, h0]
          rfl
        obtain ⟨rm2, hrm2⟩ := Option.isSome_iff_exists.mp hs1
        obtain ⟨rm0, hrm0, hnm, hsum, _⟩ := hflds1 k rm2 hrm2
        rw [h0] at hrm0
        obtain rfl := Option.some.inj hrm0
        rw [hrm2]
        exact congrArg some hsum
  have h0none : ∀ r c n, treeItemLookup rooms0 r c n = Option.none := by
    intro r c n
    unfold treeItemLookup
    cases hg : aget rooms0 r with
    | none => rfl
    | some rm =>
        rw [hchar0 r] at hg
        cases hf : (s.rooms.filter (roomsOfLive X u)).find?
            (fun rd => rd.name == r) with
        | none =>
            rw [hf] at hg
            exact Option.noConfusion hg
        | some rd =>
            rw [hf] at hg
            replace hg : (exportRoomOf rd).toOption = some rm := hg
            obtain ⟨⟨a, ha⟩, ⟨b, hb⟩⟩ := hrts rd
              (List.mem_of_find?_eq_some hf)
            rw [exportRoomOf_epoch rd a b ha hb] at hg
            obtain rfl := Option.some.inj hg
            show (aget emptyCats c).bind (fun cm => aget cm n) = Option.none
            cases hb2 : aget emptyCats c with
            | none => rfl
            | some cm =>
                rw [emptyCats_bucket c cm hb2]
                rfl
  have hitemV : ∀ r c n,
      (treeItemLookup rooms1 r c n).map
        (fun ei => (ei.summary, ei.notes_md, ei.tags, ei.metadata))
      = (s.items.find? (iLive X r c n u)).map
        (fun d => (d.summary, d.notes_md, d.tags, d.metadata)) := by
    intro r c n
    rw [hfilterI r c n, hlook1 r c n]
    cases hf : (s.items.filter (itemsOfLive X u)).find?
        (fun it => it.room == r && it.category == c && it.name == n) with
    | none =>
        rw [h0none r c n]
        rfl
    | some it =>
        have hpred := List.find?_some hf
        obtain ⟨⟨hir, hic⟩, hin⟩ : (it.room = r ∧ it.category = c) ∧
            it.name = n := by
          simpa [Bool.and_eq_true] using hpred
        obtain ⟨rd, hrdmem, hrdname⟩ := horph it
          (List.mem_of_find?_eq_some hf)
        have hfs : ((s.rooms.filter (roomsOfLive X u)).find?
            (fun rd2 => rd2.name == r)).isSome = true :=
          List.find?_isSome.mpr ⟨rd, hrdmem, by simp [hrdname, hir]⟩
        obtain ⟨rd2, hrd2⟩ := Option.isSome_iff_exists.mp hfs
        obtain ⟨⟨a2, ha2⟩, ⟨b2, hb2⟩⟩ := hrts rd2
          (List.mem_of_find?_eq_some hrd2)
        have hsome0 : (aget rooms0 r).isSome = true := by
          rw [hchar0 r, hrd2]
          show ((exportRoomOf rd2).toOption).isSome = true
          rw [exportRoomOf_epoch rd2 a2 b2 ha2 hb2]
          rfl
        obtain ⟨⟨a3, ha3⟩, ⟨b3, hb3⟩⟩ := hits it
          (List.mem_of_find?_eq_some hf)
        simp [hsome0, exportItemOf_epoch it a3 b3 ha3 hb3,
          exportItemRecord, Except.toOption]
  exact ⟨rooms1, hexp, h1wf, hnd1, hroomV, hitemV⟩

/-- Evaluation of a successful `import_build`: on a fresh target name the
dungeon document and the translated room and item documents are appended
and the IMPORTED envelope is returned. -/
theorem import_build_ok (s : Store) (data : ExportTree)
    (name u strategy raw : String) (now : Int)
    (hnoD : s.dungeons.any (dLive name u) = false)
    (hfreshR : ∀ k, s.rooms.any (rLive name k u) = false)
    (hfreshI : ∀ r c n, s.items.any (iLive name r c n u) = false)
    (hndK : (data.rooms.map Prod.fst).Nodup)
    (hwf : ∀ kv ∈ data.rooms, roomWF kv.2) :
    import_build s data name u strategy raw now = .ok
      ({ status := "ok", code := "IMPORTED",
         message := "Dungeon imported.",
         command := .dict [("raw", .str raw), ("name", .str "import"),
           ("args", .dict [("strategy", .str strategy)])],
         target := .dict [("type", .str "dungeon"),
           ("path", .str ("/" ++ name)), ("name", .str name)],
         result := .dict [("dungeon", .dict [("name", .str name),
           ("deleted", .bool false)])],
         diff := some (.dict [("applied", .bool true),
           ("changes", .list [.dict [("op", .str "add"), ("path", .str "/"),
             ("node_type", .str "dungeon"), ("name", .str name)]])]) },
       withItems (withRooms
           { s with dungeons := s.dungeons ++
               [{ name := name, summary := Option.none, user_id := u,
                  created_at := .epoch data.created_at,
                  updated_at := utcnow now, deleted := data.deleted }] }
           (data.rooms.map (fun kv => importRoomDoc name u now kv.1 kv.2)))
         (data.rooms.flatMap (importRoomItems name u now))) := by
  have hinsD : insertDungeon s
      { name := name, summary := Option.none, user_id := u,
        created_at := .epoch data.created_at, updated_at := utcnow now,
        deleted := data.deleted }
      = .ok { s with dungeons := s.dungeons ++
          [{ name := name, summary := Option.none, user_id := u,
             created_at := .epoch data.created_at,
             updated_at := utcnow now, deleted := data.deleted }] } := by
    simp [insertDungeon, hnoD]
  show (insertDungeon s
      { name := name, summary := Option.none, user_id := u,
        created_at := .epoch data.created_at, updated_at := utcnow now,
        deleted := data.deleted } >>= fun s1 =>
      data.rooms.foldlM (importRoomStep name u now) s1 >>= fun s2 =>
      .ok (_, s2)) = _
  rw [hinsD, ok_bind,
    importRooms_ok name u now data.rooms
      { s with dungeons := s.dungeons ++
          [{ name := name, summary := Option.none, user_id := u,
             created_at := .epoch data.created_at,
             updated_at := utcnow now, deleted := data.deleted }] }
      (fun kv hkv => hfreshR kv.1)
      (fun kv hkv ckv hckv ikv hikv => hfreshI kv.1 ckv.1 ikv.1)
      hndK
      (fun kv hkv => ((hwf kv hkv).2).1)
      (fun kv hkv ckv hckv => (((hwf kv hkv).2).2 ckv hckv).1),
    ok_bind]

/-- After the import the room summary readable under the new name is the
one recorded in the tree. -/
theorem roundtrip_roomView (s : Store) (newName u k : String) (now : Int)
    (rooms1 : List (String × ExportRoom)) (dd : List DungeonDoc)
    (hfresh : s.rooms.any (rLive newName k u) = false)
    (hdel : ∀ kv ∈ rooms1, kv.2.deleted = false) :
    roomView (withItems (withRooms { s with dungeons := dd }
        (rooms1.map (fun kv => importRoomDoc newName u now kv.1 kv.2)))
        (rooms1.flatMap (importRoomItems newName u now)))
      newName u k
    = (aget rooms1 k).map (fun rm => rm.summary) := by
  unfold roomView
  show ((s.rooms ++ rooms1.map (fun kv =>
      importRoomDoc newName u now kv.1 kv.2)).find?
      (rLive newName k u)).map RoomDoc.summary = _
  rw [List.find?_append, find?_none_of_any_false _ _ hfresh,
    Option.none_or, importRoomsList_find? newName u now rooms1 k hdel]
  cases aget rooms1 k <;> rfl

/-- After the import the item payload readable under the new name is the
one recorded at the corresponding leaf of the tree. -/
theorem roundtrip_itemView (s : Store) (newName u r c n : String)
    (now : Int) (rooms1 : List (String × ExportRoom))
    (dd : List DungeonDoc)
    (hfresh : s.items.any (iLive newName r c n u) = false)
    (hdel : ∀ kv ∈ rooms1, ∀ ckv ∈ kv.2.categories, ∀ ikv ∈ ckv.2,
      ikv.2.deleted = false)
    (hndK : (rooms1.map Prod.fst).Nodup)
    (hndC : ∀ kv ∈ rooms1, (kv.2.categories.map Prod.fst).Nodup) :
    itemView (withItems (withRooms { s with dungeons := dd }
        (rooms1.map (fun kv => importRoomDoc newName u now kv.1 kv.2)))
        (rooms1.flatMap (importRoomItems newName u now)))
      newName u r c n
    = (treeItemLookup rooms1 r c n).map
        (fun ei => (ei.summary, ei.notes_md, ei.tags, ei.metadata)) := by
  unfold itemView
  show ((s.items ++ rooms1.flatMap (importRoomItems newName u now)).find?
      (iLive newName r c n u)).map
      (fun d => (d.summary, d.notes_md, d.tags, d.metadata)) = _
  rw [List.find?_append, find?_none_of_any_false _ _ hfresh,
    Option.none_or,
    importItemsList_find? newName u now r c n rooms1 hdel hndK hndC]
  cases treeItemLookup rooms1 r c n <;> rfl

/-- C6: provided dungeon X and its live subtree carry datetime (epoch)
timestamps — as `import_dungeon` itself produces, not the string
timestamps the `create_*` operations write — and the subtree is
duplicate-free (per-name rooms, per-(room, category, name) items), has no
orphan items, and the user's rooms and items only reference live dungeons,
`import_dungeon(export_dungeon(X), strategy="rename")` succeeds with code
IMPORTED under the fresh probe name `X-k`, which differs from X, and every
room summary and item payload (summary, notes, tags, metadata) readable
under the new name equals the one readable under X. -/
theorem export_import_rename_roundtrip
    (s : Store) (X u raw raw2 : String) (now : Int) (ddoc : DungeonDoc)
    (ca cb : Int)
    (hu : u ≠ "") (hX : X ≠ "")
    (hdd : s.dungeons.find? (dLive X u) = some ddoc)
    (hdct : ddoc.created_at = TS.epoch ca)
    (hdut : ddoc.updated_at = TS.epoch cb)
    (hrts : ∀ rd ∈ s.rooms.filter (roomsOfLive X u),
      (∃ a, rd.created_at = TS.epoch a) ∧ (∃ b, rd.updated_at = TS.epoch b))
    (hits : ∀ it ∈ s.items.filter (itemsOfLive X u),
      (∃ a, it.created_at = TS.epoch a) ∧ (∃ b, it.updated_at = TS.epoch b))
    (hcats : ∀ it ∈ s.items.filter (itemsOfLive X u),
      it.category ∈ CATEGORIES)
    (hndR : ((s.rooms.filter (roomsOfLive X u)).map RoomDoc.name).Nodup)
    (hndI : ((s.items.filter (itemsOfLive X u)).map
      (fun it => (it.room, it.category, it.name))).Nodup)
    (horph : ∀ it ∈ s.items.filter (itemsOfLive X u),
      ∃ rd ∈ s.rooms.filter (roomsOfLive X u), rd.name = it.room)
    (hrint : ∀ rd ∈ s.rooms, rd.user_id = u → rd.deleted = false →
      s.dungeons.any (dLive rd.dungeon u) = true)
    (hiint : ∀ it ∈ s.items, it.user_id = u → it.deleted = false →
      s.dungeons.any (dLive it.dungeon u) = true) :
    ∃ tree env s2 newName,
      export_dungeon s X (some u) raw = .ok (.inr tree) ∧
      import_dungeon s tree "rename" (some u) raw2 now = .ok (env, s2) ∧
      env.status = "ok" ∧ env.code = "IMPORTED" ∧
      env.result = .dict [("dungeon", .dict [("name", .str newName),
        ("deleted", .bool false)])] ∧
      newName ≠ X ∧
      (∀ k, roomView s2 newName u k = roomView s X u k) ∧
      (∀ r c n, itemView s2 newName u r c n = itemView s X u r c n) := by
  obtain ⟨rooms1, hexp, h1wf, hnd1, hroomV, hitemV⟩ :=
    export_dungeon_spec s X u raw ddoc ca cb hu hdd hdct hdut hrts hits
      hcats hndR hndI horph
  have hum : userMissing (some u) = false := by
    simp only [userMissing]
    exact (Bool.not_eq_true _).mp (fun h => hu ((String.isEmpty_iff u).mp h))
  have hXe : X.isEmpty = false :=
    (Bool.not_eq_true _).mp (fun h => hX ((String.isEmpty_iff X).mp h))
  have hfree := probe_suffix_free s u X
  have hfindD : s.dungeons.find?
      (dLive (X ++ "-" ++ Nat.repr (probe_suffix s u X)) u)
      = Option.none := by
    cases hq : s.dungeons.find?
        (dLive (X ++ "-" ++ Nat.repr (probe_suffix s u X)) u) with
    | none => rfl
    | some d =>
        rw [hq] at hfree
        exact Bool.noConfusion hfree
  have hnoD : s.dungeons.any
      (dLive (X ++ "-" ++ Nat.repr (probe_suffix s u X)) u) = false :=
    any_false_of_find?_none _ _ hfindD
  have hfreshRs : ∀ k, s.rooms.any
      (rLive (X ++ "-" ++ Nat.repr (probe_suffix s u X)) k u) = false := by
    intro k
    rw [List.any_eq_false]
    intro rd hrd hpred
    simp only [rLive, Bool.and_eq_true, beq_iff_eq, Bool.not_eq_true']
      at hpred
    obtain ⟨⟨⟨hdg, hnm⟩, hus⟩, hdl⟩ := hpred
    have hcontra := hrint rd hrd hus hdl
    rw [hdg, hnoD] at hcontra
    exact Bool.noConfusion hcontra
  have hfreshIs : ∀ r c n, s.items.any
      (iLive (X ++ "-" ++ Nat.repr (probe_suffix s u X)) r c n u)
      = false := by
    intro r c n
    rw [List.any_eq_false]
    intro it hit hpred
    simp only [iLive, iKey, Bool.and_eq_true, beq_iff_eq,
      Bool.not_eq_true'] at hpred
    obtain ⟨⟨⟨⟨⟨hdg, hrm⟩, hc2⟩, hn2⟩, hus⟩, hdl⟩ := hpred
    have hcontra := hiint it hit hus hdl
    rw [hdg, hnoD] at hcontra
    exact Bool.noConfusion hcontra
  have hbuild := import_build_ok s
    { name := X ++ "-" ++ Nat.repr (probe_suffix s u X), created_at := ca,
      updated_at := cb, deleted := false, rooms := rooms1 }
    (X ++ "-" ++ Nat.repr (probe_suffix s u X)) u "rename" raw2 now
    hnoD hfreshRs hfreshIs hnd1 h1wf
  have himp : import_dungeon s
      { name := X, created_at := ca, updated_at := cb, deleted := false,
        rooms := rooms1 } "rename" (some u) raw2 now
      = import_build s
        { name := X ++ "-" ++ Nat.repr (probe_suffix s u X),
          created_at := ca, updated_at := cb, deleted := false,
          rooms := rooms1 }
        (X ++ "-" ++ Nat.repr (probe_suffix s u X)) u "rename" raw2
        now := by
    simp only [import_dungeon, hum, Bool.false_eq_true, if_false, hXe,
      Option.getD_some, hdd]
    rw [if_neg (show ¬(("rename" : String) = "overwrite") by decide)]
    rw [if_pos trivial]
  refine ⟨{ name := X, created_at := ca, updated_at := cb,
            deleted := false, rooms := rooms1 },
    { status := "ok", code := "IMPORTED", message := "Dungeon imported.",
      command := .dict [("raw", .str raw2), ("name", .str "import"),
        ("args", .dict [("strategy", .str "rename")])],
      target := .dict [("type", .str "dungeon"),
        ("path", .str ("/" ++ (X ++ "-" ++ Nat.repr (probe_suffix s u X)))),
        ("name", .str (X ++ "-" ++ Nat.repr (probe_suffix s u X)))],
      result := .dict [("dungeon",
        .dict [("name", .str (X ++ "-" ++ Nat.repr (probe_suffix s u X))),
               ("deleted", .bool false)])],
      diff := some (.dict [("applied", .bool true),
        ("changes", .list [.dict [("op", .str "add"), ("path", .str "/"),
          ("node_type", .str "dungeon"),
          ("name", .str (X ++ "-" ++
            Nat.repr (probe_suffix s u X)))]])]) },
    withItems (withRooms { s with dungeons := s.dungeons ++
          [{ name := X ++ "-" ++ Nat.repr (probe_suffix s u X),
             summary := Option.none, user_id := u,
             created_at := .epoch ca, updated_at := utcnow now,
             deleted := false }] }
        (rooms1.map (fun kv => importRoomDoc
          (X ++ "-" ++ Nat.repr (probe_suffix s u X)) u now kv.1 kv.2)))
      (rooms1.flatMap (importRoomItems
        (X ++ "-" ++ Nat.repr (probe_suffix s u X)) u now)),
    X ++ "-" ++ Nat.repr (probe_suffix s u X),
    hexp, ?_, rfl, rfl, rfl, ?_, ?_, ?_⟩
  · exact himp.trans hbuild
  · intro he
    have hlen := congrArg String.length he
    rw [String.length_append, String.length_append] at hlen
    have h1 : ("-" : String).length = 1 := rfl
    have h2 := one_le_repr_length (probe_suffix s u X)
    omega
  · intro k
    rw [roundtrip_roomView s (X ++ "-" ++ Nat.repr (probe_suffix s u X)) u
        k now rooms1 _ (hfreshRs k) (fun kv hkv => (h1wf kv hkv).1),
      hroomV k]
    rfl
  · intro r c n
    rw [roundtrip_itemView s (X ++ "-" ++ Nat.repr (probe_suffix s u X)) u
        r c n now rooms1 _ (hfreshIs r c n)
        (fun kv hkv ckv hckv ikv hikv =>
          ((h1wf kv hkv).2.2 ckv hckv).2 ikv hikv)
        hnd1 (fun kv hkv => (h1wf kv hkv).2.1),
      hitemV r c n]
    rfl

/-- The dungeon document of the epoch-timestamped witness store. -/
def W6Ad : DungeonDoc :=
  { name := "A", summary := some "D", user_id := "u1",
    created_at := .epoch 1, updated_at := .epoch 2, deleted := false }

/-- The room document of the epoch-timestamped witness store. -/
def W6Ar : RoomDoc :=
  { dungeon := "A", name := "r1", summary := some "S", user_id := "u1",
    created_at := .epoch 3, updated_at := .epoch 4, deleted := false }

/-- The item document of the epoch-timestamped witness store. -/
def W6Ai : ItemDoc :=
  { dungeon := "A", room := "r1", category := "puzzles", name := "i1",
    user_id := "u1", summary := some "IS", notes_md := some "N",
    tags := ["t"], metadata := [("k", .str "v")], created_at := .epoch 5,
    updated_at := .epoch 6, deleted := false }

/-- An epoch-timestamped store (fields as `import_dungeon` itself would
have written them): dungeon `"A"`, room `"r1"`, one puzzle `"i1"`. -/
def W6A : Store :=
  { dungeons := [W6Ad], rooms := [W6Ar], items := [W6Ai] }

theorem export_import_rename_roundtrip_witness :
    ∃ tree env s2 newName,
      export_dungeon W6A "A" (some "u1") "" = .ok (.inr tree) ∧
      import_dungeon W6A tree "rename" (some "u1") "" 7 = .ok (env, s2) ∧
      env.status = "ok" ∧ env.code = "IMPORTED" ∧
      env.result = .dict [("dungeon", .dict [("name", .str newName),
        ("deleted", .bool false)])] ∧
      newName ≠ "A" ∧
      (∀ k, roomView s2 newName "u1" k = roomView W6A "A" "u1" k) ∧
      (∀ r c n, itemView s2 newName "u1" r c n
        = itemView W6A "A" "u1" r c n) :=
  export_import_rename_roundtrip W6A "A" "u1" "" "" 7 W6Ad 1 2
    (by decide) (by decide) rfl rfl rfl
    (by
      intro rd hrd
      have hrd2 : rd ∈ [W6Ar] := hrd
      obtain rfl := List.mem_singleton.mp hrd2
      exact ⟨⟨3, rfl⟩, ⟨4, rfl⟩⟩)
    (by
      intro it hit
      have hit2 : it ∈ [W6Ai] := hit
      obtain rfl := List.mem_singleton.mp hit2
      exact ⟨⟨5, rfl⟩, ⟨6, rfl⟩⟩)
    (by
      intro it hit
      have hit2 : it ∈ [W6Ai] := hit
      obtain rfl := List.mem_singleton.mp hit2
      decide)
    (by decide) (by decide)
    (by
      intro it hit
      have hit2 : it ∈ [W6Ai] := hit
      obtain rfl := List.mem_singleton.mp hit2
      exact ⟨W6Ar, by decide, rfl⟩)
    (by
      intro rd hrd hus hdl
      obtain rfl := List.mem_singleton.mp hrd
      decide)
    (by
      intro it hit hus hdl
      obtain rfl := List.mem_singleton.mp hit
      decide)

end DnD
